import Mathlib

/-!
OpenVetSim: beat scheduler, listener broadcaster, status protocol server and XML reader.

A shallow embedding of `pulse.cpp`, of `simstatus.cpp`, of the event and comment logs of
`simutil.cpp` and of `XMLRead::getEntry` of `XMLRead.cpp`.

* C strings are `List Char` (the bytes before the terminating NUL); a buffer that the code
  writes NULs into is a `List Char` that holds the NULs.
* `int` values are `Int`; `unsigned int` counters are `Nat` reduced modulo `2 ^ 32`;
  `ULONGLONG` and `size_t` values are `Nat` reduced modulo `2 ^ 64`.
* `rand()`, `send()` and the monotonic clock are inputs of the functions that use them.
* The state of the status protocol server carries a record `opTrace` of the steps of the
  handler (lock calls, passes of the command loop, applied `set:` commands) in program
  order; the program has no such variable.
* An operation whose behaviour C leaves undefined (a read through a null pointer, a read past
  the end of an array or vector, a conversion of an out-of-range `double`) yields `none`.
-/

namespace OpenVetSim

/-! ## Machine integers -/

/-- Number of values of a `ULONGLONG` and of a `size_t`: `2 ^ 64`. -/
def ULL : Nat := 18446744073709551616

/-- Number of values of an `unsigned int`: `2 ^ 32`. -/
def UINT : Nat := 4294967296

/-- Addition of two `ULONGLONG` values. -/
def uadd64 (a b : Nat) : Nat := (a + b) % ULL

/-- Subtraction of two `ULONGLONG` values (wraps below zero). -/
def usub64 (a b : Nat) : Nat := (a % ULL + ULL - b % ULL) % ULL

/-- Post-increment of an `unsigned int` counter: the new value. -/
def uinc32 (a : Nat) : Nat := (a + 1) % UINT

/-! ## IEEE-754 binary64 arithmetic used by `getWaitTimeMsec`

A finite positive `double` is kept as an exact fraction `num / den`.  Every value that
`getWaitTimeMsec` computes from a non-zero `int` rate lies far inside the normal range of
binary64, so rounding each quotient and product to 53 significant bits (nearest, ties to
even, no wider intermediate precision) is the whole of the arithmetic. -/

/-- A non-negative finite `double`, as the exact fraction `num / den`. -/
structure Dbl where
  num : Nat
  den : Nat
deriving DecidableEq, Repr

/-- Number of binary digits of `n`, computed with at most `fuel` halvings. -/
def bitLen : Nat → Nat → Nat
  | 0, _ => 0
  | fuel + 1, n => if n = 0 then 0 else bitLen fuel (n / 2) + 1

/-- Position of the leading binary digit of `n` (the floor of its base-2 logarithm). -/
def log2Floor (n : Nat) : Nat := bitLen n n - 1

/-- Floor of `n * 2 ^ sh / d` for an integer shift `sh`. -/
def shiftedQuot (n d : Nat) (sh : Int) : Nat :=
  if 0 ≤ sh then (n * 2 ^ sh.toNat) / d else n / (d * 2 ^ (-sh).toNat)

/-- Remainder that goes with `shiftedQuot`, and the divisor it is relative to. -/
def shiftedRem (n d : Nat) (sh : Int) : Nat × Nat :=
  if 0 ≤ sh then ((n * 2 ^ sh.toNat) % d, d)
  else (n % (d * 2 ^ (-sh).toNat), d * 2 ^ (-sh).toNat)

/-- The `double` nearest to `n / d` (ties to even), for `d > 0`. -/
def roundDbl (n d : Nat) : Dbl :=
  if n = 0 then ⟨0, 1⟩
  else
    let sh0 : Int := 53 + (log2Floor d : Int) - (log2Floor n : Int)
    let sh : Int := if shiftedQuot n d sh0 ≥ 2 ^ 53 then sh0 - 1 else sh0
    let q := shiftedQuot n d sh
    let r := shiftedRem n d sh
    let q1 := if 2 * r.1 > r.2 ∨ (2 * r.1 = r.2 ∧ q % 2 = 1) then q + 1 else q
    if 0 ≤ sh then ⟨q1, 2 ^ sh.toNat⟩ else ⟨q1 * 2 ^ (-sh).toNat, 1⟩

/-- The `double` quotient `a / b`. -/
def Dbl.div (a b : Dbl) : Dbl := roundDbl (a.num * b.den) (a.den * b.num)

/-- The `double` product `a * b`. -/
def Dbl.mul (a b : Dbl) : Dbl := roundDbl (a.num * b.num) (a.den * b.den)

/-- Conversion of a small non-negative integer to `double` (exact below `2 ^ 53`). -/
def Dbl.ofNat (n : Nat) : Dbl := ⟨n, 1⟩

/-- Truncation of a `double` towards zero. -/
def Dbl.trunc (a : Dbl) : Nat := a.num / a.den

/-! ## State of `pulse.cpp` -/

/-- Length of `vpcFrequencyArray`. -/
def VPC_ARRAY_LEN : Nat := 200

/-- Value of the `IS_CARDIAC` flag. -/
def IS_CARDIAC : Int := 1

/-- Value of the `NOT_CARDIAC` flag. -/
def NOT_CARDIAC : Int := 0

/-- The globals of `pulse.cpp` and the fields of the shared memory that it reads and writes.
Fields named `cardiac_*`, `respiration_*`, `pulseCount`, `pulseCountVpc`, `breathCount`,
`manual_count` and `msec_time` are `simmgr_shm->status.cardiac.*`,
`simmgr_shm->status.respiration.*` and `simmgr_shm->server.msec_time`.  `hrLogBeats` counts
the calls of the external `hrLogBeat()`, `pulseStates` lists the arguments of the calls of
the external `setPulseState()`. -/
structure Pulse where
  currentPulseRate : Int
  currentVpcFreq : Int
  currentBreathRate : Int
  lastManualBreath : Nat
  vpcFrequencyArray : List Int
  vpcFrequencyIndex : Int
  vpcType : Int
  afibActive : Int
  beatPhase : Int
  vpcState : Int
  vpcCount : Int
  nextBreathTime : Nat
  nextPulseTime : Nat
  breathInterval : Nat
  pulseInterval : Nat
  cardiac_rate : Int
  cardiac_vpc_freq : Int
  cardiac_vpc_type : Int
  cardiac_vpc_count : Int
  cardiac_rhythm : List Char
  pulseCount : Nat
  pulseCountVpc : Nat
  respiration_rate : Int
  breathCount : Nat
  manual_count : Nat
  msec_time : Nat
  hrLogBeats : Nat
  pulseStates : List Int
deriving DecidableEq, Repr

/-- The values the globals of `pulse.cpp` are initialised with; the shared-memory fields are
zero. -/
def Pulse.init : Pulse :=
  { currentPulseRate := 0, currentVpcFreq := 0, currentBreathRate := 0, lastManualBreath := 0,
    vpcFrequencyArray := List.replicate VPC_ARRAY_LEN 0, vpcFrequencyIndex := 0, vpcType := 0,
    afibActive := 0, beatPhase := 0, vpcState := 0, vpcCount := 0, nextBreathTime := 0,
    nextPulseTime := 0, breathInterval := 0, pulseInterval := 0, cardiac_rate := 0,
    cardiac_vpc_freq := 0, cardiac_vpc_type := 0, cardiac_vpc_count := 0, cardiac_rhythm := [],
    pulseCount := 0, pulseCountVpc := 0, respiration_rate := 0, breathCount := 0,
    manual_count := 0, msec_time := 0, hrLogBeats := 0, pulseStates := [] }

/-- The function `resetVpc`. -/
def resetVpc (s : Pulse) : Pulse :=
  { s with beatPhase := 0, vpcState := 0, vpcCount := 0 }

/-- Read of `vpcFrequencyArray[i]`; `none` outside the array. -/
def readVpcFrequency (arr : List Int) (i : Int) : Option Int :=
  if 0 ≤ i then arr.get? i.toNat else none

/-- The function `pulse_beat_handler`.  `rnd` is the value `rand()` returns if it is called.
The result is `none` when the handler reads `vpcFrequencyArray` outside its bounds. -/
def pulse_beat_handler (rnd : Nat) (s : Pulse) : Option Pulse :=
  if s.currentPulseRate > 0 then
    if s.vpcType > 0 ∨ s.afibActive ≠ 0 then
      let old := s.beatPhase
      let s : Pulse := { s with beatPhase := s.beatPhase - 1 }
      if old ≤ 0 then
        if s.vpcState > 0 then
          -- VPC injection
          let s : Pulse :=
            { s with pulseCountVpc := uinc32 s.pulseCountVpc, hrLogBeats := s.hrLogBeats + 1,
                     vpcState := s.vpcState - 1 }
          if s.vpcState = 0 then
            if s.cardiac_vpc_count = 2 then some { s with beatPhase := 16 }
            else if s.cardiac_vpc_count = 3 then some { s with beatPhase := 19 }
            else some { s with beatPhase := 13 }
          else some { s with beatPhase := 6 }
        else
          -- normal cycle
          let s : Pulse :=
            { s with pulseCount := uinc32 s.pulseCount, hrLogBeats := s.hrLogBeats + 1 }
          if s.afibActive ≠ 0 then
            some { s with beatPhase := 5 + ((rnd : Int) % 14) }
          else if s.vpcType > 0 ∧ s.currentVpcFreq > 0 then
            let oldIndex := s.vpcFrequencyIndex
            let s : Pulse := { s with vpcFrequencyIndex := s.vpcFrequencyIndex + 1 }
            let s : Pulse :=
              if oldIndex ≥ (VPC_ARRAY_LEN : Int) then { s with vpcFrequencyIndex := 0 } else s
            match readVpcFrequency s.vpcFrequencyArray s.vpcFrequencyIndex with
            | none => none
            | some v =>
              if v > 0 then some { s with vpcState := s.cardiac_vpc_count, beatPhase := 6 }
              else some { s with beatPhase := 9 }
          else some { s with beatPhase := 9 }
      else some s
    else
      some { s with pulseCount := uinc32 s.pulseCount, hrLogBeats := s.hrLogBeats + 1,
                    pulseStates := s.pulseStates ++ [2] }
  else some s

/-- The function `breath_beat_handler`. -/
def breath_beat_handler (s : Pulse) : Pulse :=
  if s.respiration_rate > 0 then { s with breathCount := uinc32 s.breathCount } else s

/-- The loop of `calculateVPCFreq`: one slot per sample `rand() % 100`. -/
def vpcSlots (freq : Int) (vals : List Nat) : List Int :=
  vals.map (fun r => if ((r % 100 : Nat) : Int) > freq then 0 else 1)

/-- The function `calculateVPCFreq`.  `rnds i` is the value of the `i`-th call of `rand()`. -/
def calculateVPCFreq (rnds : Nat → Nat) (s : Pulse) : Pulse :=
  if s.cardiac_vpc_freq = 0 then { s with currentVpcFreq := 0 }
  else
    { s with vpcFrequencyArray := vpcSlots s.currentVpcFreq ((List.range VPC_ARRAY_LEN).map rnds),
             vpcFrequencyIndex := 0 }

/-- The function `getWaitTimeMsec`.  The quotient `frate / 60` is zero for rate zero, so
that `1 / (frate / 60)` is infinite, and it is negative for a negative rate; the conversion
to `ULONGLONG` is defined only when the truncated value is representable. -/
def getWaitTimeMsec (rate : Int) (_isCardiac : Int) (isFib : Int) : Option Nat :=
  if rate = 0 then none
  else
    let frate := Dbl.ofNat rate.natAbs
    let sec_per_beat := Dbl.div (Dbl.ofNat 1) (Dbl.div frate (Dbl.ofNat 60))
    let sec_per_beat := if isFib ≠ 0 then Dbl.div sec_per_beat (Dbl.ofNat 10) else sec_per_beat
    let msec_per_beat_f := Dbl.mul sec_per_beat (Dbl.ofNat 1000)
    let wait_time_msec := Dbl.trunc msec_per_beat_f
    if rate > 0 then some wait_time_msec
    else if wait_time_msec = 0 then some 0 else none

/-- The function `resetTimer`; the current time is `s.msec_time`. -/
def resetTimer (rate : Int) (isCardiac : Int) (isFib : Int) (s : Pulse) : Option Pulse :=
  match getWaitTimeMsec rate isCardiac isFib with
  | none => none
  | some wait_time_msec =>
    let now := s.msec_time
    if isCardiac ≠ 0 then
      let s : Pulse := { s with pulseInterval := wait_time_msec }
      let remaining := usub64 s.nextPulseTime now
      if remaining > uadd64 now s.pulseInterval then
        some { s with nextPulseTime := uadd64 now wait_time_msec }
      else some s
    else
      let s : Pulse := { s with breathInterval := wait_time_msec }
      let remaining := usub64 s.nextBreathTime now
      if remaining > uadd64 now s.pulseInterval then
        some { s with nextBreathTime := uadd64 now wait_time_msec }
      else some s

/-- The function `set_pulse_rate`. -/
def set_pulse_rate (bpm : Int) (s : Pulse) : Option Pulse :=
  let bpm := if bpm = 0 then 60 else bpm
  if s.vpcType > 0 ∨ s.afibActive ≠ 0 then resetTimer bpm IS_CARDIAC 1 s
  else resetTimer bpm IS_CARDIAC 0 s

/-- The function `restart_breath_timer`. -/
def restart_breath_timer (s : Pulse) : Option Pulse :=
  match getWaitTimeMsec s.respiration_rate 0 0 with
  | none => none
  | some wait_time_msec =>
    let now := s.msec_time
    let s : Pulse := { s with breathInterval := wait_time_msec }
    if s.respiration_rate < 15 then
      some { s with nextBreathTime := uadd64 now (uadd64 (s.breathInterval / 2) 100) }
    else some { s with nextBreathTime := uadd64 now s.breathInterval }

/-- The function `set_breath_rate`. -/
def set_breath_rate (bpm : Int) (s : Pulse) : Option Pulse :=
  let bpm := if bpm = 0 then 60 else bpm
  resetTimer bpm NOT_CARDIAC 0 s

/-- The cardiac half of a pass of `pulseTimer`.  `now1` and `now2` are the two values read
from `simmgr_shm->server.msec_time`, `rnd` the value of `rand()`. -/
def pulseTimerCardiac (now1 now2 : Nat) (rnd : Nat) (s : Pulse) : Option Pulse :=
  if s.nextPulseTime ≤ now1 then
    match pulse_beat_handler rnd s with
    | none => none
    | some s =>
      let s : Pulse := { s with nextPulseTime := uadd64 s.nextPulseTime s.pulseInterval }
      if s.nextPulseTime ≤ uadd64 now2 1 then some { s with nextPulseTime := now2 } else some s
  else some s

/-- The respiratory half of a pass of `pulseTimer`, with its two clock values. -/
def pulseTimerBreath (now3 now4 : Nat) (s : Pulse) : Pulse :=
  if s.nextBreathTime ≤ now3 then
    let s : Pulse := breath_beat_handler s
    let s : Pulse := { s with nextBreathTime := uadd64 s.nextBreathTime s.breathInterval }
    if s.nextBreathTime ≤ uadd64 now4 1 then
      { s with nextBreathTime := uadd64 now4 s.breathInterval }
    else s
  else s

/-- One pass of the `while (1)` loop of `pulseTimer`.  `now1 .. now4` are the four values
read from `simmgr_shm->server.msec_time` during the pass, `rnd` the value of `rand()`. -/
def pulseTimerIter (now1 now2 now3 now4 : Nat) (rnd : Nat) (s : Pulse) : Option Pulse :=
  match pulseTimerCardiac now1 now2 rnd s with
  | none => none
  | some s => some (pulseTimerBreath now3 now4 s)

/-- Passes of `pulseTimer` with the clock advancing one millisecond per pass: `n` passes
that start when the clock shows `t`, so that pass `j` reads `t + j` at each of its reads. -/
def pulseTimerRun (rnds : Nat → Nat) : Nat → Nat → Pulse → Option Pulse
  | 0, _, s => some s
  | n + 1, t, s =>
    match pulseTimerIter (t + 1) (t + 1) (t + 1) (t + 1) (rnds t) { s with msec_time := t + 1 } with
    | none => none
    | some s1 => pulseTimerRun rnds n (t + 1) s1

/-- Repeated calls of `pulse_beat_handler`; call `i` draws `rnds i`. -/
def pulseBeats (rnds : Nat → Nat) : Nat → Pulse → Option Pulse
  | 0, s => some s
  | n + 1, s =>
    match pulseBeats rnds n s with
    | none => none
    | some s1 => pulse_beat_handler (rnds n) s1

/-! ## Listener table of `pulse.cpp` -/

/-- Number of slots of the `listeners` table. -/
def MAX_LISTENERS : Nat := 10

/-- One slot `i` of the listener table: the fields `allocated`, `thread_no` and `cfd` of
`listeners[i]`, and the fields `allocated` and `ipAddr` of `simmgr_shm->simControllers[i]`
(here `ctl_allocated` and `ipAddr`). -/
structure Listener where
  allocated : Int
  thread_no : Int
  cfd : Int
  ctl_allocated : Int
  ipAddr : List Char
deriving DecidableEq, Repr

/-- A call on a socket: `send(fd, buf, ..)` or `closesocket(fd)`. -/
inductive NetEvent where
  | sent (fd : Int) (buf : List Char)
  | closed (fd : Int)
deriving DecidableEq, Repr

/-- The table `pulseTask` starts with: every slot free. -/
def emptyListeners : List Listener :=
  List.replicate MAX_LISTENERS
    { allocated := 0, thread_no := 0, cfd := 0, ctl_allocated := 0, ipAddr := [] }

/-- Number of allocated slots of a table. -/
def allocatedCount (ls : List Listener) : Nat :=
  (ls.filter (fun l => l.allocated = 1)).length

/-- The words `pulseBroadcastLoop` sends. -/
def pulseWord : List Char := "pulse\n".toList

/-- The word sent for a VPC beat. -/
def pulseWordVPC : List Char := "pulseVPC\n".toList

/-- The word sent for a breath. -/
def breathWord : List Char := "breath\n".toList

/-- Text of `"%d"` for an `int`. -/
def fmtInt (i : Int) : List Char :=
  if i < 0 then '-' :: Nat.toDigits 10 i.natAbs else Nat.toDigits 10 i.toNat

/-- The text `statusPort:<PORT_STATUS>` that `sendStatusPort` and the broadcast loop build. -/
def statusPortWord (portStatus : Int) : List Char :=
  "statusPort:".toList ++ fmtInt portStatus

/-- The function `sendStatusPort` for one slot. -/
def sendStatusPort (portStatus : Int) (l : Listener) : List NetEvent :=
  if l.allocated = 1 then [NetEvent.sent l.cfd (statusPortWord portStatus)] else []

/-- First loop of the accept logic of `pulseTask` (reopen from an existing controller), run
over the slots from the current one on.  `none` when the loop ends without a match
(`found == 0`); otherwise the new slots and the socket calls made. -/
def reopenLoop (portStatus : Int) (cfd : Int) (newIpAddr : List Char) :
    List Listener → Option (List Listener × List NetEvent)
  | [] => none
  | l :: ls =>
    if l.allocated = 1 ∧ newIpAddr = l.ipAddr then
      let l1 : Listener := { l with cfd := cfd }
      some (l1 :: ls, NetEvent.closed l.cfd :: sendStatusPort portStatus l1)
    else
      match reopenLoop portStatus cfd newIpAddr ls with
      | none => none
      | some (ls1, evs) => some (l :: ls1, evs)

/-- Second loop of the accept logic of `pulseTask` (take the first free slot), run over the
slots from index `i` on.  `none` when no slot is free (`i == MAX_LISTENERS` after the
loop). -/
def allocLoop (portStatus : Int) (cfd : Int) (newIpAddr : List Char) (i : Nat) :
    List Listener → Option (List Listener × List NetEvent)
  | [] => none
  | l :: ls =>
    if l.allocated = 0 then
      let l1 : Listener :=
        { l with allocated := 1, cfd := cfd, thread_no := i, ctl_allocated := 1,
                 ipAddr := newIpAddr }
      some (l1 :: ls, sendStatusPort portStatus l1)
    else
      match allocLoop portStatus cfd newIpAddr (i + 1) ls with
      | none => none
      | some (ls1, evs) => some (l :: ls1, evs)

/-- One pass of the accept loop of `pulseTask`, after `accept` has returned the socket `cfd`
for a peer whose address prints as `newIpAddr`. -/
def acceptConnection (portStatus : Int) (cfd : Int) (newIpAddr : List Char)
    (ls : List Listener) : List Listener × List NetEvent :=
  if cfd ≥ 0 then
    match reopenLoop portStatus cfd newIpAddr ls with
    | some r => r
    | none =>
      match allocLoop portStatus cfd newIpAddr 0 ls with
      | some r => r
      | none => (ls, [NetEvent.closed cfd])
  else (ls, [])

/-- The function `broadcast_word`, run over the slots of the table.  `send fd word` is the
value the call `send(fd, word, ..)` returns; it is stored in the `size_t` variable `len`
before the test `len < 0`.  The result is the count returned, the new table and the socket
calls made, in order. -/
def broadcast_word (send : Int → List Char → Int) (word : List Char) :
    List Listener → Int × List Listener × List NetEvent
  | [] => (0, [], [])
  | l :: ls =>
    if l.allocated = 1 then
      let fd := l.cfd
      let len : Nat := ((send fd word) % (ULL : Int)).toNat
      if len < 0 then
        let r := broadcast_word send word ls
        (r.1, { l with allocated := 0 } :: r.2.1,
          NetEvent.sent fd word :: NetEvent.closed fd :: r.2.2)
      else
        let r := broadcast_word send word ls
        (r.1 + 1, l :: r.2.1, NetEvent.sent fd word :: r.2.2)
    else
      let r := broadcast_word send word ls
      (r.1, l :: r.2.1, r.2.2)

/-- The local variables of `pulseBroadcastLoop`. -/
structure BcastLocals where
  portUpdateLoops : Int
  last_pulse : Nat
  last_pulseVpc : Nat
  last_breath : Nat
  last_manual_breath : Nat
deriving DecidableEq, Repr

/-- State of `pulseBroadcastLoop` between two passes: its locals, the shared counters it
reads, the listener table, and the socket calls made so far. -/
structure Bcast where
  loc : BcastLocals
  shm : Pulse
  listeners : List Listener
  events : List NetEvent
deriving Repr

/-- One call of `broadcast_word` inside the loop. -/
def Bcast.broadcast (send : Int → List Char → Int) (word : List Char) (b : Bcast) : Bcast :=
  let r := broadcast_word send word b.listeners
  { b with listeners := r.2.1, events := b.events ++ r.2.2 }

/-- First step of a pass of `pulseBroadcastLoop`: the status port is announced again when
`portUpdateLoops++ > 500`. -/
def bcastStatusPort (send : Int → List Char → Int) (portStatus : Int) (b : Bcast) : Bcast :=
  let oldLoops := b.loc.portUpdateLoops
  let b : Bcast := { b with loc := { b.loc with portUpdateLoops := oldLoops + 1 } }
  if oldLoops > 500 then
    let b1 := b.broadcast send (statusPortWord portStatus)
    { b1 with loc := { b1.loc with portUpdateLoops := 0 } }
  else b

/-- Second step: a change of `pulseCount` is broadcast as `pulseWord`. -/
def bcastPulse (send : Int → List Char → Int) (b : Bcast) : Bcast :=
  if b.loc.last_pulse ≠ b.shm.pulseCount then
    Bcast.broadcast send pulseWord { b with loc := { b.loc with last_pulse := b.shm.pulseCount } }
  else b

/-- Third step: a change of `pulseCountVpc` is broadcast as `pulseWordVPC`. -/
def bcastPulseVpc (send : Int → List Char → Int) (b : Bcast) : Bcast :=
  if b.loc.last_pulseVpc ≠ b.shm.pulseCountVpc then
    Bcast.broadcast send pulseWordVPC
      { b with loc := { b.loc with last_pulseVpc := b.shm.pulseCountVpc } }
  else b

/-- Fourth step: a change of `manual_count` increments `breathCount`. -/
def bcastManualBreath (b : Bcast) : Bcast :=
  if b.loc.last_manual_breath ≠ b.shm.manual_count then
    { b with loc := { b.loc with last_manual_breath := b.shm.manual_count },
             shm := { b.shm with breathCount := uinc32 b.shm.breathCount } }
  else b

/-- Fifth step: a change of `breathCount` is broadcast as `breathWord`. -/
def bcastBreath (send : Int → List Char → Int) (b : Bcast) : Bcast :=
  if b.loc.last_breath ≠ b.shm.breathCount then
    let b : Bcast := { b with loc := { b.loc with last_breath := b.shm.breathCount } }
    let b : Bcast :=
      if b.loc.last_manual_breath ≠ b.shm.manual_count then
        { b with loc := { b.loc with last_manual_breath := b.shm.manual_count } }
      else b
    Bcast.broadcast send breathWord b
  else b

/-- One pass of the `while (1)` loop of `pulseBroadcastLoop`: its five steps in order. -/
def pulseBroadcastIter (send : Int → List Char → Int) (portStatus : Int) (b : Bcast) : Bcast :=
  bcastBreath send (bcastManualBreath (bcastPulseVpc send (bcastPulse send
    (bcastStatusPort send portStatus b))))

/-- The socket calls a pass of `pulseBroadcastLoop` adds to the record. -/
def passEvents (send : Int → List Char → Int) (portStatus : Int) (b : Bcast) : List NetEvent :=
  (pulseBroadcastIter send portStatus b).events.drop b.events.length

/-! ## C strings -/

/-- The terminating byte of a C string. -/
def NUL : Char := Char.ofNat 0

/-- The C string that starts at offset `p` of a buffer: the bytes up to the next NUL. -/
def cstrAt (buf : List Char) (p : Nat) : List Char :=
  (buf.drop p).takeWhile (fun c => c ≠ NUL)

/-- The call `strchr(buf + p, c)`: offset in the buffer of the first `c` of the C string at
`p`, `none` for a null result. -/
def strchrAt (buf : List Char) (p : Nat) (c : Char) : Option Nat :=
  let s := cstrAt buf p
  if s.indexOf c < s.length then some (p + s.indexOf c) else none

/-- Whether `s` begins with `needle`. -/
def startsWith (needle : List Char) (s : List Char) : Bool :=
  s.take needle.length = needle

/-- The C function `isspace` in the "C" locale. -/
def isspace (c : Char) : Bool :=
  c = ' ' || c = '\t' || c = '\n' || c = Char.ofNat 11 || c = Char.ofNat 12 || c = '\r'

/-- The digits read by `atoi`, accumulated in base ten. -/
def atoiDigits : Nat → List Char → Nat
  | acc, [] => acc
  | acc, c :: cs => if c.isDigit then atoiDigits (acc * 10 + (c.toNat - 48)) cs else acc

/-- The C function `atoi`: white space, an optional sign, then digits.  A value outside the
range of `int` is not defined by C; `overflow` gives what the library returns for it. -/
def atoi (overflow : Int → Int) (s : List Char) : Int :=
  let s := s.dropWhile isspace
  let neg : Bool := match s with
    | '-' :: _ => true
    | _ => false
  let digits : List Char := match s with
    | '-' :: r => r
    | '+' :: r => r
    | _ => s
  let n : Int := (atoiDigits 0 digits : Nat)
  let v : Int := if neg then -n else n
  if -2147483648 ≤ v ∧ v ≤ 2147483647 then v else overflow v

/-- State of the tokeniser of `explode`: the token being read (`none` before its first
byte) and the input left; the result is what `std::getline` pushes, token by token. -/
def explodeGo (delim : Char) : Option (List Char) → List Char → List (List Char)
  | none, [] => []
  | some cur, [] => [cur]
  | cur, c :: cs =>
    if c = delim then cur.getD [] :: explodeGo delim none cs
    else explodeGo delim (some (cur.getD [] ++ [c])) cs

/-- The function `explode`: the tokens `std::getline` extracts from `s`.  A delimiter that
ends the input is followed by no token. -/
def explode (s : List Char) (delim : Char) : List (List Char) :=
  explodeGo delim none s

/-- The function `replaceAll` for a needle of several bytes, as a pass over the string:
`skip` counts the bytes of a matched needle that are still to be dropped. -/
def replaceNeedle (needle : List Char) (replace : Char) : Nat → List Char → List Char
  | _, [] => []
  | skip + 1, _ :: cs => replaceNeedle needle replace skip cs
  | 0, c :: cs =>
    if startsWith needle (c :: cs) then replace :: replaceNeedle needle replace (needle.length - 1) cs
    else c :: replaceNeedle needle replace 0 cs

/-- The function `replaceAll(args, strlen(args), needle, replace)` on the C string `args`. -/
def replaceAll (args : List Char) (needle : List Char) (replace : Char) : List Char :=
  if needle.length = 1 then args.map (fun c => if c = needle.headD NUL then replace else c)
  else replaceNeedle needle replace 0 args

/-- The call `strstr(s, needle)` followed by `cptr[0] = 0` when it is not null: the string
cut before the first occurrence of `needle`. -/
def cutAt (needle : List Char) : List Char → List Char
  | [] => []
  | c :: cs => if startsWith needle (c :: cs) then [] else c :: cutAt needle cs

/-! ## Settling loop of `pulse.cpp` -/

/-- One pass of the `while (1)` loop of `pulseProcessChild`, after its 50 ms sleep.  `rnds i`
is the value of the `i`-th call of `rand()` if `calculateVPCFreq` runs.  The result is
`none` when a call of `getWaitTimeMsec` has no defined value. -/
def pulseProcessChildIter (rnds : Nat → Nat) (s : Pulse) : Option Pulse :=
  let r1 : Option Pulse :=
    if s.currentPulseRate ≠ s.cardiac_rate then
      (set_pulse_rate s.cardiac_rate s).map
        (fun s => { s with currentPulseRate := s.cardiac_rate })
    else some s
  let r2 : Option Pulse := r1.bind (fun s =>
    if s.currentVpcFreq ≠ s.cardiac_vpc_freq ∨ s.vpcType ≠ s.cardiac_vpc_type then
      set_pulse_rate s.cardiac_rate
        (calculateVPCFreq rnds
          { s with currentVpcFreq := s.cardiac_vpc_freq, vpcType := s.cardiac_vpc_type })
    else some s)
  let r3 : Option Pulse := r2.bind (fun s =>
    if startsWith "afib".toList s.cardiac_rhythm = true ∧ ¬ s.afibActive ≠ 0 then
      set_pulse_rate s.cardiac_rate { s with afibActive := 1 }
    else if s.afibActive ≠ 0 then
      set_pulse_rate s.cardiac_rate { s with afibActive := 0 }
    else some s)
  let r4 : Option Pulse := r3.bind (fun s =>
    if s.lastManualBreath ≠ s.manual_count then
      restart_breath_timer { s with lastManualBreath := s.manual_count }
    else some s)
  r4.bind (fun s =>
    if s.currentBreathRate ≠ s.respiration_rate then
      (set_breath_rate s.respiration_rate s).map
        (fun s => { s with currentBreathRate := s.respiration_rate })
    else some s)

/-- Successive passes of the loop of `pulseProcessChild` with the shared memory unchanged
between them. -/
def pulseProcessChildRun (rnds : Nat → Nat) : Nat → Pulse → Option Pulse
  | 0, s => some s
  | n + 1, s =>
    match pulseProcessChildRun rnds n s with
    | none => none
    | some s1 => pulseProcessChildIter rnds s1

/-! ## State of `simstatus.cpp` -/

/-- The fields of the shared memory that `simstatusHandleCommand`, `addEvent` and
`addComment` read and write, and those of the records `status.scenario`, `status.pulse` and
`status.auscultation` that `sendStatus` prints or clears.  `α` is the type of an instructor
sub-record owned by an applier.  The numeric fields are taken as `int`. -/
structure Shm (α : Type) where
  server_ip_addr : List Char
  server_wifi_ip_addr : List Char
  server_name : List Char
  server_server_time : List Char
  status_scenario_error_message : List Char
  status_scenario_state : List Char
  status_pulse_right_dorsal : Int
  status_pulse_left_dorsal : Int
  status_pulse_right_femoral : Int
  status_pulse_left_femoral : Int
  status_pulse_duration : Int
  status_pulse_active : Int
  status_auscultation_side : Int
  status_auscultation_row : Int
  status_auscultation_col : Int
  instructor_cardiac : α
  instructor_respiration : α
  instructor_general : α
  instructor_telesim : α
  instructor_vocals : α
  instructor_media : α
  instructor_scenario_active : List Char
  instructor_scenario_state : List Char
  instructor_scenario_record : Int
  instructor_cpr_compression : Int
  instructor_cpr_release : Int
  instructor_defibrillation_shock : Int
  eventList : List (List Char)
  eventListNextWrite : Int
  commentList : List (List Char)
  commentListNext : Int

/-- What `simstatusHandleCommand` takes from outside `simstatus.cpp`.  The constants
of `vetsim.h`, the text `get_date` writes, what `atoi` returns out of range, and the
per-class appliers (field, value and the instructor sub-record to the status code and the
new sub-record) are not in this source tree.  The status writers print the records of
`vetsim.h` field by field.  Of `sendStatus` the parts that print fields outside `Shm` are
taken as arbitrary functions from the shared memory to the text they append to the reply:
the members `active` to `record` of the block `scenario` with its opening line, the blocks
`logfile` to `respiration`, the blocks `general` and `vocals`, and the blocks `media` to
`controllerVersions`.  `sendQuickStatus` and `sendSimctrData` are taken as arbitrary
functions from the shared memory to the text they append and the shared memory they
leave. -/
structure Env (α : Type) where
  PORT_PULSE : Int
  PORT_STATUS : Int
  STR_SIZE : Nat
  COMMENT_SIZE : Nat
  EVENT_LIST_SIZE : Nat
  COMMENT_LIST_SIZE : Nat
  date : List Char
  atoiOverflow : Int → Int
  cardiac_parse : List Char → List Char → α → Int × α
  respiration_parse : List Char → List Char → α → Int × α
  general_parse : List Char → List Char → α → Int × α
  telesim_parse : List Char → List Char → α → Int × α
  vocals_parse : List Char → List Char → α → Int × α
  media_parse : List Char → List Char → α → Int × α
  statusScenarioHead : Shm α → List Char
  statusLogfileToRespiration : Shm α → List Char
  statusGeneralVocals : Shm α → List Char
  statusMediaToControllers : Shm α → List Char
  sendQuickStatus : Shm α → List Char × Shm α
  sendSimctrData : Shm α → List Char × Shm α

/-- One entry of `argList`. -/
structure Argument where
  key : List Char
  value : List Char
deriving DecidableEq, Repr

/-- A step of `simstatusHandleCommand` that is recorded in the order in which it happens:
a call of `takeInstructorLock`, a call of `releaseLock` that releases the mutex, the start
of the body of the command loop for an entry of `argList`, and the point of the `set:`
branch at which the class chain that writes the shared memory is entered for an entry. -/
inductive HandlerOp where
  | take
  | release
  | dispatch (arg : Argument)
  | applied (arg : Argument)
deriving DecidableEq, Repr

/-- The globals of `simstatus.cpp` (`htmlReply`, `closeFlag`, the array `defaultArgs` with
its terminating NUL) and the shared memory.  `opTrace` is no variable of the program: it
records the steps `HandlerOp` of the handler in their order, so that the order of the lock
calls and of the commands can be stated. -/
structure Server (α : Type) where
  htmlReply : List Char
  closeFlag : Int
  defaultArgs : List Char
  opTrace : List HandlerOp
  shm : Shm α

/-- The array `defaultArgs` as the program starts. -/
def defaultArgsInit : List Char := "status=1".toList ++ [NUL]

/-- The three overloads of `makejson`, for a content already printed as text. -/
def makejson (key content : List Char) : List Char :=
  ['"'] ++ key ++ "\":\"".toList ++ content ++ ['"']

/-- The function `vsnprintf(buf, sz, "%s", str)` behind `sprintf_s`: what `buf` holds. -/
def sprintf_s (sz : Nat) (str : List Char) : List Char := str.take (sz - 1)

/-- The function `takeInstructorLock`: locks the mutex and returns 0. -/
def takeInstructorLock {α : Type} (s : Server α) : Int × Server α :=
  (0, { s with opTrace := s.opTrace ++ [HandlerOp.take] })

/-- The function `releaseInstructorLock`. -/
def releaseInstructorLock {α : Type} (s : Server α) : Server α :=
  { s with opTrace := s.opTrace ++ [HandlerOp.release] }

/-- The function `releaseLock`. -/
def releaseLock {α : Type} (taken : Int) (s : Server α) : Server α :=
  if taken ≠ 0 then releaseInstructorLock s else s

/-- The function `addEvent` (the log line it writes is left out). -/
def addEvent {α : Type} (env : Env α) (str : List Char) (m : Shm α) : Shm α :=
  let eventNext := m.eventListNextWrite
  let m : Shm α := { m with eventList := m.eventList.set eventNext.toNat (sprintf_s env.STR_SIZE str) }
  let eventNext := eventNext + 1
  let eventNext := if eventNext ≥ (env.EVENT_LIST_SIZE : Int) then 0 else eventNext
  let m : Shm α := { m with eventListNextWrite := eventNext }
  if str = "aed".toList then { m with instructor_defibrillation_shock := 1 } else m

/-- The function `addComment`. -/
def addComment {α : Type} (env : Env α) (str : List Char) (m : Shm α) : Shm α :=
  let commentNext := m.commentListNext
  let str := if str.length ≥ env.COMMENT_SIZE then str.take (env.COMMENT_SIZE - 1) else str
  let m : Shm α :=
    { m with commentList := m.commentList.set commentNext.toNat (sprintf_s env.COMMENT_SIZE str) }
  let commentNext := commentNext + 1
  let commentNext := if commentNext ≥ (env.COMMENT_LIST_SIZE : Int) then 0 else commentNext
  { m with commentListNext := commentNext }

/-- The block `auscultation` that `sendStatus` writes. -/
def statusAuscultation {α : Type} (m : Shm α) : List Char :=
  " \"auscultation\" : \x7b\n".toList
    ++ makejson "side".toList (fmtInt m.status_auscultation_side) ++ ",\n".toList
    ++ makejson "row".toList (fmtInt m.status_auscultation_row) ++ ",\n".toList
    ++ makejson "col".toList (fmtInt m.status_auscultation_col) ++ "\n\x7d,\n".toList

/-- The block `pulse` that `sendStatus` writes. -/
def statusPulse {α : Type} (m : Shm α) : List Char :=
  " \"pulse\" : \x7b\n".toList
    ++ makejson "right_dorsal".toList (fmtInt m.status_pulse_right_dorsal) ++ ",\n".toList
    ++ makejson "left_dorsal".toList (fmtInt m.status_pulse_left_dorsal) ++ ",\n".toList
    ++ makejson "right_femoral".toList (fmtInt m.status_pulse_right_femoral) ++ ",\n".toList
    ++ makejson "left_femoral".toList (fmtInt m.status_pulse_left_femoral) ++ ",\n".toList
    ++ makejson "duration".toList (fmtInt m.status_pulse_duration) ++ ",\n".toList
    ++ makejson "active".toList (fmtInt m.status_pulse_active) ++ "\n\x7d,\n".toList

/-- The function `sendStatus`: the text it appends to the reply and the shared memory it
leaves, in which a pending `status.scenario.error_message` is cleared once printed. -/
def sendStatus {α : Type} (env : Env α) (m : Shm α) : List Char × Shm α :=
  let text := env.statusScenarioHead m
  let pending : Bool := m.status_scenario_error_message.length > 0
  let text :=
    if pending then
      text ++ makejson "error_message".toList m.status_scenario_error_message ++ ",\n".toList
    else text
  let m : Shm α := if pending then { m with status_scenario_error_message := [] } else m
  let text := text ++ makejson "state".toList m.status_scenario_state ++ "\n\x7d,\n".toList
  let text := text ++ env.statusLogfileToRespiration m
  let text := text ++ statusAuscultation m
  let text := text ++ env.statusGeneralVocals m
  let text := text ++ statusPulse m
  let text := text ++ env.statusMediaToControllers m
  (text, m)

/-! ## `simstatusHandleCommand` -/

/-- The `while (valP)` loop of `simstatusHandleCommand` that fills `argList`.  `buf` is the
buffer `args` points into, `keyP` the offset of the current key; `valP` and `nextP` are the
results of `strchr` on the C string at `keyP`.  The result is `argList` and the buffer with
the NULs the loop has written.  Each pass moves `keyP` forward, so a fuel of the buffer
length is never used up. -/
def parseArgsLoop : Nat → List Char → Nat → List Argument × List Char
  | 0, buf, _ => ([], buf)
  | fuel + 1, buf, keyP =>
    match strchrAt buf keyP '=' with
    | none => ([], buf)
    | some valP =>
      let nextP := strchrAt buf keyP '&'
      let buf := buf.set valP NUL
      let valP := valP + 1
      let buf := match nextP with
        | some n => buf.set n NUL
        | none => buf
      let arg : Argument := ⟨cstrAt buf keyP, cstrAt buf valP⟩
      match nextP with
      | some n =>
        let r := parseArgsLoop fuel buf (n + 1)
        (arg :: r.1, r.2)
      | none => ([arg], buf)

/-- The argument parse of `simstatusHandleCommand` on the buffer `args` points to. -/
def parseArgs (buf : List Char) : List Argument × List Char :=
  parseArgsLoop (buf.length + 1) buf 0

/-- Append text to `htmlReply`. -/
def Server.reply {α : Type} (s : Server α) (text : List Char) : Server α :=
  { s with htmlReply := s.htmlReply ++ text }

/-- The fragment written for a `close` key whose value is not accepted. -/
def badParam : List Char := makejson "error".toList "bad param".toList

/-- One pass of the first `for` loop over `argList` (session keys and `close`). -/
def scanStep {α : Type} (env : Env α) (s : Server α) (arg : Argument) : Server α :=
  if arg.key = "PHPSESSID".toList then
    s.reply (makejson arg.key arg.value ++ ",\n".toList)
  else if arg.key = "simIIUserID".toList then
    s.reply (makejson arg.key arg.value ++ ",\n".toList)
  else if arg.key = "userID".toList then
    s.reply (makejson arg.key arg.value ++ ",\n".toList)
  else if arg.key = "close".toList then
    let i := atoi env.atoiOverflow arg.value
    if i = 565 then
      { s.reply (makejson arg.key arg.value ++ ",\n".toList) with closeFlag := 1 }
    else
      s.reply (badParam ++ ",\n".toList)
  else s

/-- The first `for` loop over `argList`. -/
def scanLoop {α : Type} (env : Env α) (argList : List Argument) (s : Server α) : Server α :=
  argList.foldl (scanStep env) s

/-- The test `key.compare(0, 4, "set:") == 0`. -/
def isSetKey (key : List Char) : Bool := key.take 4 = "set:".toList

/-- The text of the `status` member for a status code. -/
def statusText (sts : Int) : List Char :=
  if sts = 1 then "invalid param".toList
  else if sts = 2 then "invalid class".toList
  else if sts = 3 then "invalid parameter".toList
  else if sts = 4 then "Null string in parameter".toList
  else if sts = 5 then "Scenario is not running".toList
  else "ok".toList

/-- The class dispatch of a `set:` command: the status code `sts` and the shared memory
after the command. -/
def setClass {α : Type} (env : Env α) (cls param value : List Char) (m : Shm α) : Int × Shm α :=
  if cls = "cardiac".toList then
    let r := env.cardiac_parse param value m.instructor_cardiac
    (r.1, { m with instructor_cardiac := r.2 })
  else if cls = "scenario".toList then
    if param = "active".toList then
      (0, { m with instructor_scenario_active := sprintf_s env.STR_SIZE value })
    else if param = "state".toList then
      (0, { m with instructor_scenario_state := sprintf_s env.STR_SIZE value })
    else if param = "record".toList then
      (0, { m with instructor_scenario_record := atoi env.atoiOverflow value })
    else (1, m)
  else if cls = "respiration".toList then
    let r := env.respiration_parse param value m.instructor_respiration
    (r.1, { m with instructor_respiration := r.2 })
  else if cls = "general".toList then
    let r := env.general_parse param value m.instructor_general
    (r.1, { m with instructor_general := r.2 })
  else if cls = "telesim".toList then
    let r := env.telesim_parse param value m.instructor_telesim
    (r.1, { m with instructor_telesim := r.2 })
  else if cls = "vocals".toList then
    let r := env.vocals_parse param value m.instructor_vocals
    (r.1, { m with instructor_vocals := r.2 })
  else if cls = "media".toList then
    let r := env.media_parse param value m.instructor_media
    (r.1, { m with instructor_media := r.2 })
  else if cls = "event".toList then
    if param = "event_id".toList then
      if value.length ≠ 0 then (0, addEvent env value m) else (4, m)
    else if param = "comment".toList then
      if value.length ≠ 0 then
        let smbuf := sprintf_s 2048 ("Comment: ".toList ++ value)
        if m.status_scenario_state = "Running".toList ∨ m.status_scenario_state = "Paused".toList
        then (0, addComment env smbuf m)
        else (5, addComment env smbuf m)
      else (4, m)
    else (2, m)
  else if cls = "cpr".toList then
    if param = "compression".toList then
      (0, { m with instructor_cpr_compression := atoi env.atoiOverflow value })
    else if param = "release".toList then
      (0, { m with instructor_cpr_release := atoi env.atoiOverflow value })
    else (2, m)
  else if cls = "pulse".toList then
    if param = "right_dorsal".toList then
      (0, { m with status_pulse_right_dorsal := atoi env.atoiOverflow value })
    else if param = "left_dorsal".toList then
      (0, { m with status_pulse_left_dorsal := atoi env.atoiOverflow value })
    else if param = "right_femoral".toList then
      (0, { m with status_pulse_right_femoral := atoi env.atoiOverflow value })
    else if param = "left_femoral".toList then
      (0, { m with status_pulse_left_femoral := atoi env.atoiOverflow value })
    else (2, m)
  else if cls = "auscultation".toList then
    if param = "side".toList then
      (0, { m with status_auscultation_side := atoi env.atoiOverflow value })
    else if param = "row".toList then
      (0, { m with status_auscultation_row := atoi env.atoiOverflow value })
    else if param = "col".toList then
      (0, { m with status_auscultation_col := atoi env.atoiOverflow value })
    else (2, m)
  else (2, m)

/-- The text that opens the fragment of the `set_count`-th `set:` command. -/
def setOpen (set_count : Int) : List Char :=
  " \"set_".toList ++ fmtInt set_count ++ "\" : \x7b\n    ".toList

/-- The branch of the command loop for a key that begins with `set:`; `set_count` is the
count after its increment.  The reads `v[1]` and `v[2]` of the vector returned by `explode`
are reads past its end when it has fewer elements; the result is then `none`. -/
def handleSet {α : Type} (env : Env α) (key value : List Char) (set_count : Int)
    (s : Server α) : Option (Server α) :=
  let v := explode key ':'
  let s := s.reply (setOpen set_count)
  match v.get? 1 with
  | none => none
  | some cls =>
    let s := s.reply (makejson "class".toList cls ++ ",\n    ".toList)
    match v.get? 2 with
    | none => none
    | some param =>
      let s := s.reply (makejson "param".toList param ++ ",\n    ".toList)
      let s := s.reply (makejson "value".toList value ++ ",\n    ".toList)
      let s : Server α := { s with opTrace := s.opTrace ++ [HandlerOp.applied ⟨key, value⟩] }
      let r := setClass env cls param value s.shm
      let s : Server α := { s with shm := r.2 }
      some (s.reply (makejson "status".toList (statusText r.1) ++ "\n    \x7d".toList))

/-- The body of the command loop for one key, after the separating comma: the server and
`set_count` it leaves. -/
def dispatchOne {α : Type} (env : Env α) (arg : Argument) (set_count : Int) (s : Server α) :
    Option (Server α × Int) :=
  let key := arg.key
  let value := arg.value
  if key = "qstat".toList then
    let r := env.sendQuickStatus s.shm
    some (({ s with shm := r.2 } : Server α).reply r.1, set_count)
  else if key = "check".toList then
    some (s.reply (makejson "check".toList "check is ok".toList ++ ",\n".toList
      ++ makejson "ip_addr".toList s.shm.server_ip_addr ++ ",\n".toList
      ++ makejson "wifi_ip_addr".toList s.shm.server_wifi_ip_addr ++ ",\n".toList
      ++ makejson "port_pulse".toList (fmtInt env.PORT_PULSE) ++ ",\n".toList
      ++ makejson "port_status".toList (fmtInt env.PORT_STATUS)), set_count)
  else if key = "date".toList then
    some (s.reply (makejson "date".toList env.date), set_count)
  else if key = "ip".toList then
    some (s.reply (makejson "ip_addr".toList s.shm.server_ip_addr), set_count)
  else if key = "host".toList then
    some (s.reply (makejson "hostname".toList s.shm.server_name), set_count)
  else if key = "time".toList then
    let theTime := s.shm.server_server_time
    let theTime := if theTime.getLast? = some '\n' then theTime.dropLast else theTime
    some (s.reply (makejson "time".toList theTime), set_count)
  else if key = "status".toList then
    let r := sendStatus env s.shm
    some (({ s with shm := r.2 } : Server α).reply r.1, set_count)
  else if key = "simctrldata".toList then
    let r := env.sendSimctrData s.shm
    some (({ s with shm := r.2 } : Server α).reply r.1, set_count)
  else if isSetKey key then
    match handleSet env key value (set_count + 1) s with
    | none => none
    | some s1 => some (s1, set_count + 1)
  else
    some (s.reply (makejson "Invalid Command".toList "none".toList), set_count)

/-- The command loop (third `for` loop over `argList`); `i` counts the keys handled so
far. -/
def dispatchLoop {α : Type} (env : Env α) :
    List Argument → Int → Int → Server α → Option (Server α)
  | [], _, _, s => some s
  | arg :: rest, i, set_count, s =>
    let s : Server α := { s with opTrace := s.opTrace ++ [HandlerOp.dispatch arg] }
    let s := if i > 0 then s.reply ",\n".toList else s
    match dispatchOne env arg set_count s with
    | none => none
    | some r => dispatchLoop env rest (i + 1) r.2 r.1

/-- The header block of a reply with status 200. -/
def okHeader : List Char :=
  "HTTP/1.1 200 OK\r\n".toList ++ "Server:vetsim / 1.0\r\n".toList
    ++ "Access-Control-Allow-Origin: *\r\n".toList
    ++ "Content-Type:  application/json\r\n".toList ++ "Connection: close\r\n\r\n".toList

/-- The end of `simstatusHandleCommand`: the command loop, the closing brace and the
release of the instructor lock. -/
def finishCommand {α : Type} (env : Env α) (argList : List Argument) (ss_iiLockTaken : Int)
    (s : Server α) : Option (Server α) :=
  match dispatchLoop env argList 0 0 s with
  | none => none
  | some s =>
    let s := s.reply "\n\x7d\n".toList
    if ss_iiLockTaken ≠ 0 then some (releaseLock ss_iiLockTaken s) else some s

/-- The part of `simstatusHandleCommand` after `argList` is built: the header, the first
loop, the loop that takes the instructor lock when a key begins with `set:`, and the rest. -/
def handleArgList {α : Type} (env : Env α) (argList : List Argument) (s : Server α) :
    Option (Server α) :=
  let s := s.reply okHeader
  let s := s.reply "\x7b\n".toList
  let s := scanLoop env argList s
  if argList.any (fun a => isSetKey a.key) then
    let r := takeInstructorLock s
    if r.1 ≠ 0 then
      some (r.2.reply (makejson "status".toList "Fail".toList ++ ",\n    ".toList
        ++ makejson "error".toList "Could not get Instructor Mutex".toList
        ++ "\n\x7d\n".toList))
    else finishCommand env argList 1 r.2
  else finishCommand env argList 0 s

/-- The function `simstatusHandleCommand`.  `args` is `none` for a null pointer, for which
`strlen(args)` is a read through a null pointer; otherwise it is the C string passed.  An
empty string is replaced by the array `defaultArgs`, in which the parse then writes. -/
def simstatusHandleCommand {α : Type} (env : Env α) (args : Option (List Char))
    (s : Server α) : Option (Server α) :=
  match args with
  | none => none
  | some a =>
    if a.length = 0 then
      let r := parseArgs s.defaultArgs
      handleArgList env r.1 { s with defaultArgs := r.2 }
    else
      handleArgList env (parseArgs (a ++ [NUL])).1 s

/-- The function `sendNotFound`. -/
def sendNotFound {α : Type} (path : List Char) (s : Server α) : Server α :=
  s.reply ("HTTP/1.1 404 Not Found\r\n".toList
    ++ "Access-Control-Allow-Origin: *\r\n".toList
    ++ "Server:vetsim / 1.0\r\n".toList
    ++ "Content-Type:  text\r\n".toList
    ++ "Connection: close\r\n\r\n".toList
    ++ "< !doctype html > <html><head> < title>404 Not Found< / title><style>\n".toList
    ++ "body\x7b background - color: #cfcfcf; color: #333333; margin : 0; padding : 0; \x7d\n".toList
    ++ "h1\x7b font - size: 1.5em; font - weight: normal; background - color: #9999cc; min - height:2em; line - height:2em; border - bottom: 1px inset black; margin : 0; \x7d\n".toList
    ++ "h1, p\x7b padding - left: 10px; \x7d\n".toList
    ++ "code.url\x7b background - color: #eeeeee; font - family:monospace; padding:0 2px; \x7d\n".toList
    ++ "< / style>\n".toList
    ++ "< / head><body><h1>Not Found< / h1><p>The requested resource <code class = \x27url\x27> / ".toList
    ++ path
    ++ "< / code> was not found on this server.< / p>< / body> < / html>\n".toList)

/-! ## Request handling of `simstatusMain` -/

/-- Size of `recvbuf` and of `firstLine`. -/
def DEFAULT_BUFLEN : Nat := 4096

/-- The buffer `recvbuf` after `ZeroMemory` and a `recv` that delivered the bytes `req`. -/
def recvbufOf (req : List Char) : List Char :=
  req ++ List.replicate (DEFAULT_BUFLEN - req.length) NUL

/-- Whether a byte is a line feed or a carriage return. -/
def isNewline (c : Char) : Bool := c = '\n' || c = '\r'

/-- The loop that copies the first line of `recvbuf` into `firstLine`.  The loop condition
reads `recvbuf[i]` before `i` is compared with the size of the buffer, so a buffer without
NUL and line end is read past its end; the result is then `none`. -/
def firstLineScan : List Char → Option (List Char)
  | [] => none
  | c :: cs =>
    if c = NUL then some []
    else if isNewline c then some []
    else
      match firstLineScan cs with
      | none => none
      | some r => some (c :: r)

/-- The downward loop that looks for the arguments of a POST: the offset after the last line
end at or below index `i`, `none` when there is none (`args` stays null). -/
def postArgsScan (recvbuf : List Char) : Nat → Option Nat
  | 0 => if isNewline (recvbuf.getD 0 NUL) then some 1 else none
  | i + 1 => if isNewline (recvbuf.getD (i + 1) NUL) then some (i + 2) else postArgsScan recvbuf i

/-- The four `replaceAll` calls and the cut at `" HTTP/"` applied to `args`. -/
def decodeArgs (args : List Char) : List Char :=
  let args := replaceAll args "%3A".toList ':'
  let args := replaceAll args "+".toList ' '
  let args := replaceAll args "%20".toList ' '
  let args := replaceAll args "%2B".toList '+'
  cutAt " HTTP/".toList args

/-- The pointers `path` and `args` that `simstatusMain` extracts from a request; `none` is
a null pointer. -/
structure Request where
  method : Int
  path : Option (List Char)
  args : Option (List Char)
deriving DecidableEq, Repr

/-- The parse of a received request in `simstatusMain` (`iResult = req.length > 0`). -/
def parseRequest (req : List Char) : Option Request :=
  let recvbuf := recvbufOf req
  match firstLineScan recvbuf with
  | none => none
  | some firstLine =>
    let method : Int :=
      if firstLine.take 3 = "GET".toList then 1
      else if firstLine.take 4 = "POST".toList then 2
      else 0
    -- GET: the arguments follow the first question mark, which is overwritten by a NUL
    let query : Option Nat :=
      if firstLine.indexOf '?' < firstLine.length then some (firstLine.indexOf '?') else none
    let args : Option (List Char) :=
      if method = 1 then
        match query with
        | some q => some (firstLine.drop (q + 1))
        | none => none
      else if method = 2 then
        if req.length < DEFAULT_BUFLEN then
          match postArgsScan recvbuf req.length with
          | some p => some (cstrAt recvbuf p)
          | none => none
        else none
      else none
    let firstLine : List Char :=
      if method = 1 then
        match query with
        | some q => firstLine.take q
        | none => firstLine
      else firstLine
    let args := args.map decodeArgs
    let path : Option (List Char) :=
      if firstLine.indexOf '/' < firstLine.length then
        some ((firstLine.drop (firstLine.indexOf '/' + 1)).takeWhile (fun c => c ≠ ' '))
      else none
    some ⟨method, path, args⟩

/-- One pass of the accept loop of `simstatusMain` for a connection that delivers the bytes
`req`: the reply is cleared, the request parsed and dispatched.  The reply sent is
`htmlReply` of the result; after it the process exits when `closeFlag` is set. -/
def simstatusRequest {α : Type} (env : Env α) (req : List Char) (s : Server α) :
    Option (Server α) :=
  let s : Server α := { s with htmlReply := [] }
  if req.length > 0 then
    match parseRequest req with
    | none => none
    | some r =>
      match r.path with
      | none => some s
      | some path =>
        if path = "simstatus.cgi".toList then simstatusHandleCommand env r.args s
        else if path = "cgi-bin/simstatus.cgi".toList then simstatusHandleCommand env r.args s
        else some (sendNotFound path s)
  else some s

/-- Whether the process exits after the reply (`if (closeFlag)` in `simstatusMain`). -/
def exitsAfter {α : Type} (s : Server α) : Bool := s.closeFlag ≠ 0

/-! ## State of `XMLRead.cpp` -/

/-- The values of the enumeration `xmlParseState` that `XMLRead::getEntry` uses. -/
inductive xmlParseState where
  | initial
  | foundElement
  | returnedText
  | closedElement
deriving DecidableEq, Repr

/-- The entry types that `XMLRead::getEntry` stores in the member `type`. -/
inductive XmlType where
  | XML_TYPE_FILE_END
  | XML_TYPE_END_ELEMENT
  | XML_TYPE_ELEMENT
  | XML_TYPE_TEXT
  | XML_TYPE_NONE
deriving DecidableEq, Repr

/-- The members of the class `XMLRead` that `getEntry` reads and writes.  `xml` is the whole
buffer that `open` allocates, `name` and `value` are the two character arrays, whose sizes
are those of the lists. -/
structure XMLRead where
  xml : List Char
  idx : Nat
  name : List Char
  value : List Char
  type : XmlType
  depth : Int
  state : xmlParseState
deriving DecidableEq, Repr

/-- The loop `for (i = 0; p[i]; i++) if (stop(p[i])) break;` over the bytes at offset `p` of
the buffer: the value of `i` it leaves, `none` when a read leaves the buffer. -/
def xmlScan (stop : Char → Bool) (xml : List Char) (p : Nat) : Nat → Nat → Option Nat
  | 0, _ => none
  | fuel + 1, i =>
    match xml.get? (p + i) with
    | none => none
    | some c =>
      if c = NUL then some i
      else if stop c then some i
      else xmlScan stop xml p fuel (i + 1)

/-- The test `strncmp(xml + p, "</", 2) == 0`; `none` when a read leaves the buffer. -/
def xmlIsClose (xml : List Char) (p : Nat) : Option Bool :=
  match xml.get? p with
  | none => none
  | some c =>
    if c ≠ '<' then some false
    else
      match xml.get? (p + 1) with
      | none => none
      | some d => some (d = '/')

/-- The call `strncpy(dst, xml + src, n)`: byte `k` of the destination is byte `k` of the
source up to its NUL, and NUL from there on; `none` when a read leaves the buffer. -/
def strncpyFrom (xml : List Char) (src : Nat) : Nat → Nat → Bool → List Char → Option (List Char)
  | 0, _, _, dst => some dst
  | n + 1, k, true, dst => strncpyFrom xml src n (k + 1) true (dst.set k NUL)
  | n + 1, k, false, dst =>
    match xml.get? (src + k) with
    | none => none
    | some c => strncpyFrom xml src n (k + 1) (c = NUL) (dst.set k c)

/-- The template `strncpy_s(dst, src, count)` of `platform.h` for an array `dst`: at most
`N - 1` bytes are copied and a NUL follows them. -/
def strncpy_s (dst : List Char) (xml : List Char) (src : Nat) (count : Nat) :
    Option (List Char) :=
  if dst.length = 0 then none
  else
    let n := if count < dst.length - 1 then count else dst.length - 1
    match strncpyFrom xml src n 0 false dst with
    | none => none
    | some d => some (d.set n NUL)

/-- The assignment `buf[i] = c`; `none` outside the array. -/
def writeAt (buf : List Char) (i : Nat) (c : Char) : Option (List Char) :=
  if i < buf.length then some (buf.set i c) else none

/-- The end of each branch of `getEntry` that returns an element or the end of one:
`value[0] = 0`, the type, the depth, the index and the state. -/
def xmlEntry (s : XMLRead) (name : List Char) (type : XmlType) (depth : Int) (idx : Nat)
    (state : xmlParseState) : Option XMLRead :=
  match writeAt s.value 0 NUL with
  | none => none
  | some value =>
    some { s with name := name, value := value, type := type, depth := depth, idx := idx,
                  state := state }

/-- The depth after a closing tag: `if (depth > 0) depth--`. -/
def xmlDepthDown (depth : Int) : Int := if depth > 0 then depth - 1 else depth

/-- Whether a byte ends a tag name: `c == '>' || isspace(c)`. -/
def xmlNameEnd (c : Char) : Bool := c = '>' || isspace c

/-- The closing tag met in the states `initial` and `closedElement` (lines 184-198); `cptr2`
is the offset after `</`.  The count passed to `strncpy_s` is `size_t(i) - 1`. -/
def getEntryCloseAfterClose (s : XMLRead) (cptr2 : Nat) : Option XMLRead :=
  match xmlScan xmlNameEnd s.xml cptr2 (s.xml.length + 1) 0 with
  | none => none
  | some i =>
    match strncpy_s s.name s.xml cptr2 ((i + ULL - 1) % ULL) with
    | none => none
    | some name =>
      match writeAt name i NUL with
      | none => none
      | some name =>
        xmlEntry s name XmlType.XML_TYPE_END_ELEMENT (xmlDepthDown s.depth) (cptr2 + i + 1)
          xmlParseState.closedElement

/-- The opening tag met in the states `initial` and `closedElement` (lines 202-221); `cptr`
is the offset after `<`.  Nothing is stored when the buffer ends inside the tag name. -/
def getEntryOpenAfterClose (s : XMLRead) (cptr : Nat) : Option XMLRead :=
  match xmlScan xmlNameEnd s.xml cptr (s.xml.length + 1) 0 with
  | none => none
  | some i =>
    match s.xml.get? (cptr + i) with
    | none => none
    | some c =>
      if c = NUL then some s
      else
        let name : Option (List Char) :=
          if i > 0 then
            match strncpy_s s.name s.xml cptr i with
            | none => none
            | some name => writeAt name i NUL
          else writeAt s.name 0 NUL
        match name with
        | none => none
        | some name =>
          xmlEntry s name XmlType.XML_TYPE_ELEMENT (s.depth + 1) (cptr + i + 1)
            xmlParseState.foundElement

/-- The outer loop of the states `initial` and `closedElement`: the scan for the next `<`. -/
def getEntryScan (s : XMLRead) (cptr : Nat) : Nat → Nat → Option XMLRead
  | 0, _ => none
  | fuel + 1, i =>
    match s.xml.get? (cptr + i) with
    | none => none
    | some c =>
      if c = NUL then some s
      else
        match xmlIsClose s.xml (cptr + i) with
        | none => none
        | some true => getEntryCloseAfterClose s (cptr + i + 2)
        | some false =>
          if c = '<' then getEntryOpenAfterClose s (cptr + i + 1)
          else getEntryScan s cptr fuel (i + 1)

/-- The loop that skips white space in the states `foundElement` and `returnedText`: the
value of `i` it leaves and the new `cptr`, which moves only when the loop breaks. -/
def xmlSkipSpace (xml : List Char) (cptr : Nat) : Option (Nat × Nat) :=
  match xmlScan (fun c => !isspace c) xml cptr (xml.length + 1) 0 with
  | none => none
  | some i =>
    match xml.get? (cptr + i) with
    | none => none
    | some c => if c = NUL then some (i, cptr) else some (i, cptr + i)

/-- The closing tag met in the state `foundElement` (lines 239-252); `cptr2` is the offset
after `</`.  The count passed to `strncpy_s` is `size_t(i)`. -/
def getEntryCloseAfterOpen (s : XMLRead) (cptr2 : Nat) : Option XMLRead :=
  match xmlScan xmlNameEnd s.xml cptr2 (s.xml.length + 1) 0 with
  | none => none
  | some i =>
    match strncpy_s s.name s.xml cptr2 (i % ULL) with
    | none => none
    | some name =>
      match writeAt name i NUL with
      | none => none
      | some name =>
        xmlEntry s name XmlType.XML_TYPE_END_ELEMENT (xmlDepthDown s.depth) (cptr2 + i + 1)
          xmlParseState.closedElement

/-- The opening tag met in the states `foundElement` and `returnedText`; `cptr` is the
offset after `<`.  Nothing is stored when the buffer ends inside the tag name. -/
def getEntryOpen (s : XMLRead) (cptr : Nat) : Option XMLRead :=
  match xmlScan xmlNameEnd s.xml cptr (s.xml.length + 1) 0 with
  | none => none
  | some i =>
    match s.xml.get? (cptr + i) with
    | none => none
    | some c =>
      if c = NUL then some s
      else
        match strncpy_s s.name s.xml cptr (i % ULL) with
        | none => none
        | some name =>
          match writeAt name i NUL with
          | none => none
          | some name =>
            xmlEntry s name XmlType.XML_TYPE_ELEMENT (s.depth + 1) (cptr + i + 1)
              xmlParseState.foundElement

/-- The loop that copies a text into `value` in the state `foundElement` (lines 274-286). -/
def getEntryText (cptr : Nat) : Nat → Nat → XMLRead → Option XMLRead
  | 0, _, _ => none
  | fuel + 1, i, s =>
    match s.xml.get? (cptr + i) with
    | none => none
    | some c =>
      if c = NUL then some s
      else if c = '<' then
        match writeAt s.value i NUL with
        | none => none
        | some value =>
          some { s with value := value, state := xmlParseState.returnedText,
                        type := XmlType.XML_TYPE_TEXT, idx := cptr + i }
      else
        match writeAt s.value i c with
        | none => none
        | some value => getEntryText cptr fuel (i + 1) { s with value := value }

/-- The closing tag met in the state `returnedText` (lines 301-317); `cptr` is the offset of
`</`.  The name runs to the next `>` and the index advances by its length. -/
def getEntryCloseAfterText (s : XMLRead) (cptr : Nat) : Option XMLRead :=
  match xmlScan (fun c => c = '>') s.xml (cptr + 2) (s.xml.length + 1) 0 with
  | none => none
  | some i =>
    match strncpy_s s.name s.xml (cptr + 2) (i % ULL) with
    | none => none
    | some name =>
      match writeAt name (i + 1) NUL with
      | none => none
      | some name =>
        xmlEntry s name XmlType.XML_TYPE_END_ELEMENT (xmlDepthDown s.depth) (s.idx + i)
          xmlParseState.closedElement

/-- The function `XMLRead::getEntry`: the object after the call; the call returns 1 when
`type` is `XML_TYPE_FILE_END` and 0 otherwise.  The result is `none` when the call reads or
writes outside an array. -/
def getEntry (s : XMLRead) : Option XMLRead :=
  let cptr := s.idx
  let s : XMLRead := { s with type := XmlType.XML_TYPE_FILE_END }
  match s.state with
  | xmlParseState.initial => getEntryScan s cptr (s.xml.length + 1) 0
  | xmlParseState.closedElement => getEntryScan s cptr (s.xml.length + 1) 0
  | xmlParseState.foundElement =>
    match xmlSkipSpace s.xml cptr with
    | none => none
    | some (_, cptr) =>
      match xmlIsClose s.xml cptr with
      | none => none
      | some true => getEntryCloseAfterOpen s (cptr + 2)
      | some false =>
        if s.xml.get? cptr = some '<' then getEntryOpen s (cptr + 1)
        else getEntryText cptr (s.xml.length + 1) 0 s
  | xmlParseState.returnedText =>
    match xmlSkipSpace s.xml cptr with
    | none => none
    | some (i, cptr) =>
      match xmlIsClose s.xml cptr with
      | none => none
      | some true => getEntryCloseAfterText s cptr
      | some false =>
        if s.xml.get? cptr = some '<' then getEntryOpen s (cptr + 1)
        else
          match writeAt s.name 0 NUL with
          | none => none
          | some name =>
            xmlEntry s name XmlType.XML_TYPE_NONE s.depth (cptr + i + 1)
              xmlParseState.initial

/-- The call `strstr(buf + p, needle)`: the offset in the buffer of the first occurrence of
`needle` in the C string at `p`, `none` for a null result. -/
def strstrAt (buf : List Char) (p : Nat) (needle : List Char) : Option Nat :=
  let s := cstrAt buf p
  ((List.range (s.length + 1)).find? (fun k => startsWith needle (s.drop k))).map
    (fun k => p + k)

/-- The call `memset(buf + p, ' ', length)` inside the buffer. -/
def blankOut (buf : List Char) (p length : Nat) : List Char :=
  buf.take p ++ List.replicate length ' ' ++ buf.drop (p + length)

/-- The loop of `XMLRead::open` that replaces every closed comment by spaces; `cptr1` is the
offset the search continues from. -/
def stripComments : Nat → List Char → Nat → List Char
  | 0, buf, _ => buf
  | fuel + 1, buf, cptr1 =>
    match strstrAt buf cptr1 "<!--".toList with
    | none => buf
    | some c1 =>
      match strstrAt buf c1 "-->".toList with
      | none => buf
      | some c2 => stripComments fuel (blankOut buf c1 (c2 + 3 - c1)) c1

/-- The part of `XMLRead::open` that replaces the prolog, if present and closed, by
spaces. -/
def stripProlog (buf : List Char) : List Char :=
  let cptr1 : Option Nat :=
    match strstrAt buf 0 "<?xml".toList with
    | some c => some c
    | none => strstrAt buf 0 "<?XML".toList
  match cptr1 with
  | none => buf
  | some c1 =>
    match strstrAt buf c1 "?>".toList with
    | none => buf
    | some c2 => blankOut buf c1 (c2 + 2 - c1)

/-- The function `XMLRead::open` for a file that is read in full with the bytes `file`: the
buffer holds the file and 32 zero bytes, the prolog and the comments are blanked.  The parse
state is not assigned. -/
def xmlOpen (file : List Char) (s : XMLRead) : XMLRead :=
  let xml := file ++ List.replicate 32 NUL
  let xml := stripProlog xml
  let xml := stripComments xml.length xml 0
  { s with depth := -1, name := s.name.set 0 NUL, value := s.value.set 0 NUL, idx := 0,
           xml := xml }

/-! ## Definitions used to state the properties -/

/-- The sockets to which `word` was sent, in the order of the calls. -/
def socketsSent (word : List Char) (evs : List NetEvent) : List Int :=
  evs.filterMap (fun e => match e with
    | NetEvent.sent fd buf => if buf = word then some fd else none
    | NetEvent.closed _ => none)

/-- No two allocated slots record the same IP address. -/
def DistinctIps (ls : List Listener) : Prop :=
  ((ls.filter (fun l => l.allocated = 1)).map (fun l => l.ipAddr)).Nodup

/-- What a step of the broadcast pass may do without touching the pulse bookkeeping: it
keeps the table, `last_pulse` and `pulseCount`, and adds socket calls that send no
`pulseWord`. -/
def QuietStep (b b1 : Bcast) : Prop :=
  b1.listeners = b.listeners ∧ b1.loc.last_pulse = b.loc.last_pulse
    ∧ b1.shm.pulseCount = b.shm.pulseCount
    ∧ ∃ e, b1.events = b.events ++ e ∧ socketsSent pulseWord e = []

/-- The fields of the state on which the cardiac clock of a regular rhythm at rate 60
depends. -/
structure RegularClock (s : Pulse) : Prop where
  rate : s.currentPulseRate = 60
  vpc : s.vpcType = 0
  afib : s.afibActive = 0
  interval : s.pulseInterval = 1000

/-- The state of the cardiac clock at time `t`, after some passes of a regular rhythm at rate
60 that started with deadline `d`, `h0` logged beats and pulse count `pc0`: the deadline
lies in `(t, t + 1000]` and some number `c` of beats has fired. -/
def RegularAfter (d h0 pc0 : Nat) (t : Nat) (s : Pulse) : Prop :=
  RegularClock s ∧ t < s.nextPulseTime ∧ s.nextPulseTime ≤ t + 1000
    ∧ ∃ c, s.nextPulseTime = d + 1000 * c ∧ s.hrLogBeats = h0 + c
      ∧ s.pulseCount = (pc0 + c) % UINT

/-- A table in which slot 0 is allocated to the controller at 10.0.0.7 on socket 5 and the
other nine slots are free. -/
def oneListener : List Listener :=
  { allocated := 1, thread_no := 0, cfd := 5, ctl_allocated := 1, ipAddr := "10.0.0.7".toList }
    :: List.replicate 9
      { allocated := 0, thread_no := 0, cfd := 0, ctl_allocated := 0, ipAddr := [] }

/-- The scheduler at start-up with cardiac rate 60 when the clock shows 5 ms: the deadlines
and intervals still hold their initial zeros. -/
def startUpAtRate60 : Pulse :=
  { Pulse.init with currentPulseRate := 60, cardiac_rate := 60, msec_time := 5 }

/-- The scheduler in a regular rhythm at rate 60 whose next cardiac deadline, 7000, is the
very millisecond the clock shows. -/
def dueNowAtRate60 : Pulse :=
  { Pulse.init with currentPulseRate := 60, cardiac_rate := 60, pulseInterval := 1000,
                    nextPulseTime := 7000, msec_time := 7000 }

/-- An environment for examples: ports 50200 and 50201, appliers that accept every field,
and status writers that append a fixed text for the parts left open. -/
def exampleEnv : Env Unit :=
  { PORT_PULSE := 50200, PORT_STATUS := 50201, STR_SIZE := 64, COMMENT_SIZE := 1024,
    EVENT_LIST_SIZE := 128, COMMENT_LIST_SIZE := 128, date := "Jan 01, 2001".toList,
    atoiOverflow := fun _ => 2147483647,
    cardiac_parse := fun _ _ a => (0, a), respiration_parse := fun _ _ a => (0, a),
    general_parse := fun _ _ a => (0, a), telesim_parse := fun _ _ a => (0, a),
    vocals_parse := fun _ _ a => (0, a), media_parse := fun _ _ a => (0, a),
    statusScenarioHead := fun _ => " \"scenario\" : \x7b\n".toList,
    statusLogfileToRespiration := fun _ => [],
    statusGeneralVocals := fun _ => [],
    statusMediaToControllers := fun _ => "\"controllerVersions\" : \x7b\n\x7d\n".toList,
    sendQuickStatus := fun m => ("\"qstat\":\"\"".toList, m),
    sendSimctrData := fun m => ("\"simctrldata\":\"\"".toList, m) }

/-- A shared memory for examples: every text empty, every number zero, four slots in each
ring buffer. -/
def exampleShm : Shm Unit :=
  { server_ip_addr := [], server_wifi_ip_addr := [], server_name := [], server_server_time := [],
    status_scenario_error_message := [], status_scenario_state := [],
    status_pulse_right_dorsal := 0, status_pulse_left_dorsal := 0,
    status_pulse_right_femoral := 0, status_pulse_left_femoral := 0,
    status_pulse_duration := 0, status_pulse_active := 0,
    status_auscultation_side := 0, status_auscultation_row := 0, status_auscultation_col := 0,
    instructor_cardiac := (), instructor_respiration := (), instructor_general := (),
    instructor_telesim := (), instructor_vocals := (), instructor_media := (),
    instructor_scenario_active := [], instructor_scenario_state := [],
    instructor_scenario_record := 0, instructor_cpr_compression := 0,
    instructor_cpr_release := 0, instructor_defibrillation_shock := 0,
    eventList := List.replicate 4 [], eventListNextWrite := 0,
    commentList := List.replicate 4 [], commentListNext := 0 }

/-- The server as the program starts, over `exampleShm`. -/
def exampleServer : Server Unit :=
  { htmlReply := [], closeFlag := 0, defaultArgs := defaultArgsInit, opTrace := [],
    shm := exampleShm }

/-- The argument list `simstatusHandleCommand` builds from the C string `a` in state `s`. -/
def argListOf {α : Type} (s : Server α) (a : List Char) : List Argument :=
  if a.length = 0 then (parseArgs s.defaultArgs).1 else (parseArgs (a ++ [NUL])).1

/-- A part of the handler that only appends to the reply and keeps the close flag. -/
def Grows {α : Type} (s s1 : Server α) : Prop :=
  s1.closeFlag = s.closeFlag ∧ s.htmlReply <+: s1.htmlReply

/-- Whether an argument is a `close` key whose value `atoi` reads as 565. -/
def closesServer {α : Type} (env : Env α) (arg : Argument) : Prop :=
  arg.key = "close".toList ∧ atoi env.atoiOverflow arg.value = 565

/-- The index of the slot the normal cycle reads: `vpcFrequencyIndex++ >= VPC_ARRAY_LEN`
resets it to 0. -/
def nextVpcIndex (i : Int) : Int := if i ≥ (VPC_ARRAY_LEN : Int) then 0 else i + 1

/-- The delay the last VPC of a burst leaves in `beatPhase`, by `shm.cardiac.vpc_count`. -/
def afterBurst (count : Int) : Int := if count = 2 then 16 else if count = 3 then 19 else 13

/-- The number of calls of `pulse_beat_handler` from a burst of `k` VPCs seeded with
`beatPhase = 6` to the state in which the next sinus beat is due. -/
def burstTicks (k : Nat) (count : Int) : Nat :=
  if k = 0 then 6 else 7 * k + (afterBurst count).toNat

/-- A burst of one VPC just seeded by the sinus beat that read the last slot of the sampling
array: rate 60, VPC type 1, frequency 10, no AFib, slot 199 set and
`vpcFrequencyIndex = 199`. -/
def burstSeededAtLastSlot : Pulse :=
  { Pulse.init with currentPulseRate := 60, currentVpcFreq := 10, vpcType := 1,
                    cardiac_vpc_count := 1, vpcState := 1, beatPhase := 6,
                    vpcFrequencyArray := List.replicate 199 0 ++ [1],
                    vpcFrequencyIndex := 199, pulseCount := 1, hrLogBeats := 1 }

/-- A VPC type 1 rhythm at rate 60 in which `beatPhase` has run out with two VPCs of a burst
of two pending and four VPC beats counted so far. -/
def vpcBeatDue : Pulse :=
  { Pulse.init with currentPulseRate := 60, vpcType := 1, cardiac_vpc_count := 2,
                    vpcState := 2, beatPhase := 0, pulseCountVpc := 4 }

/-- Successive calls of `addEvent`, one per text. -/
def addEvents {α : Type} (env : Env α) (strs : List (List Char)) (m : Shm α) : Shm α :=
  strs.foldl (fun m str => addEvent env str m) m

/-- Successive calls of `addComment`, one per text. -/
def addComments {α : Type} (env : Env α) (strs : List (List Char)) (m : Shm α) : Shm α :=
  strs.foldl (fun m str => addComment env str m) m

/-- An environment with four slots in each ring buffer, event names of at most 7 characters
and comments of at most 11. -/
def smallRingEnv : Env Unit :=
  { exampleEnv with STR_SIZE := 8, COMMENT_SIZE := 12, EVENT_LIST_SIZE := 4,
                    COMMENT_LIST_SIZE := 4 }

/-- The shared memory of the examples with the next event in slot 3 and the next comment in
slot 2. -/
def ringsNearWrap : Shm Unit :=
  { exampleShm with eventListNextWrite := 3, commentListNext := 2 }

/-- The ring buffer write of the specification: store the entry in the slot at the index and
advance the index by one modulo the list size. -/
def ringWrite {β : Type} (size : Nat) (r : List β × Nat) (x : β) : List β × Nat :=
  (r.1.set r.2 x, (r.2 + 1) % size)

/-- Five event names, the second longer than a slot of `smallRingEnv`. -/
def fiveEvents : List (List Char) :=
  ["start".toList, "defibrillation".toList, "aed".toList, "cpr".toList, "end".toList]

/-- Three comments, the first longer than a slot of `smallRingEnv`. -/
def threeComments : List (List Char) :=
  ["a comment of the instructor".toList, "short".toList, "third".toList]

/-- The text of `sendNotFound` before the path: the status line, the header block and the
head of the HTML page. -/
def notFoundBefore : List Char :=
  "HTTP/1.1 404 Not Found\r\n".toList
    ++ "Access-Control-Allow-Origin: *\r\n".toList
    ++ "Server:vetsim / 1.0\r\n".toList
    ++ "Content-Type:  text\r\n".toList
    ++ "Connection: close\r\n\r\n".toList
    ++ "< !doctype html > <html><head> < title>404 Not Found< / title><style>\n".toList
    ++ "body\x7b background - color: #cfcfcf; color: #333333; margin : 0; padding : 0; \x7d\n".toList
    ++ "h1\x7b font - size: 1.5em; font - weight: normal; background - color: #9999cc; min - height:2em; line - height:2em; border - bottom: 1px inset black; margin : 0; \x7d\n".toList
    ++ "h1, p\x7b padding - left: 10px; \x7d\n".toList
    ++ "code.url\x7b background - color: #eeeeee; font - family:monospace; padding:0 2px; \x7d\n".toList
    ++ "< / style>\n".toList
    ++ "< / head><body><h1>Not Found< / h1><p>The requested resource <code class = \x27url\x27> / ".toList

/-- The text of `sendNotFound` after the path. -/
def notFoundAfter : List Char :=
  "< / code> was not found on this server.< / p>< / body> < / html>\n".toList

/-- A request for a path the server does not know. -/
def bogusRequest : List Char := "GET /bogus.cgi?x=1 HTTP/1.1\r\nHost: sim\r\n\r\n".toList

/-- A request for another path the server does not know. -/
def otherRequest : List Char := "GET /index.html HTTP/1.1\r\nHost: sim\r\n\r\n".toList

/-- The reply to a single `set:` command with the given class, field, value and status
text. -/
def setReply (cls param value status : List Char) : List Char :=
  okHeader ++ "\x7b\n \"set_1\" : \x7b\n    ".toList
    ++ makejson "class".toList cls ++ ",\n    ".toList
    ++ makejson "param".toList param ++ ",\n    ".toList
    ++ makejson "value".toList value ++ ",\n    ".toList
    ++ makejson "status".toList status ++ "\n    \x7d\n\x7d\n".toList

/-- The reply of `simstatusHandleCommand` to the argument string `args` in the example
server, `none` when the handler does not return. -/
def replyTo (args : String) : Option (List Char) :=
  (simstatusHandleCommand exampleEnv (some args.toList) exampleServer).map
    (fun s => s.htmlReply)

/-- The four `replaceAll` calls that `simstatusMain` applies to `args`. -/
def decodeEscapes (args : List Char) : List Char :=
  let args := replaceAll args "%3A".toList ':'
  let args := replaceAll args "+".toList ' '
  let args := replaceAll args "%20".toList ' '
  replaceAll args "%2B".toList '+'

/-- The decoding the specification describes, as one pass from left to right: `%3A` becomes
`:`, `%20` and `+` become a space, `%2B` becomes `+`, every other character is copied.
`skip` counts the bytes of an escape that are still to be dropped. -/
def percentDecode : Nat → List Char → List Char
  | _, [] => []
  | skip + 1, _ :: cs => percentDecode skip cs
  | 0, c :: cs =>
    if startsWith "%3A".toList (c :: cs) then ':' :: percentDecode 2 cs
    else if startsWith "%20".toList (c :: cs) then ' ' :: percentDecode 2 cs
    else if startsWith "%2B".toList (c :: cs) then '+' :: percentDecode 2 cs
    else if c = '+' then ' ' :: percentDecode 0 cs
    else c :: percentDecode 0 cs

/-- A pass over a string that copies every character other than `%` and `+`, and puts one of
`%`, `:`, space and `+` where it meets a `%` or a `+`. -/
def LocalPass (q : List Char → List Char) : Prop :=
  q [] = []
    ∧ (∀ c s, c ≠ '%' → c ≠ '+' → q (c :: s) = c :: q s)
    ∧ (∀ c s, c = '%' ∨ c = '+' →
        ∃ h t, q (c :: s) = h :: t ∧ (h = '%' ∨ h = ':' ∨ h = ' ' ∨ h = '+'))

/-- The `set:` command `key=value` alone in a request is accepted with status `ok`: the
handler returns `s1` and has appended the reply with the echoed class, field and value and
the status `ok`. -/
def AcceptedOk {α : Type} (env : Env α) (key cls param value : List Char) (s s1 : Server α) :
    Prop :=
  handleArgList env [⟨key, value⟩] s = some s1
    ∧ s1.htmlReply = s.htmlReply ++ setReply cls param value "ok".toList

/-- The decimal text of an integer: the digits of its absolute value in base ten, after a
minus sign if it is negative. -/
def decimalText (i : Int) : List Char := (toString i).toList

/-- A member of a JSON object as the status reply writes it: the key and the text, each
between double quotes, with a colon between them. -/
def jsonMember (key text : List Char) : List Char :=
  "\"".toList ++ key ++ "\":\"".toList ++ text ++ "\"".toList

/-- The object `auscultation` of a status reply that reports the integers `side`, `row` and
`col`. -/
def auscultationReport (side row col : Int) : List Char :=
  " \"auscultation\" : \x7b\n".toList
    ++ jsonMember "side".toList (decimalText side) ++ ",\n".toList
    ++ jsonMember "row".toList (decimalText row) ++ ",\n".toList
    ++ jsonMember "col".toList (decimalText col) ++ "\n\x7d,\n".toList

/-- The object `pulse` of a status reply that reports the six integers given. -/
def pulseReport (right_dorsal left_dorsal right_femoral left_femoral duration active : Int) :
    List Char :=
  " \"pulse\" : \x7b\n".toList
    ++ jsonMember "right_dorsal".toList (decimalText right_dorsal) ++ ",\n".toList
    ++ jsonMember "left_dorsal".toList (decimalText left_dorsal) ++ ",\n".toList
    ++ jsonMember "right_femoral".toList (decimalText right_femoral) ++ ",\n".toList
    ++ jsonMember "left_femoral".toList (decimalText left_femoral) ++ ",\n".toList
    ++ jsonMember "duration".toList (decimalText duration) ++ ",\n".toList
    ++ jsonMember "active".toList (decimalText active) ++ "\n\x7d,\n".toList

/-- The reply to a `status` query (with any value `x`) sent in state `s1`: the handler
returns, and the JSON object it writes holds, after the text `a` of the objects that precede
it, the object `ausc`, then the objects `general` and `vocals`, then the object `pulse`,
then the objects from `media` on. -/
def StatusReports {α : Type} (env : Env α) (x : List Char) (s1 : Server α)
    (ausc pulse : List Char) : Prop :=
  ∃ s2 a, handleArgList env [⟨"status".toList, x⟩] s1 = some s2
    ∧ s2.htmlReply = s1.htmlReply ++ okHeader ++ "\x7b\n".toList
        ++ a ++ ausc ++ env.statusGeneralVocals s2.shm ++ pulse
        ++ env.statusMediaToControllers s2.shm ++ "\n\x7d\n".toList

/-- The state after a request with the single command `key=v`, where `key` is
`set:<cls>:<param>`, that is accepted with status `ok` and leaves the shared memory `m`. -/
def afterSetOk {α : Type} (key cls param v : List Char) (m : Shm α) (s : Server α) :
    Server α :=
  { s with
      htmlReply := s.htmlReply ++ okHeader ++ "\x7b\n".toList ++ setOpen 1
        ++ (makejson "class".toList cls ++ ",\n    ".toList)
        ++ (makejson "param".toList param ++ ",\n    ".toList)
        ++ (makejson "value".toList v ++ ",\n    ".toList)
        ++ (makejson "status".toList "ok".toList ++ "\n    \x7d".toList)
        ++ "\n\x7d\n".toList,
      opTrace := s.opTrace ++ [HandlerOp.take] ++ [HandlerOp.dispatch ⟨key, v⟩]
        ++ [HandlerOp.applied ⟨key, v⟩] ++ [HandlerOp.release],
      shm := m }

/-- The value string that `atoi` reads as 42: white space, digits, then other text. -/
def fortyTwoText : List Char := " 42abc".toList

/-- The steps recorded inside the body of the command loop for an entry: the entry of the
class chain if the key begins with `set:`, nothing for another key. -/
def setOps (arg : Argument) : List HandlerOp :=
  if isSetKey arg.key then [HandlerOp.applied arg] else []

/-- The steps recorded by one pass of the command loop that returns. -/
def keyOps (arg : Argument) : List HandlerOp := HandlerOp.dispatch arg :: setOps arg

/-- The entries for which a record shows the class chain to have been entered. -/
def appliedSets (ops : List HandlerOp) : List Argument :=
  ops.filterMap (fun op => match op with
    | HandlerOp.applied arg => some arg
    | _ => none)

/-- The fragment the first loop of `simstatusHandleCommand` writes for a key: the echo of a
session key or of `close=565`, `badParam` for another `close`, nothing for other keys. -/
def sessionFragment {α : Type} (env : Env α) (arg : Argument) : Option (List Char) :=
  if arg.key = "PHPSESSID".toList ∨ arg.key = "simIIUserID".toList
      ∨ arg.key = "userID".toList then
    some (makejson arg.key arg.value)
  else if arg.key = "close".toList then
    if atoi env.atoiOverflow arg.value = 565 then some (makejson arg.key arg.value)
    else some badParam
  else none

/-- Fragments each followed by a comma and a line feed. -/
def commaAfterEach : List (List Char) → List Char
  | [] => []
  | f :: fs => f ++ ",\n".toList ++ commaAfterEach fs

/-- Fragments each preceded by a comma and a line feed. -/
def commaBeforeEach : List (List Char) → List Char
  | [] => []
  | f :: fs => ",\n".toList ++ f ++ commaBeforeEach fs

/-- Fragments joined by one comma and a line feed: nothing before the first fragment and
nothing after the last. -/
def commaJoined : List (List Char) → List Char
  | [] => []
  | f :: fs => f ++ commaBeforeEach fs

/-- A server with an empty reply over the shared memory `m`. -/
def blankServer {α : Type} (m : Shm α) : Server α :=
  { htmlReply := [], closeFlag := 0, defaultArgs := [], opTrace := [], shm := m }

/-- The fragment the command loop writes for one key when the shared memory is `m` and
`set_count` commands have been counted: the text, the shared memory and the count it
leaves; `none` when the pass does not return. -/
def commandFragment {α : Type} (env : Env α) (arg : Argument) (set_count : Int) (m : Shm α) :
    Option (List Char × Shm α × Int) :=
  (dispatchOne env arg set_count (blankServer m)).map
    (fun r => (r.1.htmlReply, r.1.shm, r.2))

/-- The fragments the command loop writes for the keys of a list, in their order, and the
shared memory it leaves. -/
def commandFragments {α : Type} (env : Env α) :
    List Argument → Int → Shm α → Option (List (List Char) × Shm α)
  | [], _, m => some ([], m)
  | arg :: rest, set_count, m =>
    match commandFragment env arg set_count m with
    | none => none
    | some r =>
      match commandFragments env rest r.2.2 r.2.1 with
      | none => none
      | some q => some (r.1 :: q.1, q.2)

/-- A `date` query followed by `close=565`. -/
def dateThenClose : List Argument :=
  [⟨"date".toList, "1".toList⟩, ⟨"close".toList, "565".toList⟩]

/-- A settled scheduler at rate 60 for which the rhythm `afib` has just been selected in the
shared memory. -/
def afibSelected : Pulse :=
  { Pulse.init with currentPulseRate := 60, cardiac_rate := 60, pulseInterval := 1000,
                    nextPulseTime := 20500, msec_time := 20000,
                    cardiac_rhythm := "afib".toList }

/-- A VPC type 1 rhythm at rate 60 with frequency 10, bursts of one VPC and no AFib, as
settled from the shared memory; the sampling array still holds its initial zeros. -/
def vpcFreqTen : Pulse :=
  { Pulse.init with currentPulseRate := 60, cardiac_rate := 60, currentVpcFreq := 10,
                    cardiac_vpc_freq := 10, vpcType := 1, cardiac_vpc_type := 1,
                    cardiac_vpc_count := 1 }

/-- The rhythm `vpcFreqTen` when the next sinus beat is due (`beatPhase = 0`,
`vpcState = 0`) after the cycle that read slot 199, the last slot of the sampling array. -/
def sinusDueAtLastSlot : Pulse :=
  { vpcFreqTen with vpcFrequencyIndex := 199, pulseCount := 199, hrLogBeats := 199 }

/-- The rhythm `vpcFreqTen` right after `calculateVPCFreq` has drawn 99 from every call of
`rand()`: all 200 slots are 0, the index is 0 and a sinus beat is due. -/
def sampledAllZero : Pulse :=
  calculateVPCFreq (fun _ => 99) { vpcFreqTen with vpcFrequencyIndex := 57 }

/-- The number of the sample values `0 .. 99` of `rand() % 100` for which the loop of
`calculateVPCFreq` sets the slot to 1 at frequency `f`. -/
def slotOnes (f : Int) : Nat := (vpcSlots f (List.range 100)).count 1

/-- The rhythm `vpcFreqTen` with bursts of `count` VPCs right after a sinus beat has seeded
a burst: `beatPhase = 6`, `vpcState = count`, one sinus beat counted. -/
def burstSeeded (count : Int) : Pulse :=
  { vpcFreqTen with cardiac_vpc_count := count, vpcState := count, beatPhase := 6,
                    vpcFrequencyIndex := 1, pulseCount := 1, hrLogBeats := 1 }

/-- The counters `(pulseCount, pulseCountVpc)` after `n` calls of `pulse_beat_handler`. -/
def beatCounts (rnds : Nat → Nat) (n : Nat) (s : Pulse) : Option (Nat × Nat) :=
  (pulseBeats rnds n s).map (fun s => (s.pulseCount, s.pulseCountVpc))

/-- The value of `afibActive` and the rhythm name after `n` passes of the settling loop. -/
def afibAfter (rnds : Nat → Nat) (n : Nat) (s : Pulse) : Option (Int × List Char) :=
  (pulseProcessChildRun rnds n s).map (fun s => (s.afibActive, s.cardiac_rhythm))

/-- A scheduler at 12 beats and 12 breaths per minute, both deadlines 4 s ahead of the clock
at 10 s, for which rate 60 has just been requested for both clocks. -/
def rateRaisedMidCycle : Pulse :=
  { Pulse.init with currentPulseRate := 12, cardiac_rate := 60, pulseInterval := 5000,
                    nextPulseTime := 14000, currentBreathRate := 12, respiration_rate := 60,
                    breathInterval := 5000, nextBreathTime := 14000, msec_time := 10000 }

/-- A scheduler at respiration rate 12 when the clock shows 5 s and a manual breath has
been counted. -/
def manualBreathAtRate12 : Pulse :=
  { Pulse.init with currentBreathRate := 12, respiration_rate := 12, breathInterval := 5000,
                    nextBreathTime := 9000, manual_count := 1, msec_time := 5000 }

/-- A regular rhythm at 60 beats and 60 breaths per minute whose two deadlines, 6000, are
behind the clock. -/
def bothDueAt6000 : Pulse :=
  { Pulse.init with currentPulseRate := 60, cardiac_rate := 60, pulseInterval := 1000,
                    nextPulseTime := 6000, currentBreathRate := 60, respiration_rate := 60,
                    breathInterval := 1000, nextBreathTime := 6000 }

/-- A new `XMLRead` object whose arrays `name` and `value` hold `n` bytes each and whose
parse state is `initial`. -/
def xmlFresh (n : Nat) : XMLRead :=
  { xml := [], idx := 0, name := List.replicate n NUL, value := List.replicate n NUL,
    type := XmlType.XML_TYPE_FILE_END, depth := 0, state := xmlParseState.initial }

/-- The entries the first `n` calls of `getEntry` return: the type and the C strings in
`name` and `value` after each call. -/
def getEntries : Nat → XMLRead → Option (List (XmlType × List Char × List Char))
  | 0, _ => some []
  | n + 1, s =>
    match getEntry s with
    | none => none
    | some s1 =>
      match getEntries n s1 with
      | none => none
      | some es => some ((s1.type, cstrAt s1.name 0, cstrAt s1.value 0) :: es)

/-- A file with a prolog, a comment and a list element whose one item holds a text. -/
def listWithItem : List Char :=
  "<?xml version=\"1.0\"?>\n<!-- one item -->\n<list>\n <item>x</item>\n</list>\n".toList

/-- A list element with one empty item. -/
def listWithEmptyItem : List Char := "<list><item></item></list>".toList

/-- A GET request for `simstatus.cgi` whose query string is empty. -/
def emptyArgsGet : List Char := "GET /cgi-bin/simstatus.cgi? HTTP/1.1\r\n\r\n".toList

/-- Successive passes of the loop of `pulseBroadcastLoop` during which no other thread
changes the shared counters. -/
def pulseBroadcastRun (send : Int → List Char → Int) (portStatus : Int) : Nat → Bcast → Bcast
  | 0, b => b
  | n + 1, b => pulseBroadcastRun send portStatus n (pulseBroadcastIter send portStatus b)

/-- The socket calls that `n` passes of `pulseBroadcastLoop` add to the record. -/
def runEvents (send : Int → List Char → Int) (portStatus : Int) (n : Nat) (b : Bcast) :
    List NetEvent :=
  (pulseBroadcastRun send portStatus n b).events.drop b.events.length

/-- Three controllers connected on the sockets 11, 12 and 13, a slot that was never
allocated and holds socket number 14, and six more free slots. -/
def threeListeners : List Listener :=
  [{ allocated := 1, thread_no := 0, cfd := 11, ctl_allocated := 1, ipAddr := "10.0.0.1".toList },
   { allocated := 1, thread_no := 1, cfd := 12, ctl_allocated := 1, ipAddr := "10.0.0.2".toList },
   { allocated := 1, thread_no := 2, cfd := 13, ctl_allocated := 1, ipAddr := "10.0.0.3".toList },
   { allocated := 0, thread_no := 0, cfd := 14, ctl_allocated := 0, ipAddr := [] }]
    ++ List.replicate 6
      { allocated := 0, thread_no := 0, cfd := 0, ctl_allocated := 0, ipAddr := [] }

/-- The broadcast loop with the table `threeListeners` right after the beat handler has
incremented `pulseCount` from 4 to 5: `last_pulse` is still 4. -/
def onePulseIncrement : Bcast :=
  { loc := { portUpdateLoops := 0, last_pulse := 4, last_pulseVpc := 0, last_breath := 0,
             last_manual_breath := 0 },
    shm := { Pulse.init with pulseCount := 5 },
    listeners := threeListeners, events := [] }

/-! ## Lemmas about the beat scheduler -/

/-- With `vpcState = 0` and `currentVpcFreq = 0` the handler returns, keeps both, and does not
count a VPC. -/
theorem pulse_beat_handler_no_vpc (rnd : Nat) (s : Pulse) (hv : s.vpcState = 0)
    (hf : s.currentVpcFreq = 0) :
    ∃ s1, pulse_beat_handler rnd s = some s1 ∧ s1.vpcState = 0 ∧ s1.currentVpcFreq = 0
      ∧ s1.pulseCountVpc = s.pulseCountVpc := by
  unfold pulse_beat_handler
  simp only [hv, hf, lt_self_iff_false, gt_iff_lt, and_false, if_false]
  split_ifs <;> exact ⟨_, rfl, by first | rfl | exact hv, by first | rfl | exact hf, rfl⟩

/-- The same for any number of calls. -/
theorem pulseBeats_no_vpc (rnds : Nat → Nat) (n : Nat) (s : Pulse) (hv : s.vpcState = 0)
    (hf : s.currentVpcFreq = 0) :
    ∃ s1, pulseBeats rnds n s = some s1 ∧ s1.vpcState = 0 ∧ s1.currentVpcFreq = 0
      ∧ s1.pulseCountVpc = s.pulseCountVpc := by
  induction n with
  | zero => exact ⟨s, rfl, hv, hf, rfl⟩
  | succ n ih =>
    obtain ⟨s1, h1, hv1, hf1, hc1⟩ := ih
    obtain ⟨s2, h2, hv2, hf2, hc2⟩ := pulse_beat_handler_no_vpc (rnds n) s1 hv1 hf1
    exact ⟨s2, by simp [pulseBeats, h1, h2], hv2, hf2, hc2.trans hc1⟩

/-- The handler in the regular-rhythm branch: one beat is counted and logged. -/
theorem pulse_beat_handler_regular (rnd : Nat) (s : Pulse) (hr : s.currentPulseRate = 60)
    (hv : s.vpcType = 0) (ha : s.afibActive = 0) :
    pulse_beat_handler rnd s
      = some { s with pulseCount := uinc32 s.pulseCount, hrLogBeats := s.hrLogBeats + 1,
                      pulseStates := s.pulseStates ++ [2] } := by
  simp [pulse_beat_handler, hr, hv, ha]

/-- The respiratory half of a pass leaves the fields of the cardiac clock alone. -/
theorem pulseTimerBreath_cardiac (a b : Nat) (s : Pulse) :
    (pulseTimerBreath a b s).currentPulseRate = s.currentPulseRate
      ∧ (pulseTimerBreath a b s).vpcType = s.vpcType
      ∧ (pulseTimerBreath a b s).afibActive = s.afibActive
      ∧ (pulseTimerBreath a b s).pulseInterval = s.pulseInterval
      ∧ (pulseTimerBreath a b s).nextPulseTime = s.nextPulseTime
      ∧ (pulseTimerBreath a b s).pulseCount = s.pulseCount
      ∧ (pulseTimerBreath a b s).hrLogBeats = s.hrLogBeats := by
  unfold pulseTimerBreath breath_beat_handler
  simp only []
  split_ifs <;> exact ⟨rfl, rfl, rfl, rfl, rfl, rfl, rfl⟩

/-- One pass of the timer at time `now` for a regular rhythm at rate 60 whose deadline lies
in `[now, now + 999]`. -/
theorem pulseTimerIter_regular (now rnd : Nat) (s : Pulse) (hc : RegularClock s)
    (h1 : now ≤ s.nextPulseTime) (h2 : s.nextPulseTime < now + 1000) (hU : now + 2000 < ULL) :
    ∃ s1, pulseTimerIter now now now now rnd s = some s1
      ∧ RegularClock s1
      ∧ ((s.nextPulseTime = now ∧ s1.nextPulseTime = now + 1000
            ∧ s1.pulseCount = uinc32 s.pulseCount ∧ s1.hrLogBeats = s.hrLogBeats + 1)
          ∨ (now < s.nextPulseTime ∧ s1.nextPulseTime = s.nextPulseTime
            ∧ s1.pulseCount = s.pulseCount ∧ s1.hrLogBeats = s.hrLogBeats)) := by
  obtain ⟨hr, hv, ha, hi⟩ := hc
  have hU1 : now + 2000 < 18446744073709551616 := hU
  by_cases hfire : s.nextPulseTime ≤ now
  · have hD : s.nextPulseTime = now := by omega
    have hb := pulse_beat_handler_regular rnd s hr hv ha
    have hadd : uadd64 now 1000 = now + 1000 := by
      unfold uadd64 ULL; omega
    have hadd2 : uadd64 now 1 = now + 1 := by
      unfold uadd64 ULL; omega
    have key : pulseTimerCardiac now now rnd s
        = some { s with pulseCount := uinc32 s.pulseCount, hrLogBeats := s.hrLogBeats + 1,
                        pulseStates := s.pulseStates ++ [2], nextPulseTime := now + 1000 } := by
      unfold pulseTimerCardiac
      rw [if_pos hfire, hb]
      simp only [hD, hi, hadd, hadd2]
      rw [if_neg (by omega)]
    obtain ⟨b1, b2, b3, b4, b5, b6, b7⟩ := pulseTimerBreath_cardiac now now
      { s with pulseCount := uinc32 s.pulseCount, hrLogBeats := s.hrLogBeats + 1,
               pulseStates := s.pulseStates ++ [2], nextPulseTime := now + 1000 }
    refine ⟨pulseTimerBreath now now _, by rw [pulseTimerIter, key], ⟨?_, ?_, ?_, ?_⟩,
      Or.inl ⟨hD, ?_, ?_, ?_⟩⟩
    · rw [b1]; exact hr
    · rw [b2]; exact hv
    · rw [b3]; exact ha
    · rw [b4]; exact hi
    · rw [b5]
    · rw [b6]
    · rw [b7]
  · have hD : now < s.nextPulseTime := by omega
    have key : pulseTimerCardiac now now rnd s = some s := by
      unfold pulseTimerCardiac
      rw [if_neg hfire]
    obtain ⟨b1, b2, b3, b4, b5, b6, b7⟩ := pulseTimerBreath_cardiac now now s
    refine ⟨pulseTimerBreath now now s, by rw [pulseTimerIter, key], ⟨?_, ?_, ?_, ?_⟩,
      Or.inr ⟨hD, ?_, ?_, ?_⟩⟩
    · rw [b1]; exact hr
    · rw [b2]; exact hv
    · rw [b3]; exact ha
    · rw [b4]; exact hi
    · rw [b5]
    · rw [b6]
    · rw [b7]

/-- Passes of the timer keep `RegularAfter`: the deadline stays within one interval of the
clock and each firing adds one beat. -/
theorem pulseTimerRun_regular (rnds : Nat → Nat) (d h0 pc0 : Nat) (n : Nat) :
    ∀ (t : Nat) (s : Pulse), RegularAfter d h0 pc0 t s → t + n + 2000 < ULL →
      ∃ s1, pulseTimerRun rnds n t s = some s1 ∧ RegularAfter d h0 pc0 (t + n) s1 := by
  induction n with
  | zero => intro t s h _; exact ⟨s, rfl, h⟩
  | succ n ih =>
    intro t s h hU
    obtain ⟨hc, h1, h2, c, hd, hh, hp⟩ := h
    have hc1 : RegularClock { s with msec_time := t + 1 } := ⟨hc.rate, hc.vpc, hc.afib, hc.interval⟩
    obtain ⟨s1, hs1, hc2, hcase⟩ := pulseTimerIter_regular (t + 1) (rnds t)
      { s with msec_time := t + 1 } hc1 (by show t + 1 ≤ s.nextPulseTime; omega)
      (by show s.nextPulseTime < t + 1 + 1000; omega) (by omega)
    have hnext : RegularAfter d h0 pc0 (t + 1) s1 := by
      rcases hcase with ⟨e1, e2, e3, e4⟩ | ⟨e1, e2, e3, e4⟩
      · have e1 : s.nextPulseTime = t + 1 := e1
        have e3 : s1.pulseCount = uinc32 s.pulseCount := e3
        have e4 : s1.hrLogBeats = s.hrLogBeats + 1 := e4
        refine ⟨hc2, by omega, by omega, c + 1, by omega, by omega, ?_⟩
        rw [e3, hp]; unfold uinc32 UINT; omega
      · have e1 : t + 1 < s.nextPulseTime := e1
        have e2 : s1.nextPulseTime = s.nextPulseTime := e2
        have e3 : s1.pulseCount = s.pulseCount := e3
        have e4 : s1.hrLogBeats = s.hrLogBeats := e4
        exact ⟨hc2, by omega, by omega, c, by omega, by omega, by rw [e3, hp]⟩
    obtain ⟨s2, hs2, hfin⟩ := ih (t + 1) s1 hnext (by omega)
    refine ⟨s2, ?_, ?_⟩
    · rw [pulseTimerRun, hs1]; exact hs2
    · have : t + (n + 1) = t + 1 + n := by omega
      rw [this]; exact hfin

/-- The rounding agrees with the binary64 values `0x1.999999999999ap-4` of `1 / 10`,
`0x1.5555555555555p-2` of `1 / 3` and `0x1.ddddddddddddep-4` of `7 / 60`. -/
theorem roundDbl_binary64_values :
    (roundDbl 1 10).num * 36028797018963968 = 3602879701896397 * (roundDbl 1 10).den
      ∧ (roundDbl 1 3).num * 18014398509481984 = 6004799503160661 * (roundDbl 1 3).den
      ∧ (roundDbl 7 60).num * 36028797018963968 = 4203359652212463 * (roundDbl 7 60).den := by
  decide

/-- The interval for rate 60 is 1000 ms. -/
theorem getWaitTimeMsec_60 (c : Int) : getWaitTimeMsec 60 c 0 = some 1000 := by
  have h : getWaitTimeMsec 60 0 0 = some 1000 := by decide
  exact h

/-- The ten-phase interval for rate 60 is 100 ms. -/
theorem getWaitTimeMsec_60_fib (c : Int) : getWaitTimeMsec 60 c 1 = some 100 := by
  have h : getWaitTimeMsec 60 0 1 = some 100 := by decide
  exact h

set_option maxRecDepth 100000 in
set_option maxHeartbeats 4000000 in
/-- The interval for each of the rates 1 to 300, by evaluation. -/
theorem getWaitTimeMsec_table :
    ∀ n : Nat, n < 301 → 0 < n → getWaitTimeMsec (n : Int) 0 0 = some (60000 / n) := by
  decide

/-- What `resetTimer` does to the cardiac clock once the interval is known. -/
theorem resetTimer_cardiac (rate isFib : Int) (w : Nat) (s : Pulse)
    (h : getWaitTimeMsec rate IS_CARDIAC isFib = some w) :
    resetTimer rate IS_CARDIAC isFib s
      = some (if usub64 s.nextPulseTime s.msec_time > uadd64 s.msec_time w then
          { s with pulseInterval := w, nextPulseTime := uadd64 s.msec_time w }
        else { s with pulseInterval := w }) := by
  unfold resetTimer
  rw [h]
  simp only []
  rw [if_pos (by decide : IS_CARDIAC ≠ 0)]
  split_ifs <;> rfl

/-- What `resetTimer` does to the respiratory clock once the interval is known. -/
theorem resetTimer_breath (rate isFib : Int) (w : Nat) (s : Pulse)
    (h : getWaitTimeMsec rate NOT_CARDIAC isFib = some w) :
    resetTimer rate NOT_CARDIAC isFib s
      = some (if usub64 s.nextBreathTime s.msec_time > uadd64 s.msec_time s.pulseInterval then
          { s with breathInterval := w, nextBreathTime := uadd64 s.msec_time w }
        else { s with breathInterval := w }) := by
  unfold resetTimer
  rw [h]
  simp only []
  rw [if_neg (by decide : ¬ NOT_CARDIAC ≠ 0)]
  split_ifs <;> rfl

/-- The call `set_pulse_rate(60)` for a regular rhythm. -/
theorem set_pulse_rate_regular (s : Pulse) (hv : s.vpcType = 0) (ha : s.afibActive = 0) :
    set_pulse_rate 60 s
      = some (if usub64 s.nextPulseTime s.msec_time > uadd64 s.msec_time 1000 then
          { s with pulseInterval := 1000, nextPulseTime := uadd64 s.msec_time 1000 }
        else { s with pulseInterval := 1000 }) := by
  have hirr : ¬ (s.vpcType > 0 ∨ s.afibActive ≠ 0) := by
    rw [hv, ha]; decide
  unfold set_pulse_rate
  simp only []
  rw [if_neg hirr]
  exact resetTimer_cardiac 60 0 1000 s (getWaitTimeMsec_60 IS_CARDIAC)

/-- The call `set_pulse_rate(60)` unfolded. -/
theorem set_pulse_rate_60 (s : Pulse) :
    set_pulse_rate 60 s
      = if s.vpcType > 0 ∨ s.afibActive ≠ 0 then resetTimer 60 IS_CARDIAC 1 s
        else resetTimer 60 IS_CARDIAC 0 s := rfl

/-- The call `set_breath_rate(60)` unfolded. -/
theorem set_breath_rate_60 (s : Pulse) :
    set_breath_rate 60 s = resetTimer 60 NOT_CARDIAC 0 s := rfl

/-- The call `set_pulse_rate(60)` returns and installs the interval for rate 60. -/
theorem set_pulse_rate_interval (s : Pulse) :
    ∃ s1, set_pulse_rate 60 s = some s1
      ∧ s1.pulseInterval = if s.vpcType > 0 ∨ s.afibActive ≠ 0 then 100 else 1000 := by
  rw [set_pulse_rate_60]
  by_cases h : s.vpcType > 0 ∨ s.afibActive ≠ 0
  · rw [if_pos h, if_pos h, resetTimer_cardiac 60 1 100 s (getWaitTimeMsec_60_fib IS_CARDIAC)]
    refine ⟨_, rfl, ?_⟩
    split_ifs <;> rfl
  · rw [if_neg h, if_neg h, resetTimer_cardiac 60 0 1000 s (getWaitTimeMsec_60 IS_CARDIAC)]
    refine ⟨_, rfl, ?_⟩
    split_ifs <;> rfl

/-- The call `set_breath_rate(60)` returns and installs the interval for rate 60. -/
theorem set_breath_rate_interval (s : Pulse) :
    ∃ s1, set_breath_rate 60 s = some s1 ∧ s1.breathInterval = 1000 := by
  rw [set_breath_rate_60, resetTimer_breath 60 0 1000 s (getWaitTimeMsec_60 NOT_CARDIAC)]
  refine ⟨_, rfl, ?_⟩
  split_ifs <;> rfl

/-- The beat `pulse_beat_handler` fires when `beatPhase` has run out with VPCs pending. -/
theorem pulse_beat_handler_vpc_eq (rnd : Nat) (s : Pulse) (hrate : s.currentPulseRate > 0)
    (hmode : s.vpcType > 0 ∨ s.afibActive ≠ 0) (hphase : s.beatPhase ≤ 0)
    (hvpc : s.vpcState > 0) :
    pulse_beat_handler rnd s = some
      { s with pulseCountVpc := uinc32 s.pulseCountVpc, hrLogBeats := s.hrLogBeats + 1,
               vpcState := s.vpcState - 1,
               beatPhase := if s.vpcState - 1 = 0 then
                   (if s.cardiac_vpc_count = 2 then 16
                    else if s.cardiac_vpc_count = 3 then 19 else 13)
                 else 6 } := by
  unfold pulse_beat_handler
  simp only [hrate, hmode, hphase, hvpc, if_true]
  split_ifs <;> rfl

/-- The ticks before a beat: while `beatPhase` is positive a call only counts it down. -/
theorem pulse_beat_handler_wait (rnd : Nat) (s : Pulse) (hrate : s.currentPulseRate > 0)
    (hmode : s.vpcType > 0 ∨ s.afibActive ≠ 0) (hphase : 0 < s.beatPhase) :
    pulse_beat_handler rnd s = some { s with beatPhase := s.beatPhase - 1 } := by
  unfold pulse_beat_handler
  simp only [hrate, hmode, not_le.mpr hphase, if_true, if_false]

/-- Calls of `pulse_beat_handler` one batch after another. -/
theorem pulseBeats_add (rnds : Nat → Nat) (m n : Nat) (s : Pulse) :
    pulseBeats rnds (m + n) s
      = (pulseBeats rnds m s).bind (pulseBeats (fun i => rnds (m + i)) n) := by
  induction n with
  | zero => cases h : pulseBeats rnds m s <;> simp [pulseBeats, h]
  | succ n ih =>
    rw [← Nat.add_assoc, pulseBeats, ih]
    cases h : pulseBeats rnds m s with
    | none => rfl
    | some s1 => rfl

/-- While `beatPhase` counts down from `p`, `p` calls change nothing else. -/
theorem pulseBeats_wait (rnds : Nat → Nat) (p : Nat) (s : Pulse)
    (hrate : s.currentPulseRate > 0) (hmode : s.vpcType > 0 ∨ s.afibActive ≠ 0)
    (hphase : s.beatPhase = p) :
    pulseBeats rnds p s = some { s with beatPhase := 0 } := by
  induction p generalizing s rnds with
  | zero => rw [pulseBeats, ← Nat.cast_zero, ← hphase]
  | succ p ih =>
    have h1 : pulseBeats rnds (1 + p) s
        = (pulseBeats rnds 1 s).bind (pulseBeats (fun i => rnds (1 + i)) p) :=
      pulseBeats_add rnds 1 p s
    have h2 : pulseBeats rnds 1 s = some { s with beatPhase := s.beatPhase - 1 } := by
      show pulse_beat_handler (rnds 0) s = _
      exact pulse_beat_handler_wait _ s hrate hmode (by rw [hphase]; positivity)
    rw [show p + 1 = 1 + p from Nat.add_comm p 1, h1, h2, Option.some_bind]
    exact ih _ _ hrate hmode (by simp [hphase])


/-- The beat `pulse_beat_handler` fires when `beatPhase` has run out with no VPC pending:
the normal cycle. -/
theorem pulse_beat_handler_sinus_eq (rnd : Nat) (s : Pulse) (hrate : s.currentPulseRate > 0)
    (hmode : s.vpcType > 0 ∨ s.afibActive ≠ 0) (hphase : s.beatPhase ≤ 0)
    (hvpc : ¬ s.vpcState > 0) :
    pulse_beat_handler rnd s =
      if s.afibActive ≠ 0 then
        some { s with pulseCount := uinc32 s.pulseCount, hrLogBeats := s.hrLogBeats + 1,
                      beatPhase := 5 + ((rnd : Int) % 14) }
      else if s.vpcType > 0 ∧ s.currentVpcFreq > 0 then
        match readVpcFrequency s.vpcFrequencyArray (nextVpcIndex s.vpcFrequencyIndex) with
        | none => none
        | some v =>
          if v > 0 then
            some { s with pulseCount := uinc32 s.pulseCount, hrLogBeats := s.hrLogBeats + 1,
                          vpcFrequencyIndex := nextVpcIndex s.vpcFrequencyIndex,
                          vpcState := s.cardiac_vpc_count, beatPhase := 6 }
          else
            some { s with pulseCount := uinc32 s.pulseCount, hrLogBeats := s.hrLogBeats + 1,
                          vpcFrequencyIndex := nextVpcIndex s.vpcFrequencyIndex,
                          beatPhase := 9 }
      else
        some { s with pulseCount := uinc32 s.pulseCount, hrLogBeats := s.hrLogBeats + 1,
                      beatPhase := 9 } := by
  unfold pulse_beat_handler nextVpcIndex
  simp only [hrate, hmode, hphase, hvpc, if_true, if_false]
  split_ifs <;> rfl

/-- A burst of `k + 1` VPCs seeded with `beatPhase = 6` fires them on the calls `7, 14, ...`
and leaves the delay to the next sinus beat. -/
theorem vpc_burst_fires (rnds : Nat → Nat) (k : Nat) (s : Pulse)
    (hrate : s.currentPulseRate > 0) (hmode : s.vpcType > 0 ∨ s.afibActive ≠ 0)
    (hphase : s.beatPhase = 6) (hk : s.vpcState = (k : Int) + 1) :
    pulseBeats rnds (7 * (k + 1)) s = some
      { s with pulseCountVpc := Nat.iterate uinc32 (k + 1) s.pulseCountVpc,
               hrLogBeats := s.hrLogBeats + (k + 1), vpcState := 0,
               beatPhase := afterBurst s.cardiac_vpc_count } := by
  have first (rnds : Nat → Nat) (s : Pulse) (hrate : s.currentPulseRate > 0)
      (hmode : s.vpcType > 0 ∨ s.afibActive ≠ 0) (hphase : s.beatPhase = 6)
      (hpos : s.vpcState > 0) :
      pulseBeats rnds 7 s = some
        { s with pulseCountVpc := uinc32 s.pulseCountVpc, hrLogBeats := s.hrLogBeats + 1,
                 vpcState := s.vpcState - 1,
                 beatPhase := if s.vpcState - 1 = 0 then afterBurst s.cardiac_vpc_count
                   else 6 } := by
    rw [show (7 : Nat) = 6 + 1 from rfl, pulseBeats,
      pulseBeats_wait rnds 6 s hrate hmode (by rw [hphase]; rfl)]
    exact pulse_beat_handler_vpc_eq (rnds 6) { s with beatPhase := 0 } hrate hmode
      (le_refl _) hpos
  induction k generalizing s rnds with
  | zero =>
    rw [first rnds s hrate hmode hphase (by omega)]
    simp only [hk]
    rfl
  | succ k ih =>
    have h7 := first rnds s hrate hmode hphase (by omega)
    have hrec := ih (fun i => rnds (7 + i))
      { s with pulseCountVpc := uinc32 s.pulseCountVpc, hrLogBeats := s.hrLogBeats + 1,
               vpcState := s.vpcState - 1,
               beatPhase := if s.vpcState - 1 = 0 then afterBurst s.cardiac_vpc_count
                 else 6 }
      hrate hmode (if_neg (by omega)) (by show s.vpcState - 1 = _; rw [hk]; push_cast; ring)
    rw [show 7 * (k + 1 + 1) = 7 + 7 * (k + 1) by ring, pulseBeats_add, h7, Option.some_bind,
      hrec]
    simp only [Function.iterate_succ, Function.comp]
    congr 1
    simp only [Pulse.mk.injEq, true_and, and_true]
    omega

/-- A burst of `k` VPCs seeded with `beatPhase = 6` fires exactly `k` VPC beats and no sinus
beat in `burstTicks k` calls, after which `vpcState` and `beatPhase` are both 0: the next
call is the normal cycle of `pulse_beat_handler_sinus_eq`. -/
theorem vpc_burst_completes (rnds : Nat → Nat) (k : Nat) (s : Pulse)
    (hrate : s.currentPulseRate > 0) (hmode : s.vpcType > 0 ∨ s.afibActive ≠ 0)
    (hphase : s.beatPhase = 6) (hk : s.vpcState = (k : Int)) :
    pulseBeats rnds (burstTicks k s.cardiac_vpc_count) s = some
      { s with pulseCountVpc := Nat.iterate uinc32 k s.pulseCountVpc,
               hrLogBeats := s.hrLogBeats + k, vpcState := 0, beatPhase := 0 } := by
  cases k with
  | zero =>
    rw [burstTicks, if_pos rfl, pulseBeats_wait rnds 6 s hrate hmode (by rw [hphase]; rfl)]
    congr 1
    simp only [Pulse.mk.injEq, true_and, and_true]
    exact ⟨by rw [hk]; rfl, rfl, rfl⟩
  | succ k =>
    have hpost : afterBurst s.cardiac_vpc_count = ((afterBurst s.cardiac_vpc_count).toNat : Int) := by
      unfold afterBurst; split_ifs <;> rfl
    rw [burstTicks, if_neg (Nat.succ_ne_zero k), pulseBeats_add,
      vpc_burst_fires rnds k s hrate hmode hphase (by rw [hk]; push_cast; rfl),
      Option.some_bind]
    exact pulseBeats_wait _ _ _ hrate hmode hpost

/-- A sinus cycle that reads an empty slot: the beat fires on the first call and the next
beat is due after nine more. -/
theorem sinus_cycle_empty_slot (rnds : Nat → Nat) (s : Pulse) (hrate : s.currentPulseRate > 0)
    (hv : s.vpcType > 0) (ha : s.afibActive = 0) (hf : s.currentVpcFreq > 0)
    (hphase : s.beatPhase = 0) (hvpc : s.vpcState = 0)
    (hread : readVpcFrequency s.vpcFrequencyArray (nextVpcIndex s.vpcFrequencyIndex) = some 0) :
    pulseBeats rnds 10 s = some
      { s with pulseCount := uinc32 s.pulseCount, hrLogBeats := s.hrLogBeats + 1,
               vpcFrequencyIndex := nextVpcIndex s.vpcFrequencyIndex, beatPhase := 0 } := by
  have h1 : pulseBeats rnds 1 s = some
      { s with pulseCount := uinc32 s.pulseCount, hrLogBeats := s.hrLogBeats + 1,
               vpcFrequencyIndex := nextVpcIndex s.vpcFrequencyIndex, beatPhase := 9 } := by
    show pulse_beat_handler (rnds 0) s = _
    have hna : ¬ s.afibActive ≠ 0 := fun h => h ha
    have hvf : s.vpcType > 0 ∧ s.currentVpcFreq > 0 := ⟨hv, hf⟩
    rw [pulse_beat_handler_sinus_eq _ s hrate (Or.inl hv) (le_of_eq hphase)
      (by rw [hvpc]; decide), if_neg hna, if_pos hvf, hread]
    rfl
  have h9 := pulseBeats_wait (fun i => rnds (1 + i)) 9
    { s with pulseCount := uinc32 s.pulseCount, hrLogBeats := s.hrLogBeats + 1,
             vpcFrequencyIndex := nextVpcIndex s.vpcFrequencyIndex, beatPhase := 9 }
    hrate (Or.inl hv) rfl
  rw [show (10 : Nat) = 1 + 9 from rfl, pulseBeats_add, h1, Option.some_bind, h9]

/-- Sinus cycles over empty slots: `k` cycles that start at index `i` with `i + k` below 200
take ten calls each and advance the index by one each. -/
theorem sinus_cycles_empty_slots (rnds : Nat → Nat) (k i : Nat) (s : Pulse)
    (hrate : s.currentPulseRate > 0) (hv : s.vpcType > 0) (ha : s.afibActive = 0)
    (hf : s.currentVpcFreq > 0) (hphase : s.beatPhase = 0) (hvpc : s.vpcState = 0)
    (harr : s.vpcFrequencyArray = List.replicate VPC_ARRAY_LEN 0)
    (hidx : s.vpcFrequencyIndex = (i : Int)) (hik : i + k < VPC_ARRAY_LEN) :
    pulseBeats rnds (10 * k) s = some
      { s with pulseCount := Nat.iterate uinc32 k s.pulseCount,
               hrLogBeats := s.hrLogBeats + k,
               vpcFrequencyIndex := ((i + k : Nat) : Int) } := by
  induction k generalizing s rnds i with
  | zero =>
    rw [Nat.mul_zero, pulseBeats]
    congr 1
    cases s
    simp only [Pulse.mk.injEq, true_and, and_true, Function.iterate_zero, id, Nat.add_zero]
    exact hidx
  | succ k ih =>
    have hnext : nextVpcIndex s.vpcFrequencyIndex = ((i + 1 : Nat) : Int) := by
      unfold nextVpcIndex VPC_ARRAY_LEN
      unfold VPC_ARRAY_LEN at hik
      rw [hidx, if_neg (by omega)]
      push_cast
      rfl
    have hread : readVpcFrequency s.vpcFrequencyArray (nextVpcIndex s.vpcFrequencyIndex)
        = some 0 := by
      unfold VPC_ARRAY_LEN at hik harr
      rw [hnext, harr, readVpcFrequency, if_pos (by omega), Int.toNat_ofNat, List.get?_eq_getElem?,
        List.getElem?_replicate, if_pos (by omega)]
    have hc := sinus_cycle_empty_slot rnds s hrate hv ha hf hphase hvpc hread
    have hrec := ih (fun j => rnds (10 + j)) (i + 1)
      { s with pulseCount := uinc32 s.pulseCount, hrLogBeats := s.hrLogBeats + 1,
               vpcFrequencyIndex := nextVpcIndex s.vpcFrequencyIndex, beatPhase := 0 }
      hrate hv ha hf rfl hvpc harr hnext (by omega)
    rw [show 10 * (k + 1) = 10 + 10 * k by ring, pulseBeats_add, hc, Option.some_bind, hrec]
    congr 1
    simp only [Pulse.mk.injEq, true_and, and_true, Function.iterate_succ, Function.comp]
    refine ⟨?_, ?_⟩
    · push_cast
      omega
    · omega

/-- A call of `pulse_beat_handler` leaves the cardiac deadline and interval alone. -/
theorem pulse_beat_handler_deadline (rnd : Nat) (s s1 : Pulse)
    (h : pulse_beat_handler rnd s = some s1) :
    s1.nextPulseTime = s.nextPulseTime ∧ s1.pulseInterval = s.pulseInterval := by
  by_cases hrate : s.currentPulseRate > 0
  · by_cases hmode : s.vpcType > 0 ∨ s.afibActive ≠ 0
    · by_cases hphase : s.beatPhase ≤ 0
      · by_cases hvpc : s.vpcState > 0
        · rw [pulse_beat_handler_vpc_eq rnd s hrate hmode hphase hvpc] at h
          injection h with h
          rw [← h]
          exact ⟨rfl, rfl⟩
        · rw [pulse_beat_handler_sinus_eq rnd s hrate hmode hphase hvpc] at h
          cases hr : readVpcFrequency s.vpcFrequencyArray (nextVpcIndex s.vpcFrequencyIndex) with
          | none =>
            rw [hr] at h
            split_ifs at h <;> (injection h with h; rw [← h]; exact ⟨rfl, rfl⟩)
          | some v =>
            rw [hr] at h
            simp only [] at h
            split_ifs at h <;> (injection h with h; rw [← h]; exact ⟨rfl, rfl⟩)
      · rw [pulse_beat_handler_wait rnd s hrate hmode (not_le.mp hphase)] at h
        injection h with h
        rw [← h]
        exact ⟨rfl, rfl⟩
    · unfold pulse_beat_handler at h
      rw [if_pos hrate, if_neg hmode] at h
      injection h with h
      rw [← h]
      exact ⟨rfl, rfl⟩
  · unfold pulse_beat_handler at h
    rw [if_neg hrate] at h
    injection h with h
    rw [← h]
    exact ⟨rfl, rfl⟩

/-- The normal cycle of `pulse_beat_handler` when the slot it reads lies in the array. -/
theorem sinus_beat_step (rnd : Nat) (s : Pulse) (v : Int) (hrate : s.currentPulseRate > 0)
    (hmode : s.vpcType > 0 ∨ s.afibActive ≠ 0) (hphase : s.beatPhase ≤ 0)
    (hvpc : s.vpcState = 0)
    (hread : s.afibActive = 0 → s.currentVpcFreq > 0 →
      readVpcFrequency s.vpcFrequencyArray (nextVpcIndex s.vpcFrequencyIndex) = some v) :
    ∃ s1, pulse_beat_handler rnd s = some s1 ∧ s1.pulseCount = uinc32 s.pulseCount
      ∧ s1.pulseCountVpc = s.pulseCountVpc
      ∧ (s.afibActive ≠ 0 → 5 ≤ s1.beatPhase ∧ s1.beatPhase ≤ 18)
      ∧ (s.afibActive = 0 → s.currentVpcFreq > 0 → v > 0 →
          s1.vpcState = s.cardiac_vpc_count ∧ s1.beatPhase = 6)
      ∧ (s.afibActive = 0 → ¬ (s.currentVpcFreq > 0 ∧ v > 0) →
          s1.vpcState = 0 ∧ s1.beatPhase = 9) := by
  have heq := pulse_beat_handler_sinus_eq rnd s hrate hmode hphase (by rw [hvpc]; decide)
  by_cases ha : s.afibActive ≠ 0
  · rw [if_pos ha] at heq
    refine ⟨_, heq, rfl, rfl, fun _ => ?_, fun h => absurd h ha, fun h => absurd h ha⟩
    show 5 ≤ 5 + (rnd : Int) % 14 ∧ 5 + (rnd : Int) % 14 ≤ 18
    omega
  · rw [if_neg ha] at heq
    have ha0 : s.afibActive = 0 := not_not.mp ha
    have hv : s.vpcType > 0 := hmode.elim id (fun h => absurd h ha)
    by_cases hf : s.currentVpcFreq > 0
    · have hvf : s.vpcType > 0 ∧ s.currentVpcFreq > 0 := ⟨hv, hf⟩
      rw [if_pos hvf, hread ha0 hf] at heq
      by_cases hpos : v > 0
      · simp only [hpos, if_true] at heq
        exact ⟨_, heq, rfl, rfl, fun h => absurd h ha, fun _ _ _ => ⟨rfl, rfl⟩,
          fun _ h => absurd ⟨hf, hpos⟩ h⟩
      · simp only [hpos, if_false] at heq
        exact ⟨_, heq, rfl, rfl, fun h => absurd h ha, fun _ _ h => absurd h hpos,
          fun _ _ => ⟨hvpc, rfl⟩⟩
    · have hvf : ¬ (s.vpcType > 0 ∧ s.currentVpcFreq > 0) := fun h => hf h.2
      rw [if_neg hvf] at heq
      exact ⟨_, heq, rfl, rfl, fun h => absurd h ha, fun _ h => absurd h hf,
        fun _ _ => ⟨hvpc, rfl⟩⟩

/-- The function `resetTimer` leaves `afibActive` and the rhythm name alone. -/
theorem resetTimer_afib (rate isCardiac isFib : Int) (s s1 : Pulse)
    (h : resetTimer rate isCardiac isFib s = some s1) :
    s1.afibActive = s.afibActive ∧ s1.cardiac_rhythm = s.cardiac_rhythm := by
  unfold resetTimer at h
  cases hw : getWaitTimeMsec rate isCardiac isFib with
  | none => rw [hw] at h; exact absurd h (by simp)
  | some w =>
    rw [hw] at h
    simp only [] at h
    split_ifs at h <;> (injection h with h; rw [← h]; exact ⟨rfl, rfl⟩)

/-- The function `set_pulse_rate` leaves `afibActive` and the rhythm name alone. -/
theorem set_pulse_rate_afib (bpm : Int) (s s1 : Pulse) (h : set_pulse_rate bpm s = some s1) :
    s1.afibActive = s.afibActive ∧ s1.cardiac_rhythm = s.cardiac_rhythm := by
  unfold set_pulse_rate at h
  simp only [] at h
  split_ifs at h <;> exact resetTimer_afib _ _ _ s s1 h

/-- What a pass of the settling loop does to `afibActive`: it becomes 1 when the rhythm name
begins with `afib` and it was 0, and 0 in every other case. -/
theorem pulseProcessChildIter_afib (rnds : Nat → Nat) (s s1 : Pulse)
    (h : pulseProcessChildIter rnds s = some s1) :
    s1.cardiac_rhythm = s.cardiac_rhythm
      ∧ s1.afibActive
          = (if startsWith "afib".toList s.cardiac_rhythm = true ∧ s.afibActive = 0 then 1
             else 0) := by
  unfold pulseProcessChildIter at h
  simp only [] at h
  -- first block
  cases h1 : (if s.currentPulseRate ≠ s.cardiac_rate then
      (set_pulse_rate s.cardiac_rate s).map
        (fun s => { s with currentPulseRate := s.cardiac_rate })
    else some s) with
  | none => rw [h1] at h; exact absurd h (by simp)
  | some a =>
    rw [h1, Option.some_bind] at h
    have ha : a.afibActive = s.afibActive ∧ a.cardiac_rhythm = s.cardiac_rhythm := by
      split_ifs at h1
      · cases hs : set_pulse_rate s.cardiac_rate s with
        | none => rw [hs] at h1; exact absurd h1 (by simp)
        | some b =>
          rw [hs] at h1
          injection h1 with h1
          rw [← h1]
          exact set_pulse_rate_afib _ s b hs
      · injection h1 with h1
        rw [← h1]
        exact ⟨rfl, rfl⟩
    cases h2 : (if a.currentVpcFreq ≠ a.cardiac_vpc_freq ∨ a.vpcType ≠ a.cardiac_vpc_type then
        set_pulse_rate a.cardiac_rate
          (calculateVPCFreq rnds
            { a with currentVpcFreq := a.cardiac_vpc_freq, vpcType := a.cardiac_vpc_type })
      else some a) with
    | none => rw [h2] at h; exact absurd h (by simp)
    | some b =>
      rw [h2, Option.some_bind] at h
      have hb : b.afibActive = a.afibActive ∧ b.cardiac_rhythm = a.cardiac_rhythm := by
        split_ifs at h2
        · have hk := set_pulse_rate_afib _ _ b h2
          have hc : (calculateVPCFreq rnds
              { a with currentVpcFreq := a.cardiac_vpc_freq,
                       vpcType := a.cardiac_vpc_type }).afibActive = a.afibActive
              ∧ (calculateVPCFreq rnds
              { a with currentVpcFreq := a.cardiac_vpc_freq,
                       vpcType := a.cardiac_vpc_type }).cardiac_rhythm = a.cardiac_rhythm := by
            unfold calculateVPCFreq
            split_ifs <;> exact ⟨rfl, rfl⟩
          exact ⟨hk.1.trans hc.1, hk.2.trans hc.2⟩
        · injection h2 with h2
          rw [← h2]
          exact ⟨rfl, rfl⟩
      cases h3 : (if startsWith "afib".toList b.cardiac_rhythm = true ∧ ¬ b.afibActive ≠ 0 then
          set_pulse_rate b.cardiac_rate { b with afibActive := 1 }
        else if b.afibActive ≠ 0 then
          set_pulse_rate b.cardiac_rate { b with afibActive := 0 }
        else some b) with
      | none => rw [h3] at h; exact absurd h (by simp)
      | some c =>
        rw [h3, Option.some_bind] at h
        have hc : c.cardiac_rhythm = s.cardiac_rhythm
            ∧ c.afibActive
              = (if startsWith "afib".toList s.cardiac_rhythm = true ∧ s.afibActive = 0 then 1
                 else 0) := by
          rw [← ha.2, ← hb.2, ← ha.1, ← hb.1]
          by_cases hx : startsWith "afib".toList b.cardiac_rhythm = true ∧ ¬ b.afibActive ≠ 0
          · rw [if_pos hx] at h3
            have hk := set_pulse_rate_afib _ _ c h3
            have hy : startsWith "afib".toList b.cardiac_rhythm = true ∧ b.afibActive = 0 :=
              ⟨hx.1, not_not.mp hx.2⟩
            rw [if_pos hy]
            exact ⟨hk.2, hk.1⟩
          · rw [if_neg hx] at h3
            have hy : ¬ (startsWith "afib".toList b.cardiac_rhythm = true ∧ b.afibActive = 0) :=
              fun hy => hx ⟨hy.1, not_not.mpr hy.2⟩
            rw [if_neg hy]
            by_cases hz : b.afibActive ≠ 0
            · rw [if_pos hz] at h3
              have hk := set_pulse_rate_afib _ _ c h3
              exact ⟨hk.2, hk.1⟩
            · rw [if_neg hz] at h3
              injection h3 with h3
              rw [← h3]
              exact ⟨rfl, not_not.mp hz⟩
        cases h4 : (if c.lastManualBreath ≠ c.manual_count then
            restart_breath_timer { c with lastManualBreath := c.manual_count }
          else some c) with
        | none => rw [h4] at h; exact absurd h (by simp)
        | some d =>
          rw [h4, Option.some_bind] at h
          have hd : d.afibActive = c.afibActive ∧ d.cardiac_rhythm = c.cardiac_rhythm := by
            split_ifs at h4
            · unfold restart_breath_timer at h4
              simp only [] at h4
              cases hw : getWaitTimeMsec c.respiration_rate 0 0 with
              | none => rw [hw] at h4; exact absurd h4 (by simp)
              | some w =>
                rw [hw] at h4
                simp only [] at h4
                split_ifs at h4 <;> (injection h4 with h4; rw [← h4]; exact ⟨rfl, rfl⟩)
            · injection h4 with h4
              rw [← h4]
              exact ⟨rfl, rfl⟩
          have he : s1.afibActive = d.afibActive ∧ s1.cardiac_rhythm = d.cardiac_rhythm := by
            split_ifs at h
            · cases hs : set_breath_rate d.respiration_rate d with
              | none => rw [hs] at h; exact absurd h (by simp)
              | some e =>
                rw [hs] at h
                injection h with h
                rw [← h]
                unfold set_breath_rate at hs
                exact resetTimer_afib _ _ _ d e hs
            · injection h with h
              rw [← h]
              exact ⟨rfl, rfl⟩
          exact ⟨he.2.trans (hd.2.trans hc.1), he.1.trans (hd.1.trans hc.2)⟩

/-! ## Claims about the beat scheduler -/

/-- C7 (as amended). With cached cardiac rate 60, no VPC type and no AFib,
`set_pulse_rate(60)` run at time `t0 = msec_time` returns with interval 1000.  When the
cardiac deadline it leaves lies in `(t0, t0 + 1000]` and the clock advances 1 ms per pass
of `pulseTimer`, then for every `k` (with `t0 + 1000 k + 2000` below `2^64`) exactly `k`
beats have been logged and `pulseCount` has been incremented `k` times by time
`t0 + 1000 k`. -/
theorem rate60_one_beat_per_second (rnds : Nat → Nat) (s0 : Pulse) (k : Nat)
    (hr : s0.currentPulseRate = 60) (hv : s0.vpcType = 0) (ha : s0.afibActive = 0)
    (hpc : s0.pulseCount < UINT) :
    ∃ s1, set_pulse_rate 60 s0 = some s1 ∧ s1.pulseInterval = 1000
      ∧ (s0.msec_time < s1.nextPulseTime → s1.nextPulseTime ≤ s0.msec_time + 1000 →
          s0.msec_time + 1000 * k + 2000 < ULL →
          ∃ s2, pulseTimerRun rnds (1000 * k) s0.msec_time s1 = some s2
            ∧ s2.hrLogBeats = s0.hrLogBeats + k
            ∧ s2.pulseCount = (s0.pulseCount + k) % UINT) := by
  refine ⟨_, set_pulse_rate_regular s0 hv ha, by split_ifs <;> rfl, ?_⟩
  intro h1 h2 hU
  have hreg : RegularAfter
      (if usub64 s0.nextPulseTime s0.msec_time > uadd64 s0.msec_time 1000 then
          ({ s0 with pulseInterval := 1000, nextPulseTime := uadd64 s0.msec_time 1000 } : Pulse)
        else { s0 with pulseInterval := 1000 }).nextPulseTime
      s0.hrLogBeats s0.pulseCount s0.msec_time
      (if usub64 s0.nextPulseTime s0.msec_time > uadd64 s0.msec_time 1000 then
          ({ s0 with pulseInterval := 1000, nextPulseTime := uadd64 s0.msec_time 1000 } : Pulse)
        else { s0 with pulseInterval := 1000 }) := by
    refine ⟨?_, h1, h2, 0, by omega, ?_, ?_⟩
    · split_ifs <;> exact ⟨hr, hv, ha, rfl⟩
    · split_ifs <;> rfl
    · rw [Nat.add_zero, Nat.mod_eq_of_lt hpc]
      split_ifs <;> rfl
  obtain ⟨s2, hs2, _, h3, h4, c, hc1, hc2, hc3⟩ :=
    pulseTimerRun_regular rnds _ _ _ (1000 * k) s0.msec_time _ hreg (by omega)
  have hck : c = k := by omega
  subst hck
  exact ⟨s2, hs2, hc2, hc3⟩

set_option maxRecDepth 100000 in
/-- Witness of C7: start-up at rate 60 with the clock at 5 ms; the deadline becomes 1005
and three beats have fired after 3000 passes. -/
theorem rate60_start_up_three_seconds :
    startUpAtRate60.currentPulseRate = 60 ∧ startUpAtRate60.vpcType = 0
      ∧ startUpAtRate60.afibActive = 0 ∧ startUpAtRate60.msec_time = 5
      ∧ ∃ s1 s2, set_pulse_rate 60 startUpAtRate60 = some s1 ∧ s1.nextPulseTime = 1005
        ∧ pulseTimerRun (fun _ => 0) 3000 5 s1 = some s2
        ∧ s2.hrLogBeats = 3 ∧ s2.pulseCount = 3 := by
  obtain ⟨s1, h1, _, hrun⟩ :=
    rate60_one_beat_per_second (fun _ => 0) startUpAtRate60 3 rfl rfl rfl (by decide)
  have hs1 : set_pulse_rate 60 startUpAtRate60
      = some { startUpAtRate60 with pulseInterval := 1000, nextPulseTime := 1005 } := by decide
  have hd : s1.nextPulseTime = 1005 := by
    rw [hs1] at h1
    injection h1 with h1
    rw [← h1]
  obtain ⟨s2, h2, h3, h4⟩ := hrun (by rw [hd]; decide) (by rw [hd]; decide) (by decide)
  exact ⟨rfl, rfl, rfl, rfl, s1, s2, h1, hd, h2, h3, h4⟩

set_option maxRecDepth 100000 in
/-- Counterexample to C7 as stated: rate 60, no VPC, no AFib, and `set_pulse_rate(60)` runs
at `t0 = 7000`, the millisecond at which the cardiac deadline falls due.  The deadline is
kept, the first pass fires a beat at 7001 and pass 1000 fires the next one at 8000: two
increments, not one, have occurred by `t0 + 1000`. -/
theorem rate60_due_deadline_two_beats :
    dueNowAtRate60.currentPulseRate = 60 ∧ dueNowAtRate60.vpcType = 0
      ∧ dueNowAtRate60.afibActive = 0 ∧ dueNowAtRate60.msec_time = 7000
      ∧ dueNowAtRate60.pulseCount = 0
      ∧ ∃ s1 s2, set_pulse_rate 60 dueNowAtRate60 = some s1
        ∧ pulseTimerRun (fun _ => 0) (1000 * 1) 7000 s1 = some s2
        ∧ s2.pulseCount = 2 ∧ s2.hrLogBeats = 2 := by
  have hset : set_pulse_rate 60 dueNowAtRate60 = some dueNowAtRate60 := by decide
  have hfirst : pulseTimerIter 7001 7001 7001 7001 0 { dueNowAtRate60 with msec_time := 7001 }
      = some { dueNowAtRate60 with msec_time := 7001, pulseCount := 1, hrLogBeats := 1,
                                   pulseStates := [2], nextPulseTime := 8000,
                                   nextBreathTime := 7001 } := by decide
  have hreg : RegularAfter 8000 1 1 7001
      { dueNowAtRate60 with msec_time := 7001, pulseCount := 1, hrLogBeats := 1,
                            pulseStates := [2], nextPulseTime := 8000,
                            nextBreathTime := 7001 } :=
    ⟨⟨rfl, rfl, rfl, rfl⟩, by decide, by decide, 0, rfl, rfl, rfl⟩
  obtain ⟨s2, hs2, _, h3, h4, c, hc1, hc2, hc3⟩ :=
    pulseTimerRun_regular (fun _ => 0) 8000 1 1 999 7001 _ hreg (by decide)
  have hc : c = 1 := by omega
  subst hc
  refine ⟨rfl, rfl, rfl, rfl, rfl, dueNowAtRate60, s2, hset, ?_, hc3, hc2⟩
  show pulseTimerRun (fun _ => 0) (999 + 1) 7000 dueNowAtRate60 = some s2
  rw [pulseTimerRun, hfirst]
  exact hs2

/-- C8. For every rate `r` with `0 < r <= 300`, `getWaitTimeMsec(r, _, 0)` is the integer
quotient `60000 / r`; `set_pulse_rate(0)` and `set_breath_rate(0)` do what
`set_pulse_rate(60)` and `set_breath_rate(60)` do, and install the interval for rate 60
(1000 ms, or 100 ms for the ten-phase cardiac timer). -/
theorem interval_is_60000_div_rate (r isCardiac : Int) (s : Pulse) (h0 : 0 < r)
    (h300 : r ≤ 300) :
    getWaitTimeMsec r isCardiac 0 = some (60000 / r.toNat)
      ∧ set_pulse_rate 0 s = set_pulse_rate 60 s
      ∧ set_breath_rate 0 s = set_breath_rate 60 s
      ∧ (∃ s1, set_pulse_rate 0 s = some s1
          ∧ s1.pulseInterval = if s.vpcType > 0 ∨ s.afibActive ≠ 0 then 100 else 1000)
      ∧ (∃ s1, set_breath_rate 0 s = some s1 ∧ s1.breathInterval = 1000) := by
  refine ⟨?_, rfl, rfl, set_pulse_rate_interval s, set_breath_rate_interval s⟩
  obtain ⟨n, rfl⟩ := Int.eq_ofNat_of_zero_le h0.le
  have hn : n < 301 := by omega
  have hp : 0 < n := by omega
  exact getWaitTimeMsec_table n hn hp

/-- Witness of C8: rate 7 gives 8571 ms. -/
theorem interval_at_rate_7 :
    (0 : Int) < 7 ∧ (7 : Int) ≤ 300 ∧ getWaitTimeMsec 7 IS_CARDIAC 0 = some 8571 :=
  ⟨by decide, by decide,
    (interval_is_60000_div_rate 7 IS_CARDIAC Pulse.init (by decide) (by decide)).1⟩

/-- C9. When the cached cardiac rate is 0, `pulse_beat_handler` returns and leaves
`pulseCount`, `pulseCountVpc`, `beatPhase` and `vpcState` (and every other field)
unchanged; when the respiration rate is 0, `breath_beat_handler` leaves `breathCount`
unchanged. -/
theorem rate_zero_no_beat (rnd : Nat) (s b : Pulse) (hs : s.currentPulseRate = 0)
    (hb : b.respiration_rate = 0) :
    (∃ s1, pulse_beat_handler rnd s = some s1 ∧ s1 = s ∧ s1.pulseCount = s.pulseCount
        ∧ s1.pulseCountVpc = s.pulseCountVpc ∧ s1.beatPhase = s.beatPhase
        ∧ s1.vpcState = s.vpcState)
      ∧ (breath_beat_handler b).breathCount = b.breathCount := by
  refine ⟨⟨s, by simp [pulse_beat_handler, hs], rfl, rfl, rfl, rfl, rfl⟩, ?_⟩
  simp [breath_beat_handler, hb]

/-- Witness of C9: the initial state, whose rates are zero. -/
theorem rate_zero_initial_state :
    Pulse.init.currentPulseRate = 0 ∧ Pulse.init.respiration_rate = 0
      ∧ pulse_beat_handler 0 Pulse.init = some Pulse.init
      ∧ (breath_beat_handler Pulse.init).breathCount = 0 := by
  obtain ⟨⟨s1, h1, h2, _⟩, h3⟩ := rate_zero_no_beat 0 Pulse.init Pulse.init rfl rfl
  exact ⟨rfl, rfl, by rw [h1, h2], h3⟩

/-- C10. Starting from the state `resetVpc` leaves (`beatPhase = 0`, `vpcState = 0`), with a
positive rate and `currentVpcFreq = 0`, for every `N`, every VPC type, every AFib setting
and every sequence of random draws, `N` calls of `pulse_beat_handler` all return and leave
`pulseCountVpc` unchanged. -/
theorem vpc_freq_zero_no_vpc (rnds : Nat → Nat) (N : Nat) (s : Pulse)
    (_hrate : 0 < s.currentPulseRate) (hfreq : s.currentVpcFreq = 0) :
    (resetVpc s).beatPhase = 0 ∧ (resetVpc s).vpcState = 0
      ∧ ∃ s1, pulseBeats rnds N (resetVpc s) = some s1 ∧ s1.pulseCountVpc = s.pulseCountVpc := by
  obtain ⟨s1, h1, _, _, h4⟩ := pulseBeats_no_vpc rnds N (resetVpc s) rfl hfreq
  exact ⟨rfl, rfl, s1, h1, h4⟩

/-- Witness of C10: rate 80, VPC type 1 and AFib active, ten calls. -/
theorem vpc_freq_zero_ten_beats :
    ∃ s1, pulseBeats (fun i => 7 * i) 10
        (resetVpc { Pulse.init with currentPulseRate := 80, vpcType := 1, afibActive := 1 })
        = some s1 ∧ s1.pulseCountVpc = 0 :=
  (vpc_freq_zero_no_vpc (fun i => 7 * i) 10
    { Pulse.init with currentPulseRate := 80, vpcType := 1, afibActive := 1 }
    (by decide) rfl).2.2

/-- C11, as the code runs it from a burst seeded at the last slot of the sampling array:
twenty calls fire the one VPC beat and bring `vpcState` and `beatPhase` back to 0 with
`vpcFrequencyIndex` still 199, and the sinus beat of the twenty-first call reads
`vpcFrequencyArray[200]`, past the end of the array, so that no number of calls from 21 on
yields a state. -/
theorem burst_from_last_slot_reads_past_array :
    (∀ rnds : Nat → Nat, pulseBeats rnds 20 burstSeededAtLastSlot = some
        { burstSeededAtLastSlot with pulseCountVpc := 1, hrLogBeats := 2, vpcState := 0,
                                     beatPhase := 0 })
      ∧ readVpcFrequency burstSeededAtLastSlot.vpcFrequencyArray
          (nextVpcIndex burstSeededAtLastSlot.vpcFrequencyIndex) = none
      ∧ ∀ (rnds : Nat → Nat) (n : Nat),
          pulseBeats rnds (21 + n) burstSeededAtLastSlot = none := by
  refine ⟨fun rnds => ?_, by decide, fun rnds n => ?_⟩
  · exact vpc_burst_completes rnds 1 burstSeededAtLastSlot (by decide) (by decide) rfl rfl
  · induction n with
    | zero => rfl
    | succ n ih => rw [← Nat.add_assoc, pulseBeats, ih]

/-- C20: in irregular mode with a positive rate, when `beatPhase` has run out (it is 0 or
below) and `vpcState > 0`, one call of `pulse_beat_handler` returns, decrements `vpcState` by
one, increments `pulseCountVpc` by one (in 32 bits), leaves `pulseCount` unchanged, and sets
`beatPhase` to 6 if VPCs remain, otherwise to 13, 16 or 19 for a configured burst length of
1, 2 or 3 (13 also for any other length). -/
theorem vpc_injection_step (rnd : Nat) (s : Pulse) (hrate : s.currentPulseRate > 0)
    (hmode : s.vpcType > 0 ∨ s.afibActive ≠ 0) (hphase : s.beatPhase ≤ 0)
    (hvpc : s.vpcState > 0) :
    ∃ s1, pulse_beat_handler rnd s = some s1
      ∧ s1.vpcState = s.vpcState - 1
      ∧ s1.pulseCountVpc = (s.pulseCountVpc + 1) % UINT
      ∧ s1.pulseCount = s.pulseCount
      ∧ s1.beatPhase =
          (if s1.vpcState > 0 then 6
           else if s.cardiac_vpc_count = 1 then 13
           else if s.cardiac_vpc_count = 2 then 16
           else if s.cardiac_vpc_count = 3 then 19 else 13) := by
  refine ⟨_, pulse_beat_handler_vpc_eq rnd s hrate hmode hphase hvpc, rfl, rfl, rfl, ?_⟩
  show (if s.vpcState - 1 = 0 then _ else _) = if s.vpcState - 1 > 0 then _ else _
  split_ifs <;> first | rfl | omega

/-- Witness of C20: the first VPC of a burst of two. -/
theorem vpc_injection_burst_of_two :
    ∃ s1, pulse_beat_handler 0 vpcBeatDue = some s1
      ∧ s1.vpcState = 1 ∧ s1.pulseCountVpc = 5 ∧ s1.pulseCount = 0 ∧ s1.beatPhase = 6 := by
  obtain ⟨s1, h, h1, h2, h3, h4⟩ :=
    vpc_injection_step 0 vpcBeatDue (by decide) (by decide) (by decide) (by decide)
  refine ⟨s1, h, h1, h2, h3, ?_⟩
  rw [h4, h1]
  rfl

set_option maxRecDepth 100000 in
/-- C21 (fails at the last slot). In the rhythm `sinusDueAtLastSlot` (irregular mode, rate
60, no AFib, `beatPhase = 0`, `vpcState = 0`, index 199 of the 200-slot array) the normal
cycle consumes no sampling slot: for every draw the call reads `vpcFrequencyArray[200]`,
outside the array, so that the call defines no `pulseCount` and no `beatPhase`.  Where the
read stays inside the array the step is the one of `sinus_beat_step`. -/
theorem sinus_beat_at_last_slot_reads_past_array (rnd : Nat) :
    sinusDueAtLastSlot.currentPulseRate = 60 ∧ sinusDueAtLastSlot.vpcType = 1
      ∧ sinusDueAtLastSlot.afibActive = 0 ∧ sinusDueAtLastSlot.beatPhase = 0
      ∧ sinusDueAtLastSlot.vpcState = 0 ∧ sinusDueAtLastSlot.vpcFrequencyIndex = 199
      ∧ sinusDueAtLastSlot.vpcFrequencyArray.length = 200
      ∧ nextVpcIndex sinusDueAtLastSlot.vpcFrequencyIndex = 200
      ∧ pulse_beat_handler rnd sinusDueAtLastSlot = none :=
  ⟨rfl, rfl, rfl, rfl, rfl, rfl, by decide, by decide, rfl⟩

set_option maxRecDepth 100000 in
/-- C22 (fails: the index reaches 200). After `calculateVPCFreq` has filled the array with
zeros and reset the index to 0, the first 199 sinus cycles (1990 calls of
`pulse_beat_handler`) read the slots `1 .. 199` and leave the index at 199; the 200th cycle
increments it to 200 and reads `vpcFrequencyArray[200]`, outside the array, and slot 0 has
not been read by then.  The reset to 0 comes only after index 200 has been used: the index
runs over 201 values. -/
theorem vpc_index_leaves_array (rnds : Nat → Nat) :
    sampledAllZero.vpcFrequencyIndex = 0 ∧ sampledAllZero.vpcFrequencyArray.length = 200
      ∧ pulseBeats rnds 1990 sampledAllZero = some
          { sampledAllZero with pulseCount := 199, hrLogBeats := 199, vpcFrequencyIndex := 199 }
      ∧ nextVpcIndex 199 = 200
      ∧ readVpcFrequency sampledAllZero.vpcFrequencyArray 200 = none
      ∧ pulseBeats rnds 1991 sampledAllZero = none
      ∧ nextVpcIndex 200 = 0 := by
  have h := sinus_cycles_empty_slots rnds 199 0 sampledAllZero (by decide) (by decide) rfl
    (by decide) rfl rfl (by decide) rfl (by decide)
  have h1 : pulseBeats rnds 1990 sampledAllZero = some
      { sampledAllZero with pulseCount := 199, hrLogBeats := 199, vpcFrequencyIndex := 199 } := by
    rw [show (1990 : Nat) = 10 * 199 from rfl, h]
    congr 1
  refine ⟨rfl, by decide, h1, by decide, by decide, ?_, by decide⟩
  rw [show (1991 : Nat) = 1990 + 1 from rfl, pulseBeats, h1]
  rfl

set_option maxRecDepth 100000 in
/-- C23 (fails: one value too many). At frequency 10 the loop of `calculateVPCFreq` sets a
slot to 1 for the 11 sample values `0 .. 10`, not for 10 of them; for every frequency `f`
from 1 to 100 it does so for `min (f + 1) 100` of the 100 values; and when `rand()` returns
`0, 1, ..., 199` the array `calculateVPCFreq` fills at frequency 10 holds 22 ones. -/
theorem slot_set_for_one_value_more :
    slotOnes 10 = 11 ∧ vpcSlots 10 [10] = [1] ∧ vpcSlots 10 [11] = [0]
      ∧ (∀ f : Fin 100, slotOnes ((f.val : Int) + 1) = min (f.val + 2) 100)
      ∧ vpcFreqTen.cardiac_vpc_freq = 10 ∧ vpcFreqTen.currentVpcFreq = 10
      ∧ (calculateVPCFreq (fun i => i) vpcFreqTen).vpcFrequencyArray.count 1 = 22 := by
  refine ⟨by decide, by decide, by decide, by decide, rfl, rfl, by decide⟩

/-- C24 (as amended). In a pass of `pulseTimer` whose handler fires with old deadline `d`
and interval `i` (cardiac: `d <= now1` and `pulse_beat_handler` returns; respiratory:
`d <= now3`), with `now` the clock value read after the handler and no sum leaving 64
bits: the new deadline is `d + i` when `d + i > now + 1`; when `d + i <= now + 1` it is
snapped, to `now` for the cardiac clock and to `now + i` for the respiratory clock.  In
every case the deadline left is not earlier than `now`. -/
theorem deadline_snapped_within_one_ms (now1 now2 now3 now4 rnd : Nat) (s s1 : Pulse)
    (hfire : pulse_beat_handler rnd s = some s1)
    (hdue : s.nextPulseTime ≤ now1) (hdueB : s.nextBreathTime ≤ now3)
    (hP : s.nextPulseTime + s.pulseInterval < ULL)
    (hB : s.nextBreathTime + s.breathInterval < ULL)
    (h2 : now2 + 1 < ULL) (h4 : now4 + 1 + s.breathInterval < ULL) :
    (∃ s2, pulseTimerCardiac now1 now2 rnd s = some s2
      ∧ s2.nextPulseTime = (if s.nextPulseTime + s.pulseInterval ≤ now2 + 1 then now2
          else s.nextPulseTime + s.pulseInterval)
      ∧ now2 ≤ s2.nextPulseTime)
    ∧ (pulseTimerBreath now3 now4 s).nextBreathTime
        = (if s.nextBreathTime + s.breathInterval ≤ now4 + 1 then now4 + s.breathInterval
           else s.nextBreathTime + s.breathInterval)
    ∧ now4 ≤ (pulseTimerBreath now3 now4 s).nextBreathTime := by
  obtain ⟨hd, hi⟩ := pulse_beat_handler_deadline rnd s s1 hfire
  have e1 : uadd64 s.nextPulseTime s.pulseInterval = s.nextPulseTime + s.pulseInterval :=
    Nat.mod_eq_of_lt hP
  have e2 : uadd64 now2 1 = now2 + 1 := Nat.mod_eq_of_lt h2
  have e3 : uadd64 s.nextBreathTime s.breathInterval = s.nextBreathTime + s.breathInterval :=
    Nat.mod_eq_of_lt hB
  have e4 : uadd64 now4 1 = now4 + 1 := Nat.mod_eq_of_lt (by omega)
  have e5 : uadd64 now4 s.breathInterval = now4 + s.breathInterval :=
    Nat.mod_eq_of_lt (by omega)
  have hbh : (breath_beat_handler s).nextBreathTime = s.nextBreathTime
      ∧ (breath_beat_handler s).breathInterval = s.breathInterval := by
    unfold breath_beat_handler
    split_ifs <;> exact ⟨rfl, rfl⟩
  refine ⟨?_, ?_⟩
  · unfold pulseTimerCardiac
    rw [if_pos hdue, hfire]
    simp only [hd, hi, e1, e2]
    by_cases hc : s.nextPulseTime + s.pulseInterval ≤ now2 + 1
    · rw [if_pos hc, if_pos hc]
      exact ⟨_, rfl, rfl, le_refl _⟩
    · rw [if_neg hc, if_neg hc]
      refine ⟨_, rfl, rfl, ?_⟩
      show now2 ≤ s.nextPulseTime + s.pulseInterval
      omega
  · unfold pulseTimerBreath
    rw [if_pos hdueB]
    simp only [hbh.1, hbh.2, e3, e4, e5]
    by_cases hc : s.nextBreathTime + s.breathInterval ≤ now4 + 1
    · rw [if_pos hc, if_pos hc]
      exact ⟨rfl, Nat.le_add_right _ _⟩
    · rw [if_neg hc, if_neg hc]
      refine ⟨rfl, ?_⟩
      show now4 ≤ s.nextBreathTime + s.breathInterval
      omega

set_option maxRecDepth 100000 in
/-- Witness of C24: both deadlines 6000 with interval 1000 and the clock at 6500; both
handlers fire and both deadlines become 7000. -/
theorem deadline_advanced_on_time :
    bothDueAt6000.nextPulseTime = 6000 ∧ bothDueAt6000.pulseInterval = 1000
      ∧ bothDueAt6000.nextBreathTime = 6000 ∧ bothDueAt6000.breathInterval = 1000
      ∧ (∃ s2, pulseTimerCardiac 6500 6500 0 bothDueAt6000 = some s2
          ∧ s2.nextPulseTime = 7000)
      ∧ (pulseTimerBreath 6500 6500 bothDueAt6000).nextBreathTime = 7000 := by
  obtain ⟨⟨s2, h1, h2, _⟩, h3, _⟩ :=
    deadline_snapped_within_one_ms 6500 6500 6500 6500 0 bothDueAt6000
      { bothDueAt6000 with pulseCount := 1, hrLogBeats := 1, pulseStates := [2] }
      (by decide) (by decide) (by decide) (by decide) (by decide) (by decide) (by decide)
  exact ⟨rfl, rfl, rfl, rfl, ⟨s2, h1, h2⟩, h3⟩

set_option maxRecDepth 100000 in
/-- Counterexample to C24 as stated: both deadlines 6000 with interval 1000 and the clock at
6999 when the handlers fire.  `d + i = 7000` is later than `now = 6999`, yet the cardiac
deadline is snapped to 6999 and the respiratory deadline to 7999. -/
theorem deadline_one_ms_ahead_is_snapped :
    bothDueAt6000.nextPulseTime + bothDueAt6000.pulseInterval = 7000
      ∧ bothDueAt6000.nextBreathTime + bothDueAt6000.breathInterval = 7000
      ∧ (pulseTimerCardiac 6999 6999 0 bothDueAt6000).map (fun s => s.nextPulseTime)
          = some 6999
      ∧ (pulseTimerBreath 6999 6999 bothDueAt6000).nextBreathTime = 7999 := by
  decide

set_option maxRecDepth 100000 in
/-- C25 (fails). With the clock at 10000 and both deadlines at 14000 (rate 12, interval
5000), `set_pulse_rate(60)` and `set_breath_rate(60)` install the interval 1000 and keep
the deadline 14000, which is later than `now + 1000 = 11000`: `resetTimer` compares the
time remaining, 4000, with `now + pulseInterval`, not with the interval. -/
theorem rate_change_keeps_far_deadline :
    rateRaisedMidCycle.msec_time = 10000
      ∧ set_pulse_rate 60 rateRaisedMidCycle
          = some { rateRaisedMidCycle with pulseInterval := 1000 }
      ∧ set_breath_rate 60 rateRaisedMidCycle
          = some { rateRaisedMidCycle with breathInterval := 1000 }
      ∧ rateRaisedMidCycle.nextPulseTime = 14000 ∧ rateRaisedMidCycle.nextBreathTime = 14000
      ∧ ¬ (14000 ≤ rateRaisedMidCycle.msec_time + 1000) :=
  ⟨rfl, by decide, by decide, rfl, rfl, by decide⟩

/-- C26 (fails). While the rhythm name in the shared memory stays `afib`, successive passes
of the loop of `pulseProcessChild` set `afibActive` to 1, 0, 1, 0: the second pass clears
the flag although the rhythm still begins with `afib`. -/
theorem afib_flag_toggles_each_pass (rnds : Nat → Nat) :
    startsWith "afib".toList afibSelected.cardiac_rhythm = true ∧ afibSelected.afibActive = 0
      ∧ afibAfter rnds 1 afibSelected = some (1, "afib".toList)
      ∧ afibAfter rnds 2 afibSelected = some (0, "afib".toList)
      ∧ afibAfter rnds 3 afibSelected = some (1, "afib".toList)
      ∧ afibAfter rnds 4 afibSelected = some (0, "afib".toList) :=
  ⟨by decide, rfl, rfl, rfl, rfl, rfl⟩

/-- C27. For every respiration rate `r > 0` and every clock value `now = msec_time`,
`restart_breath_timer` returns; it sets `breathInterval` to the value `w` that
`getWaitTimeMsec(r, 0, 0)` computes and the respiratory deadline to
`now + (w / 2 + 100)` when `r < 15` and to `now + w` otherwise (sums of `ULONGLONG`
values), and changes nothing else. -/
theorem manual_breath_restarts_timer (s : Pulse) (hr : 0 < s.respiration_rate) :
    ∃ w, getWaitTimeMsec s.respiration_rate NOT_CARDIAC 0 = some w
      ∧ restart_breath_timer s = some
          { s with breathInterval := w,
                   nextBreathTime :=
                     if s.respiration_rate < 15 then uadd64 s.msec_time (uadd64 (w / 2) 100)
                     else uadd64 s.msec_time w } := by
  have hne : s.respiration_rate ≠ 0 := ne_of_gt hr
  have hw : ∃ w, getWaitTimeMsec s.respiration_rate NOT_CARDIAC 0 = some w := by
    unfold getWaitTimeMsec
    rw [if_neg hne]
    simp only []
    rw [if_pos hr]
    exact ⟨_, rfl⟩
  obtain ⟨w, hw⟩ := hw
  refine ⟨w, hw, ?_⟩
  unfold restart_breath_timer
  have hw0 : getWaitTimeMsec s.respiration_rate 0 0 = some w := hw
  rw [hw0]
  simp only []
  split_ifs <;> rfl

set_option maxRecDepth 100000 in
/-- Witness of C27: a manual breath at rate 12 with the clock at 5000; the interval is 5000
and the deadline becomes `5000 + 2500 + 100 = 7600`. -/
theorem manual_breath_at_rate_12 :
    0 < manualBreathAtRate12.respiration_rate ∧ manualBreathAtRate12.msec_time = 5000
      ∧ restart_breath_timer manualBreathAtRate12
          = some { manualBreathAtRate12 with breathInterval := 5000, nextBreathTime := 7600 } := by
  obtain ⟨w, h1, h2⟩ := manual_breath_restarts_timer manualBreathAtRate12 (by decide)
  have hw : getWaitTimeMsec manualBreathAtRate12.respiration_rate NOT_CARDIAC 0 = some 5000 := by
    decide
  rw [hw] at h1
  injection h1 with h1
  subst h1
  exact ⟨by decide, rfl, h2⟩

/-- C28 (fails for the way back to sinus). From the sinus beat that seeds a burst (call 0)
the VPCs fire on the calls 7, 14 and 21, and a sinus beat follows a sinus beat after 10
calls; but after the last VPC of a burst of 1, 2 and 3 VPCs no sinus beat has fired 13, 16
and 19 calls later: it fires on call 14, 17 and 20 after that VPC.  The pairs are
`(pulseCount, pulseCountVpc)`. -/
theorem last_vpc_to_sinus_takes_one_tick_more (rnds : Nat → Nat) :
    beatCounts rnds 0 (burstSeeded 1) = some (1, 0)
      ∧ beatCounts rnds 6 (burstSeeded 1) = some (1, 0)
      ∧ beatCounts rnds 7 (burstSeeded 1) = some (1, 1)
      ∧ beatCounts rnds (7 + 13) (burstSeeded 1) = some (1, 1)
      ∧ beatCounts rnds (7 + 14) (burstSeeded 1) = some (2, 1)
      ∧ beatCounts rnds (7 + 14 + 9) (burstSeeded 1) = some (2, 1)
      ∧ beatCounts rnds (7 + 14 + 10) (burstSeeded 1) = some (3, 1)
      ∧ beatCounts rnds 13 (burstSeeded 2) = some (1, 1)
      ∧ beatCounts rnds 14 (burstSeeded 2) = some (1, 2)
      ∧ beatCounts rnds (14 + 16) (burstSeeded 2) = some (1, 2)
      ∧ beatCounts rnds (14 + 17) (burstSeeded 2) = some (2, 2)
      ∧ beatCounts rnds 20 (burstSeeded 3) = some (1, 2)
      ∧ beatCounts rnds 21 (burstSeeded 3) = some (1, 3)
      ∧ beatCounts rnds (21 + 19) (burstSeeded 3) = some (1, 3)
      ∧ beatCounts rnds (21 + 20) (burstSeeded 3) = some (2, 3) :=
  ⟨rfl, rfl, rfl, rfl, rfl, rfl, rfl, rfl, rfl, rfl, rfl, rfl, rfl, rfl, rfl⟩

/-! ## Lemmas about the listener table -/

/-- The test `len < 0` on the unsigned `len` never holds, so `broadcast_word` returns the table
it was given, whatever `send` returns. -/
theorem broadcast_word_table (send : Int → List Char → Int) (word : List Char)
    (ls : List Listener) : (broadcast_word send word ls).2.1 = ls := by
  induction ls with
  | nil => rfl
  | cons l ls ih =>
    unfold broadcast_word
    by_cases h : l.allocated = 1 <;> simp [h, ih]

/-- The socket calls of `broadcast_word`: one `send` per allocated slot, in table order. -/
theorem broadcast_word_events (send : Int → List Char → Int) (word : List Char)
    (ls : List Listener) :
    (broadcast_word send word ls).2.2
      = (ls.filter (fun l => l.allocated = 1)).map (fun l => NetEvent.sent l.cfd word) := by
  induction ls with
  | nil => rfl
  | cons l ls ih =>
    unfold broadcast_word
    by_cases h : l.allocated = 1 <;> simp [h, ih]

/-- The sockets sent a word over two records in sequence. -/
theorem socketsSent_append (w : List Char) (a b : List NetEvent) :
    socketsSent w (a ++ b) = socketsSent w a ++ socketsSent w b := by
  simp [socketsSent, List.filterMap_append]

/-- The sockets that one call of `broadcast_word` sends the word `w`. -/
theorem socketsSent_broadcast (send : Int → List Char → Int) (w word : List Char)
    (ls : List Listener) :
    socketsSent w (broadcast_word send word ls).2.2
      = if word = w then (ls.filter (fun l => l.allocated = 1)).map (fun l => l.cfd) else [] := by
  rw [broadcast_word_events]
  induction ls with
  | nil => simp [socketsSent]
  | cons l ls ih =>
    by_cases h : l.allocated = 1 <;> by_cases hw : word = w <;>
      simp_all [socketsSent, List.filter_cons]

/-- The status port announcement is not the pulse word. -/
theorem statusPortWord_ne_pulseWord (p : Int) : statusPortWord p ≠ pulseWord := by
  intro h
  have := congrArg List.head? h
  simp [statusPortWord, pulseWord] at this

/-- Doing nothing is a quiet step. -/
theorem quietStep_refl (b : Bcast) : QuietStep b b :=
  ⟨rfl, rfl, rfl, [], by simp, rfl⟩

/-- A broadcast of a word other than the pulse word is a quiet step. -/
theorem quiet_broadcast (send : Int → List Char → Int) (word : List Char) (b : Bcast)
    (hw : word ≠ pulseWord) : QuietStep b (b.broadcast send word) :=
  ⟨by simp [Bcast.broadcast, broadcast_word_table], rfl, rfl,
    (broadcast_word send word b.listeners).2.2, rfl, by simp [socketsSent_broadcast, hw]⟩

/-- The status port step is quiet. -/
theorem bcastStatusPort_quiet (send : Int → List Char → Int) (p : Int) (b : Bcast) :
    QuietStep b (bcastStatusPort send p b) := by
  unfold bcastStatusPort
  by_cases h : b.loc.portUpdateLoops > 500
  · simp only [h, if_true]
    exact quiet_broadcast send (statusPortWord p)
      { b with loc := { b.loc with portUpdateLoops := b.loc.portUpdateLoops + 1 } }
      (statusPortWord_ne_pulseWord p)
  · simp only [h, if_false]
    exact quietStep_refl b

/-- The VPC step is quiet. -/
theorem bcastPulseVpc_quiet (send : Int → List Char → Int) (b : Bcast) :
    QuietStep b (bcastPulseVpc send b) := by
  unfold bcastPulseVpc
  split_ifs
  · exact quiet_broadcast send pulseWordVPC
      { b with loc := { b.loc with last_pulseVpc := b.shm.pulseCountVpc } } (by decide)
  · exact quietStep_refl b

/-- The manual breath step is quiet. -/
theorem bcastManualBreath_quiet (b : Bcast) : QuietStep b (bcastManualBreath b) := by
  unfold bcastManualBreath
  split_ifs
  · exact ⟨rfl, rfl, rfl, [], by simp, rfl⟩
  · exact quietStep_refl b

/-- Quiet steps compose. -/
theorem quietStep_trans {a b c : Bcast} (h1 : QuietStep a b) (h2 : QuietStep b c) :
    QuietStep a c := by
  obtain ⟨l1, p1, c1, e1, he1, hs1⟩ := h1
  obtain ⟨l2, p2, c2, e2, he2, hs2⟩ := h2
  exact ⟨l2.trans l1, p2.trans p1, c2.trans c1, e1 ++ e2,
    by rw [he2, he1, List.append_assoc], by rw [socketsSent_append, hs1, hs2]; rfl⟩

/-- A step that keeps table, pulse bookkeeping and record is quiet. -/
theorem quiet_of_eq {b b1 : Bcast} (hl : b1.listeners = b.listeners)
    (hp : b1.loc.last_pulse = b.loc.last_pulse) (hc : b1.shm.pulseCount = b.shm.pulseCount)
    (he : b1.events = b.events) : QuietStep b b1 :=
  ⟨hl, hp, hc, [], by simp [he], rfl⟩

/-- The breath step is quiet. -/
theorem bcastBreath_quiet (send : Int → List Char → Int) (b : Bcast) :
    QuietStep b (bcastBreath send b) := by
  unfold bcastBreath
  by_cases h : b.loc.last_breath ≠ b.shm.breathCount
  · rw [if_pos h]
    refine quietStep_trans ?_ (quiet_broadcast send breathWord _ (by decide))
    apply quiet_of_eq <;> (simp only []; split_ifs <;> rfl)
  · rw [if_neg h]
    exact quietStep_refl b

/-- The pulse step keeps the table and sends the pulse word to the allocated sockets exactly
when `pulseCount` differs from `last_pulse`. -/
theorem bcastPulse_events (send : Int → List Char → Int) (b : Bcast) :
    (bcastPulse send b).listeners = b.listeners
      ∧ ∃ e, (bcastPulse send b).events = b.events ++ e
        ∧ socketsSent pulseWord e
          = if b.loc.last_pulse ≠ b.shm.pulseCount then
              (b.listeners.filter (fun l => l.allocated = 1)).map (fun l => l.cfd)
            else [] := by
  unfold bcastPulse
  split_ifs with h
  · exact ⟨by simp [Bcast.broadcast, broadcast_word_table], _, rfl,
      by simp [socketsSent_broadcast]⟩
  · exact ⟨rfl, [], by simp, rfl⟩

/-- The sockets that a pass of `pulseBroadcastLoop` sends the pulse word. -/
theorem passEvents_pulse (send : Int → List Char → Int) (portStatus : Int) (b : Bcast) :
    socketsSent pulseWord (passEvents send portStatus b)
      = if b.loc.last_pulse ≠ b.shm.pulseCount then
          (b.listeners.filter (fun l => l.allocated = 1)).map (fun l => l.cfd)
        else [] := by
  obtain ⟨hl1, hp1, hc1, e1, he1, hs1⟩ := bcastStatusPort_quiet send portStatus b
  obtain ⟨hl2, e2, he2, hs2⟩ := bcastPulse_events send (bcastStatusPort send portStatus b)
  obtain ⟨_, _, _, e3, he3, hs3⟩ :=
    bcastPulseVpc_quiet send (bcastPulse send (bcastStatusPort send portStatus b))
  obtain ⟨_, _, _, e4, he4, hs4⟩ :=
    bcastManualBreath_quiet (bcastPulseVpc send (bcastPulse send (bcastStatusPort send portStatus b)))
  obtain ⟨_, _, _, e5, he5, hs5⟩ :=
    bcastBreath_quiet send (bcastManualBreath (bcastPulseVpc send (bcastPulse send
      (bcastStatusPort send portStatus b))))
  have hev : (pulseBroadcastIter send portStatus b).events
      = b.events ++ (e1 ++ e2 ++ e3 ++ e4 ++ e5) := by
    unfold pulseBroadcastIter
    rw [he5, he4, he3, he2, he1]
    simp [List.append_assoc]
  unfold passEvents
  rw [hev, List.drop_left]
  simp only [socketsSent_append, hs1, hs2, hs3, hs4, hs5, hl1, hp1, hc1, List.nil_append,
    List.append_nil]

/-- The value `broadcast_word` returns is the number of allocated slots. -/
theorem broadcast_word_count (send : Int → List Char → Int) (word : List Char)
    (ls : List Listener) :
    (broadcast_word send word ls).1 = (allocatedCount ls : Int) := by
  induction ls with
  | nil => rfl
  | cons l ls ih =>
    unfold broadcast_word
    by_cases h : l.allocated = 1 <;> simp [h, ih, allocatedCount]

/-- The reopen loop stops at the first allocated slot that records the address and replaces
its socket. -/
theorem reopenLoop_first (portStatus cfd : Int) (ip : List Char) (l : Listener)
    (post : List Listener) (hl : l.allocated = 1) (hip : l.ipAddr = ip) :
    ∀ pre : List Listener, (∀ x ∈ pre, ¬ (x.allocated = 1 ∧ x.ipAddr = ip)) →
      reopenLoop portStatus cfd ip (pre ++ l :: post)
        = some (pre ++ { l with cfd := cfd } :: post,
            [NetEvent.closed l.cfd, NetEvent.sent cfd (statusPortWord portStatus)]) := by
  intro pre
  induction pre with
  | nil =>
    intro _
    simp [reopenLoop, hl, hip, sendStatusPort]
  | cons x pre ih =>
    intro h
    have hx : ¬ (x.allocated = 1 ∧ ip = x.ipAddr) := by
      intro hh
      exact h x (List.mem_cons_self x pre) ⟨hh.1, hh.2.symm⟩
    have ih1 := ih (fun y hy => h y (List.mem_cons_of_mem x hy))
    rw [List.cons_append, reopenLoop, if_neg hx, ih1]
    rfl

/-- The number of allocated slots of two tables in sequence. -/
theorem allocatedCount_append (a b : List Listener) :
    allocatedCount (a ++ b) = allocatedCount a + allocatedCount b := by
  simp [allocatedCount, List.filter_append]

/-- The number of allocated slots of a table by its first slot. -/
theorem allocatedCount_cons (l : Listener) (ls : List Listener) :
    allocatedCount (l :: ls) = (if l.allocated = 1 then 1 else 0) + allocatedCount ls := by
  by_cases h : l.allocated = 1 <;> simp [allocatedCount, List.filter_cons, h, Nat.add_comm]

/-- Two connections from one address to the empty table. -/
theorem accept_twice (portStatus cfd1 cfd : Int) (ip : List Char) (h1 : 0 ≤ cfd1) (h2 : 0 ≤ cfd) :
    let t1 := (acceptConnection portStatus cfd1 ip emptyListeners).1
    let t2 := (acceptConnection portStatus cfd ip t1).1
    allocatedCount t2 = 1
      ∧ (t2.filter (fun l => l.allocated = 1)).map (fun l => l.cfd) = [cfd] := by
  simp [acceptConnection, emptyListeners, MAX_LISTENERS, List.replicate, reopenLoop, allocLoop,
    h1, h2, sendStatusPort, allocatedCount, List.filter_cons]

/-- When the reopen loop finds nothing, no allocated slot records the address. -/
theorem reopenLoop_none (portStatus cfd : Int) (ip : List Char) :
    ∀ ls : List Listener, reopenLoop portStatus cfd ip ls = none →
      ∀ x ∈ ls, ¬ (x.allocated = 1 ∧ x.ipAddr = ip) := by
  intro ls
  induction ls with
  | nil => intro _ x hx; cases hx
  | cons l ls ih =>
    intro h x hx
    rw [reopenLoop] at h
    split_ifs at h with hl
    cases hr : reopenLoop portStatus cfd ip ls with
    | some r => rw [hr] at h; exact absurd h (by simp)
    | none =>
      rcases List.mem_cons.mp hx with rfl | hmem
      · exact fun hh => hl ⟨hh.1, hh.2.symm⟩
      · exact ih hr x hmem

/-- The reopen loop keeps the recorded addresses of the allocated slots. -/
theorem reopenLoop_ips (portStatus cfd : Int) (ip : List Char) :
    ∀ (ls : List Listener) (r : List Listener × List NetEvent),
      reopenLoop portStatus cfd ip ls = some r →
      (r.1.filter (fun l => l.allocated = 1)).map (fun l => l.ipAddr)
        = (ls.filter (fun l => l.allocated = 1)).map (fun l => l.ipAddr) := by
  intro ls
  induction ls with
  | nil => intro r h; simp [reopenLoop] at h
  | cons l ls ih =>
    intro r h
    rw [reopenLoop] at h
    split_ifs at h with hl
    · injection h with h
      subst h
      simp [List.filter_cons, hl.1]
    · cases hr : reopenLoop portStatus cfd ip ls with
      | none => rw [hr] at h; exact absurd h (by simp)
      | some r1 =>
        rw [hr] at h
        injection h with h
        subst h
        have := ih r1 hr
        by_cases ha : l.allocated = 1 <;> simp [List.filter_cons, ha, this]

/-- The allocation loop inserts the new address among those of the allocated slots. -/
theorem allocLoop_ips (portStatus cfd : Int) (ip : List Char) :
    ∀ (ls : List Listener) (i : Nat) (r : List Listener × List NetEvent),
      allocLoop portStatus cfd ip i ls = some r →
      ∃ a b, (ls.filter (fun l => l.allocated = 1)).map (fun l => l.ipAddr) = a ++ b
        ∧ (r.1.filter (fun l => l.allocated = 1)).map (fun l => l.ipAddr) = a ++ ip :: b := by
  intro ls
  induction ls with
  | nil => intro i r h; simp [allocLoop] at h
  | cons l ls ih =>
    intro i r h
    rw [allocLoop] at h
    split_ifs at h with hl
    · injection h with h
      subst h
      refine ⟨[], (ls.filter (fun l => l.allocated = 1)).map (fun l => l.ipAddr), ?_, ?_⟩
      · simp [List.filter_cons, hl]
      · simp [List.filter_cons]
    · cases hr : allocLoop portStatus cfd ip (i + 1) ls with
      | none => rw [hr] at h; exact absurd h (by simp)
      | some r1 =>
        rw [hr] at h
        injection h with h
        subst h
        obtain ⟨a, b, h1, h2⟩ := ih (i + 1) r1 hr
        by_cases ha : l.allocated = 1
        · exact ⟨l.ipAddr :: a, b, by simp [List.filter_cons, ha, h1],
            by simp [List.filter_cons, ha, h2]⟩
        · exact ⟨a, b, by simp [List.filter_cons, ha, h1], by simp [List.filter_cons, ha, h2]⟩

/-- The accept logic keeps the recorded IP addresses of the allocated slots distinct; they
are distinct in the empty table, so they are in every table the accept logic builds. -/
theorem acceptConnection_distinct (portStatus cfd : Int) (ip : List Char) (ls : List Listener)
    (h : DistinctIps ls) : DistinctIps (acceptConnection portStatus cfd ip ls).1 := by
  unfold acceptConnection
  split_ifs
  · cases hr : reopenLoop portStatus cfd ip ls with
    | some r =>
      simp only []
      unfold DistinctIps
      rw [reopenLoop_ips portStatus cfd ip ls r hr]
      exact h
    | none =>
      simp only []
      cases ha : allocLoop portStatus cfd ip 0 ls with
      | none => exact h
      | some r =>
        simp only []
        obtain ⟨a, b, h1, h2⟩ := allocLoop_ips portStatus cfd ip ls 0 r ha
        have hnot : ip ∉ (ls.filter (fun l => l.allocated = 1)).map (fun l => l.ipAddr) := by
          intro hmem
          obtain ⟨x, hx, hxi⟩ := List.mem_map.mp hmem
          have hx2 := List.mem_filter.mp hx
          exact reopenLoop_none portStatus cfd ip ls hr x hx2.1 ⟨by simpa using hx2.2, hxi⟩
        unfold DistinctIps at h ⊢
        rw [h2]
        rw [h1] at h hnot
        exact List.nodup_middle.mpr (List.nodup_cons.mpr ⟨hnot, h⟩)
  · exact h

/-- The empty table has distinct addresses. -/
theorem emptyListeners_distinct : DistinctIps emptyListeners := by
  unfold DistinctIps emptyListeners
  decide

/-- In a table with distinct recorded addresses, an allocated slot is the first allocated
slot that records its address. -/
theorem distinct_first (pre post : List Listener) (l : Listener) (ip : List Char)
    (hl : l.allocated = 1) (hip : l.ipAddr = ip) (h : DistinctIps (pre ++ l :: post)) :
    ∀ x ∈ pre, ¬ (x.allocated = 1 ∧ x.ipAddr = ip) := by
  intro x hx hh
  unfold DistinctIps at h
  rw [List.filter_append, List.map_append, List.filter_cons] at h
  simp only [hl, decide_True, if_true, List.map_cons] at h
  have hd := (List.nodup_append.mp h).2.2
  have hin : ip ∈ (pre.filter (fun l => l.allocated = 1)).map (fun l => l.ipAddr) :=
    List.mem_map.mpr ⟨x, List.mem_filter.mpr ⟨hx, by simpa using hh.1⟩, hh.2⟩
  exact hd hin (by rw [hip]; exact List.mem_cons_self _ _)

/-- The pulse step records the count it has seen. -/
theorem bcastPulse_records (send : Int → List Char → Int) (b : Bcast) :
    (bcastPulse send b).loc.last_pulse = b.shm.pulseCount
      ∧ (bcastPulse send b).shm.pulseCount = b.shm.pulseCount := by
  unfold bcastPulse
  split_ifs with h
  · exact ⟨rfl, rfl⟩
  · exact ⟨not_not.mp h, rfl⟩

/-- A pass of `pulseBroadcastLoop`: it keeps the table and `pulseCount`, leaves `last_pulse`
equal to `pulseCount`, and the socket calls it adds send the pulse word to the allocated
sockets, once each, exactly when `pulseCount` differed from `last_pulse`. -/
theorem pulseBroadcastIter_pulse (send : Int → List Char → Int) (portStatus : Int)
    (b : Bcast) :
    (pulseBroadcastIter send portStatus b).listeners = b.listeners
      ∧ (pulseBroadcastIter send portStatus b).loc.last_pulse = b.shm.pulseCount
      ∧ (pulseBroadcastIter send portStatus b).shm.pulseCount = b.shm.pulseCount
      ∧ ∃ e, (pulseBroadcastIter send portStatus b).events = b.events ++ e
        ∧ socketsSent pulseWord e
          = if b.loc.last_pulse ≠ b.shm.pulseCount then
              (b.listeners.filter (fun l => l.allocated = 1)).map (fun l => l.cfd)
            else [] := by
  obtain ⟨hl1, hp1, hc1, e1, he1, hs1⟩ := bcastStatusPort_quiet send portStatus b
  obtain ⟨hl2, e2, he2, hs2⟩ := bcastPulse_events send (bcastStatusPort send portStatus b)
  obtain ⟨hr2, hk2⟩ := bcastPulse_records send (bcastStatusPort send portStatus b)
  obtain ⟨hl3, hp3, hc3, e3, he3, hs3⟩ :=
    bcastPulseVpc_quiet send (bcastPulse send (bcastStatusPort send portStatus b))
  obtain ⟨hl4, hp4, hc4, e4, he4, hs4⟩ :=
    bcastManualBreath_quiet (bcastPulseVpc send (bcastPulse send (bcastStatusPort send portStatus b)))
  obtain ⟨hl5, hp5, hc5, e5, he5, hs5⟩ :=
    bcastBreath_quiet send (bcastManualBreath (bcastPulseVpc send (bcastPulse send
      (bcastStatusPort send portStatus b))))
  refine ⟨?_, ?_, ?_, e1 ++ e2 ++ e3 ++ e4 ++ e5, ?_, ?_⟩
  · unfold pulseBroadcastIter
    rw [hl5, hl4, hl3, hl2, hl1]
  · unfold pulseBroadcastIter
    rw [hp5, hp4, hp3, hr2, hc1]
  · unfold pulseBroadcastIter
    rw [hc5, hc4, hc3, hk2, hc1]
  · unfold pulseBroadcastIter
    rw [he5, he4, he3, he2, he1]
    simp [List.append_assoc]
  · simp only [socketsSent_append, hs1, hs2, hs3, hs4, hs5, hl1, hp1, hc1, List.nil_append,
      List.append_nil]

/-- Passes of `pulseBroadcastLoop` after the first: with `pulseCount` unchanged they send the
pulse word to no socket. -/
theorem pulseBroadcastRun_pulse (send : Int → List Char → Int) (portStatus : Int) (n : Nat) :
    ∀ b : Bcast,
      (pulseBroadcastRun send portStatus n b).listeners = b.listeners
        ∧ (pulseBroadcastRun send portStatus n b).shm.pulseCount = b.shm.pulseCount
        ∧ (n ≠ 0 → (pulseBroadcastRun send portStatus n b).loc.last_pulse = b.shm.pulseCount)
        ∧ ∃ e, (pulseBroadcastRun send portStatus n b).events = b.events ++ e
          ∧ socketsSent pulseWord e
            = if n ≠ 0 ∧ b.loc.last_pulse ≠ b.shm.pulseCount then
                (b.listeners.filter (fun l => l.allocated = 1)).map (fun l => l.cfd)
              else [] := by
  induction n with
  | zero =>
    intro b
    exact ⟨rfl, rfl, fun h => absurd rfl h, [], by simp [pulseBroadcastRun],
      by simp [socketsSent]⟩
  | succ n ih =>
    intro b
    obtain ⟨hl, hp, hc, e, he, hs⟩ := pulseBroadcastIter_pulse send portStatus b
    obtain ⟨hl2, hc2, hp2, e2, he2, hs2⟩ := ih (pulseBroadcastIter send portStatus b)
    have hquiet : socketsSent pulseWord e2 = [] := by
      rw [hs2, hp, hc, if_neg (fun h => h.2 rfl)]
    refine ⟨?_, ?_, fun _ => ?_, e ++ e2, ?_, ?_⟩
    · rw [pulseBroadcastRun, hl2, hl]
    · rw [pulseBroadcastRun, hc2, hc]
    · rw [pulseBroadcastRun]
      by_cases hn : n = 0
      · subst hn
        exact hp
      · rw [hp2 hn, hc]
    · rw [pulseBroadcastRun, he2, he, List.append_assoc]
    · rw [socketsSent_append, hs, hquiet, List.append_nil]
      by_cases h : b.loc.last_pulse ≠ b.shm.pulseCount
      · rw [if_pos h, if_pos ⟨Nat.succ_ne_zero n, h⟩]
      · rw [if_neg h, if_neg (fun h2 => h h2.2)]

/-! ## Claims about the listener table -/

/-- C4 (failing input). Slot 0 is allocated on socket 5 and `send` returns -1.  The value
is stored in the `size_t` variable `len`, the test `len < 0` is false, and
`broadcast_word` leaves the slot allocated, does not close the socket, and counts the
slot in its return value 1.  For no table, word and results of `send` does
`broadcast_word` free a slot. -/
theorem failed_send_keeps_slot :
    broadcast_word (fun _ _ => -1) pulseWord oneListener
        = (1, oneListener, [NetEvent.sent 5 pulseWord])
      ∧ ∀ (send : Int → List Char → Int) (word : List Char) (ls : List Listener),
          (broadcast_word send word ls).2.1 = ls :=
  ⟨by decide, broadcast_word_table⟩

/-- C5. A new connection (`cfd >= 0`) whose IP equals the recorded IP of an allocated slot
`l`, the first such slot of the table (the only one in a table the accept logic has
built, see `acceptConnection_distinct`), closes the old socket of `l`, stores the new
socket in `l`, sends it the status port, changes no other slot and allocates none, so
the number of allocated slots is unchanged; after two connections from one IP to the
empty table exactly one slot is allocated and it holds the second socket. -/
theorem known_ip_replaces_socket (portStatus cfd cfd1 : Int) (ip : List Char)
    (pre post : List Listener) (l : Listener) (hcfd : 0 ≤ cfd) (hcfd1 : 0 ≤ cfd1)
    (hl : l.allocated = 1) (hip : l.ipAddr = ip)
    (hfirst : ∀ x ∈ pre, ¬ (x.allocated = 1 ∧ x.ipAddr = ip)) :
    acceptConnection portStatus cfd ip (pre ++ l :: post)
        = (pre ++ { l with cfd := cfd } :: post,
            [NetEvent.closed l.cfd, NetEvent.sent cfd (statusPortWord portStatus)])
      ∧ allocatedCount (acceptConnection portStatus cfd ip (pre ++ l :: post)).1
        = allocatedCount (pre ++ l :: post)
      ∧ allocatedCount (acceptConnection portStatus cfd ip
          (acceptConnection portStatus cfd1 ip emptyListeners).1).1 = 1
      ∧ ((acceptConnection portStatus cfd ip
          (acceptConnection portStatus cfd1 ip emptyListeners).1).1.filter
            (fun l => l.allocated = 1)).map (fun l => l.cfd) = [cfd] := by
  have h1 : acceptConnection portStatus cfd ip (pre ++ l :: post)
      = (pre ++ { l with cfd := cfd } :: post,
          [NetEvent.closed l.cfd, NetEvent.sent cfd (statusPortWord portStatus)]) := by
    unfold acceptConnection
    rw [if_pos hcfd, reopenLoop_first portStatus cfd ip l post hl hip pre hfirst]
  have h2 := accept_twice portStatus cfd1 cfd ip hcfd1 hcfd
  refine ⟨h1, ?_, h2.1, h2.2⟩
  rw [h1]
  simp only [allocatedCount_append, allocatedCount_cons]

/-- Witness of C5: the controller at 10.0.0.7, which holds slot 0 on socket 5, connects
again on socket 9. -/
theorem reconnect_one_listener :
    (acceptConnection 50201 9 "10.0.0.7".toList oneListener).1
        = { allocated := 1, thread_no := 0, cfd := 9, ctl_allocated := 1,
            ipAddr := "10.0.0.7".toList } :: oneListener.tail
      ∧ allocatedCount (acceptConnection 50201 9 "10.0.0.7".toList oneListener).1 = 1 := by
  obtain ⟨h1, h2, _, _⟩ := known_ip_replaces_socket 50201 9 9 "10.0.0.7".toList []
    oneListener.tail
    { allocated := 1, thread_no := 0, cfd := 5, ctl_allocated := 1, ipAddr := "10.0.0.7".toList }
    (by decide) (by decide) rfl rfl (by intro x hx; cases hx)
  exact ⟨congrArg Prod.fst h1, h2⟩

/-- C6. For every listener table and word, `broadcast_word` calls `send` with the word
exactly once on the socket of each allocated slot, in table order, and makes no other
socket call; it returns the number of these calls.  A pass of `pulseBroadcastLoop` leaves
`last_pulse` equal to `pulseCount`, and for every number of passes `n + 1` during which
`pulseCount` stays as it is, the sockets that are sent `"pulse\n"` in all these passes
together are the sockets of the allocated slots, once each, when `pulseCount` differed
from `last_pulse` before the first pass, and none otherwise: one change is broadcast
once, whatever the number of passes that follow it. -/
theorem broadcast_once_per_allocated (send : Int → List Char → Int) (word : List Char)
    (ls : List Listener) (portStatus : Int) (b : Bcast) (n : Nat) :
    (broadcast_word send word ls).2.2
        = (ls.filter (fun l => l.allocated = 1)).map (fun l => NetEvent.sent l.cfd word)
      ∧ (broadcast_word send word ls).1 = ((broadcast_word send word ls).2.2.length : Int)
      ∧ (pulseBroadcastIter send portStatus b).loc.last_pulse = b.shm.pulseCount
      ∧ (pulseBroadcastIter send portStatus b).shm.pulseCount = b.shm.pulseCount
      ∧ socketsSent pulseWord (runEvents send portStatus (n + 1) b)
        = if b.loc.last_pulse ≠ b.shm.pulseCount then
            (b.listeners.filter (fun l => l.allocated = 1)).map (fun l => l.cfd)
          else [] := by
  obtain ⟨_, hp, hc, _⟩ := pulseBroadcastIter_pulse send portStatus b
  obtain ⟨_, _, _, e, he, hs⟩ := pulseBroadcastRun_pulse send portStatus (n + 1) b
  refine ⟨broadcast_word_events send word ls, ?_, hp, hc, ?_⟩
  · rw [broadcast_word_count, broadcast_word_events, List.length_map]
    rfl
  · unfold runEvents
    rw [he, List.drop_left, hs]
    by_cases h : b.loc.last_pulse ≠ b.shm.pulseCount
    · rw [if_pos h, if_pos ⟨Nat.succ_ne_zero n, h⟩]
    · rw [if_neg h, if_neg (fun h2 => h h2.2)]

set_option maxRecDepth 100000 in
/-- Example for C6: three connected controllers and a slot that was never allocated, with a
`send` that reports six bytes written; after one increment of `pulseCount` the pulse word
goes once to each of the sockets 11, 12 and 13 and not to socket 14, in one pass as in
three passes. -/
theorem three_listeners_one_pulse :
    onePulseIncrement.loc.last_pulse = 4 ∧ onePulseIncrement.shm.pulseCount = 5
      ∧ socketsSent pulseWord (runEvents (fun _ _ => 6) 50201 1 onePulseIncrement)
          = [11, 12, 13]
      ∧ socketsSent pulseWord (runEvents (fun _ _ => 6) 50201 3 onePulseIncrement)
          = [11, 12, 13]
      ∧ (pulseBroadcastIter (fun _ _ => 6) 50201 onePulseIncrement).loc.last_pulse = 5 := by
  have h1 := (broadcast_once_per_allocated (fun _ _ => 6) pulseWord threeListeners 50201
    onePulseIncrement 0).2.2.2.2
  have h3 := (broadcast_once_per_allocated (fun _ _ => 6) pulseWord threeListeners 50201
    onePulseIncrement 2).2.2.2.2
  have hp := (broadcast_once_per_allocated (fun _ _ => 6) pulseWord threeListeners 50201
    onePulseIncrement 0).2.2.1
  have hne : onePulseIncrement.loc.last_pulse ≠ onePulseIncrement.shm.pulseCount := by decide
  rw [if_pos hne] at h1 h3
  exact ⟨rfl, rfl, h1, h3, hp⟩

/-! ## Lemmas about the status protocol server -/

/-- Doing nothing grows the reply. -/
theorem grows_refl {α : Type} (s : Server α) : Grows s s := ⟨rfl, List.prefix_refl _⟩

/-- Growth composes. -/
theorem grows_trans {α : Type} {a b c : Server α} (h1 : Grows a b) (h2 : Grows b c) :
    Grows a c := ⟨h2.1.trans h1.1, h1.2.trans h2.2⟩

/-- Appending text grows the reply. -/
theorem grows_reply {α : Type} (s : Server α) (t : List Char) : Grows s (s.reply t) :=
  ⟨rfl, List.prefix_append _ _⟩

/-- Changing the shared memory and appending text grows the reply. -/
theorem grows_shm_reply {α : Type} (s : Server α) (m : Shm α) (t : List Char) :
    Grows s (({ s with shm := m } : Server α).reply t) :=
  ⟨rfl, List.prefix_append _ _⟩

/-- A `set:` command that returns has grown the reply. -/
theorem handleSet_grows {α : Type} (env : Env α) (key value : List Char) (n : Int)
    (s s1 : Server α) (h : handleSet env key value n s = some s1) : Grows s s1 := by
  unfold handleSet at h
  simp only [] at h
  split at h
  · exact absurd h (by simp)
  · split at h
    · exact absurd h (by simp)
    · injection h with h
      subst h
      refine ⟨rfl, ?_⟩
      simp only [Server.reply, List.append_assoc]
      exact List.prefix_append _ _

/-- A `set:` command returns when its key has three segments. -/
theorem handleSet_isSome {α : Type} (env : Env α) (key value : List Char) (n : Int)
    (s : Server α) (h : 3 ≤ (explode key ':').length) :
    ∃ s1, handleSet env key value n s = some s1 := by
  unfold handleSet
  match hv : explode key ':' with
  | [] => rw [hv] at h; simp at h
  | [_] => rw [hv] at h; simp at h
  | [_, _] => rw [hv] at h; simp at h
  | _ :: c :: p :: _ => simp

/-- One pass of the command loop that returns has grown the reply. -/
theorem dispatchOne_grows {α : Type} (env : Env α) (arg : Argument) (n : Int)
    (s : Server α) (r : Server α × Int) (h : dispatchOne env arg n s = some r) : Grows s r.1 := by
  unfold dispatchOne at h
  simp only [] at h
  split_ifs at h
  all_goals first
    | (injection h with h; subst h; exact grows_reply _ _)
    | skip
  split at h
  · exact absurd h (by simp)
  · rename_i s1 hs
    injection h with h
    subst h
    exact handleSet_grows env _ _ _ _ _ hs

/-- One pass of the command loop returns unless a `set:` key lacks a segment. -/
theorem dispatchOne_isSome {α : Type} (env : Env α) (arg : Argument) (n : Int)
    (s : Server α) (h : isSetKey arg.key = true → 3 ≤ (explode arg.key ':').length) :
    ∃ r, dispatchOne env arg n s = some r := by
  unfold dispatchOne
  simp only []
  split_ifs
  all_goals first
    | exact ⟨_, rfl⟩
    | skip
  obtain ⟨s1, hs1⟩ := handleSet_isSome env arg.key arg.value (n + 1) s (h (by assumption))
  rw [hs1]
  exact ⟨_, rfl⟩

/-- The command loop, when it returns, has grown the reply. -/
theorem dispatchLoop_grows {α : Type} (env : Env α) (l : List Argument) :
    ∀ (i n : Int) (s s1 : Server α), dispatchLoop env l i n s = some s1 → Grows s s1 := by
  induction l with
  | nil =>
    intro i n s s1 h
    simp only [dispatchLoop] at h
    injection h with h
    subst h
    exact grows_refl _
  | cons arg rest ih =>
    intro i n s s1 h
    simp only [dispatchLoop] at h
    split at h
    · exact absurd h (by simp)
    · rename_i r hr
      have g1 : Grows s (if i > 0 then
          ({ s with opTrace := s.opTrace ++ [HandlerOp.dispatch arg] } : Server α).reply
            ",\n".toList
          else { s with opTrace := s.opTrace ++ [HandlerOp.dispatch arg] }) := by
        split_ifs
        · exact ⟨rfl, List.prefix_append _ _⟩
        · exact ⟨rfl, List.prefix_refl _⟩
      exact grows_trans (grows_trans g1 (dispatchOne_grows env arg n _ r hr)) (ih _ _ _ _ h)

/-- The command loop returns when every `set:` key has three segments. -/
theorem dispatchLoop_isSome {α : Type} (env : Env α) (l : List Argument) :
    ∀ (i n : Int) (s : Server α),
      (∀ arg ∈ l, isSetKey arg.key = true → 3 ≤ (explode arg.key ':').length) →
      ∃ s1, dispatchLoop env l i n s = some s1 := by
  induction l with
  | nil => intro i n s _; exact ⟨s, rfl⟩
  | cons arg rest ih =>
    intro i n s h
    obtain ⟨r, hr⟩ := dispatchOne_isSome env arg n
      (if i > 0 then
        ({ s with opTrace := s.opTrace ++ [HandlerOp.dispatch arg] } : Server α).reply
          ",\n".toList
        else { s with opTrace := s.opTrace ++ [HandlerOp.dispatch arg] })
      (h arg (List.mem_cons_self _ _))
    obtain ⟨s1, hs1⟩ := ih (i + 1) r.2 r.1 (fun a ha => h a (List.mem_cons_of_mem _ ha))
    refine ⟨s1, ?_⟩
    simp only [dispatchLoop, hr]
    exact hs1

/-- The end of the handler, when it returns, has grown the reply. -/
theorem finishCommand_grows {α : Type} (env : Env α) (l : List Argument) (taken : Int)
    (s s1 : Server α) (h : finishCommand env l taken s = some s1) : Grows s s1 := by
  unfold finishCommand at h
  split at h
  · exact absurd h (by simp)
  · rename_i s2 hs2
    have g := dispatchLoop_grows env l 0 0 s s2 hs2
    simp only [] at h
    split_ifs at h with ht
    · injection h with h
      subst h
      refine grows_trans g (grows_trans (grows_reply s2 "\n\x7d\n".toList) ?_)
      unfold releaseLock
      rw [if_pos ht]
      exact ⟨rfl, List.prefix_refl _⟩
    · injection h with h
      subst h
      exact grows_trans g (grows_reply s2 _)

/-- The end of the handler returns when every `set:` key has three segments. -/
theorem finishCommand_isSome {α : Type} (env : Env α) (l : List Argument) (taken : Int)
    (s : Server α)
    (h : ∀ arg ∈ l, isSetKey arg.key = true → 3 ≤ (explode arg.key ':').length) :
    ∃ s1, finishCommand env l taken s = some s1 := by
  obtain ⟨s2, hs2⟩ := dispatchLoop_isSome env l 0 0 s h
  unfold finishCommand
  rw [hs2]
  simp only []
  split_ifs
  · exact ⟨_, rfl⟩
  · exact ⟨_, rfl⟩

/-- A `close` key read as 565 sets the close flag. -/
theorem scanStep_closeFlag_pos {α : Type} (env : Env α) (s : Server α) (arg : Argument)
    (h : closesServer env arg) : (scanStep env s arg).closeFlag = 1 := by
  obtain ⟨hk, hv⟩ := h
  unfold scanStep
  rw [hk]
  simp only [hv]
  rfl

/-- Any other key leaves the close flag as it was. -/
theorem scanStep_closeFlag_neg {α : Type} (env : Env α) (s : Server α) (arg : Argument)
    (h : ¬ closesServer env arg) : (scanStep env s arg).closeFlag = s.closeFlag := by
  unfold scanStep
  simp only []
  split_ifs with h1 h2 h3 h4 h5
  · rfl
  · rfl
  · rfl
  · exact absurd ⟨h4, h5⟩ h
  · rfl
  · rfl

/-- A pass of the first loop only appends to the reply. -/
theorem scanStep_extends {α : Type} (env : Env α) (s : Server α) (arg : Argument) :
    s.htmlReply <+: (scanStep env s arg).htmlReply := by
  unfold scanStep
  simp only []
  split_ifs <;> first | exact List.prefix_append _ _ | exact List.prefix_refl _

/-- A pass of the first loop never clears the close flag. -/
theorem scanStep_closeFlag_keep {α : Type} (env : Env α) (s : Server α) (arg : Argument)
    (h : s.closeFlag = 1) : (scanStep env s arg).closeFlag = 1 := by
  unfold scanStep
  simp only []
  split_ifs <;> first | exact h | rfl

/-- The first loop only appends to the reply. -/
theorem scanLoop_extends {α : Type} (env : Env α) (l : List Argument) :
    ∀ s : Server α, s.htmlReply <+: (scanLoop env l s).htmlReply := by
  induction l with
  | nil => intro s; exact List.prefix_refl _
  | cons arg rest ih =>
    intro s
    exact (scanStep_extends env s arg).trans (ih (scanStep env s arg))

/-- The first loop never clears the close flag. -/
theorem scanLoop_closeFlag_keep {α : Type} (env : Env α) (l : List Argument) :
    ∀ s : Server α, s.closeFlag = 1 → (scanLoop env l s).closeFlag = 1 := by
  induction l with
  | nil => intro s h; exact h
  | cons arg rest ih =>
    intro s h
    exact ih (scanStep env s arg) (scanStep_closeFlag_keep env s arg h)

/-- The first loop sets the close flag when some `close` key is read as 565. -/
theorem scanLoop_closeFlag_pos {α : Type} (env : Env α) (l : List Argument) :
    ∀ s : Server α, (∃ arg ∈ l, closesServer env arg) → (scanLoop env l s).closeFlag = 1 := by
  induction l with
  | nil => intro s h; obtain ⟨a, ha, _⟩ := h; cases ha
  | cons arg rest ih =>
    intro s h
    by_cases hc : closesServer env arg
    · exact scanLoop_closeFlag_keep env rest _ (scanStep_closeFlag_pos env s arg hc)
    · obtain ⟨a, ha, hca⟩ := h
      rcases List.mem_cons.mp ha with rfl | hmem
      · exact absurd hca hc
      · exact ih (scanStep env s arg) ⟨a, hmem, hca⟩

/-- The first loop leaves the close flag as it was when no `close` key is read as 565. -/
theorem scanLoop_closeFlag_neg {α : Type} (env : Env α) (l : List Argument) :
    ∀ s : Server α, (¬ ∃ arg ∈ l, closesServer env arg) →
      (scanLoop env l s).closeFlag = s.closeFlag := by
  induction l with
  | nil => intro s _; rfl
  | cons arg rest ih =>
    intro s h
    have h1 : ¬ closesServer env arg := fun hc => h ⟨arg, List.mem_cons_self _ _, hc⟩
    have h2 : ¬ ∃ a ∈ rest, closesServer env a :=
      fun ⟨a, ha, hc⟩ => h ⟨a, List.mem_cons_of_mem _ ha, hc⟩
    exact (ih (scanStep env s arg) h2).trans (scanStep_closeFlag_neg env s arg h1)

/-- The first loop writes the bad-param fragment for each `close` key not read as 565. -/
theorem scanLoop_badParam {α : Type} (env : Env α) (l : List Argument) :
    ∀ s : Server α, ∀ arg ∈ l, arg.key = "close".toList →
      atoi env.atoiOverflow arg.value ≠ 565 →
      (badParam ++ ",\n".toList) <:+: (scanLoop env l s).htmlReply := by
  induction l with
  | nil => intro s arg h; cases h
  | cons a rest ih =>
    intro s arg hmem hk hv
    rcases List.mem_cons.mp hmem with rfl | hrest
    · have hstep : (scanStep env s arg).htmlReply = s.htmlReply ++ (badParam ++ ",\n".toList) := by
        unfold scanStep
        rw [hk]
        simp only [hv]
        rfl
      have hin : (badParam ++ ",\n".toList) <:+: (scanStep env s arg).htmlReply := by
        rw [hstep]
        exact ⟨s.htmlReply, [], by simp⟩
      exact hin.trans (scanLoop_extends env rest (scanStep env s arg)).isInfix
    · exact ih (scanStep env s a) arg hrest hk hv

/-- A result of `strchr` does not lie before the start of its search. -/
theorem strchrAt_ge (buf : List Char) (p : Nat) (c : Char) (n : Nat)
    (h : strchrAt buf p c = some n) : p ≤ n := by
  unfold strchrAt at h
  simp only [] at h
  split_ifs at h
  injection h with h
  omega

/-- The result of `strchr` past the end of the buffer is null. -/
theorem strchrAt_none_of_le (buf : List Char) (p : Nat) (c : Char) (h : buf.length ≤ p) :
    strchrAt buf p c = none := by
  unfold strchrAt cstrAt
  simp [List.drop_eq_nil_of_le h]

/-- The fuel of `parseArgsLoop` is never used up: once it covers the bytes from `keyP` to
the end of the buffer, more fuel gives the same result. -/
theorem parseArgsLoop_fuel (fuel : Nat) :
    ∀ (buf : List Char) (keyP : Nat), buf.length ≤ keyP + fuel →
      ∀ more : Nat, parseArgsLoop (fuel + more) buf keyP = parseArgsLoop fuel buf keyP := by
  induction fuel with
  | zero =>
    intro buf keyP h more
    cases more with
    | zero => rfl
    | succ m =>
      simp only [Nat.zero_add, parseArgsLoop, strchrAt_none_of_le buf keyP '=' (by omega)]
  | succ fuel ih =>
    intro buf keyP h more
    have e : fuel + 1 + more = (fuel + more) + 1 := by omega
    rw [e]
    simp only [parseArgsLoop]
    cases hv : strchrAt buf keyP '=' with
    | none => rfl
    | some valP =>
      cases hn : strchrAt buf keyP '&' with
      | none => rfl
      | some n =>
        have hge := strchrAt_ge buf keyP '&' n hn
        simp only []
        rw [ih ((buf.set valP NUL).set n NUL) (n + 1) (by simp; omega) more]


/-- The reply of `sendNotFound` is the fixed text around the path. -/
theorem sendNotFound_reply {α : Type} (path : List Char) (s : Server α) :
    sendNotFound path s
      = { s with htmlReply := s.htmlReply ++ (notFoundBefore ++ path ++ notFoundAfter) } := by
  simp only [sendNotFound, Server.reply, notFoundBefore, notFoundAfter, List.append_assoc]

/-- A request with a path other than the two names of the status page gets the reply of
`sendNotFound` for that path and changes nothing else. -/
theorem simstatusRequest_unknown_path {α : Type} (env : Env α) (req : List Char)
    (s : Server α) (r : Request) (path : List Char) (hreq : req.length > 0)
    (hparse : parseRequest req = some r) (hpath : r.path = some path)
    (h1 : path ≠ "simstatus.cgi".toList) (h2 : path ≠ "cgi-bin/simstatus.cgi".toList) :
    simstatusRequest env req s
      = some { s with htmlReply := notFoundBefore ++ path ++ notFoundAfter } := by
  unfold simstatusRequest
  simp only [hreq, if_true, hparse, hpath, h1, h2, if_false, sendNotFound_reply,
    List.nil_append]

/-- An unknown field of the classes handled in line gives status code 2, the code of an
unknown class, except for the class `scenario`, which gives 1. -/
theorem setClass_unknown_field {α : Type} (env : Env α) (param value : List Char) (m : Shm α) :
    (param ≠ "right_dorsal".toList → param ≠ "left_dorsal".toList
        → param ≠ "right_femoral".toList → param ≠ "left_femoral".toList
        → setClass env "pulse".toList param value m = (2, m))
      ∧ (param ≠ "side".toList → param ≠ "row".toList → param ≠ "col".toList
        → setClass env "auscultation".toList param value m = (2, m))
      ∧ (param ≠ "compression".toList → param ≠ "release".toList
        → setClass env "cpr".toList param value m = (2, m))
      ∧ (param ≠ "event_id".toList → param ≠ "comment".toList
        → setClass env "event".toList param value m = (2, m))
      ∧ (param ≠ "active".toList → param ≠ "state".toList → param ≠ "record".toList
        → setClass env "scenario".toList param value m = (1, m)) := by
  refine ⟨?_, ?_, ?_, ?_, ?_⟩ <;> intros <;> simp_all [setClass]

/-- A `set:` command that returns has entered the class chain once and has made no call on
the instructor mutex. -/
theorem handleSet_opTrace {α : Type} (env : Env α) (key value : List Char) (n : Int)
    (s s1 : Server α) (h : handleSet env key value n s = some s1) :
    s1.opTrace = s.opTrace ++ [HandlerOp.applied ⟨key, value⟩] := by
  unfold handleSet at h
  simp only [] at h
  split at h
  · exact absurd h (by simp)
  · split at h
    · exact absurd h (by simp)
    · injection h with h
      subst h
      rfl

/-- A key that is one of the plain commands does not begin with `set:`. -/
theorem setOps_plain (arg : Argument) (k : List Char) (hk : isSetKey k = false)
    (h : arg.key = k) : setOps arg = [] := by
  unfold setOps
  rw [h, hk]
  rfl

/-- The first loop leaves the shared memory as it is. -/
theorem scanLoop_shm {α : Type} (env : Env α) (l : List Argument) (s : Server α) :
    (scanLoop env l s).shm = s.shm := by
  unfold scanLoop
  induction l generalizing s with
  | nil => rfl
  | cons arg rest ih =>
    rw [List.foldl_cons, ih]
    unfold scanStep
    simp only []
    split_ifs <;> rfl

/-- Dropping the bytes of a matched needle. -/
theorem replaceNeedle_skip (needle : List Char) (r : Char) (k : Nat) (s : List Char) :
    replaceNeedle needle r k s = replaceNeedle needle r 0 (s.drop k) := by
  induction k generalizing s with
  | zero => rfl
  | succ k ih =>
    cases s with
    | nil => rfl
    | cons c cs => rw [replaceNeedle, ih, List.drop_succ_cons]

/-- A pass of `replaceNeedle` for an escape `%xy` at a character other than `%`. -/
theorem replaceNeedle_copy (x y r c : Char) (cs : List Char) (hc : c ≠ '%') :
    replaceNeedle ['%', x, y] r 0 (c :: cs) = c :: replaceNeedle ['%', x, y] r 0 cs := by
  rw [replaceNeedle, if_neg]
  simp [startsWith, hc]

/-- A pass of `replaceNeedle` for an escape `%xy` at the escape. -/
theorem replaceNeedle_hit (x y r : Char) (rest : List Char) :
    replaceNeedle ['%', x, y] r 0 ('%' :: x :: y :: rest)
      = r :: replaceNeedle ['%', x, y] r 0 rest := by
  rw [replaceNeedle, if_pos (by simp [startsWith]), replaceNeedle_skip]
  rfl

/-- A pass of `replaceNeedle` for an escape `%xy` at a `%` that does not start the escape. -/
theorem replaceNeedle_miss (x y r : Char) (cs : List Char)
    (h : ∀ rest, cs ≠ x :: y :: rest) :
    replaceNeedle ['%', x, y] r 0 ('%' :: cs) = '%' :: replaceNeedle ['%', x, y] r 0 cs := by
  rw [replaceNeedle, if_neg]
  intro hs
  simp only [startsWith, List.length_cons, List.length_nil, decide_eq_true_eq] at hs
  match cs, h, hs with
  | [], _, hs => simp at hs
  | [a], _, hs => simp at hs
  | a :: b :: rest, h, hs =>
    simp only [List.take, List.cons.injEq, true_and, and_true] at hs
    exact h rest (by rw [hs.1, hs.2])

/-- A pass of `replaceNeedle` for an escape `%xy` replaced by `:`, space or `+` is local. -/
theorem replaceNeedle_local (x y r : Char) (hr : r = ':' ∨ r = ' ' ∨ r = '+') :
    LocalPass (replaceNeedle ['%', x, y] r 0) := by
  refine ⟨rfl, fun c s hc _ => replaceNeedle_copy x y r c s hc, fun c s hc => ?_⟩
  rcases hc with rfl | rfl
  · by_cases h : ∃ rest, s = x :: y :: rest
    · obtain ⟨rest, rfl⟩ := h
      exact ⟨r, _, replaceNeedle_hit x y r rest, Or.inr hr⟩
    · exact ⟨'%', _, replaceNeedle_miss x y r s (fun rest hs => h ⟨rest, hs⟩), Or.inl rfl⟩
  · exact ⟨'+', _, replaceNeedle_copy x y r '+' s (by decide), Or.inr (Or.inr (Or.inr rfl))⟩

/-- The pass that turns `+` into a space is local. -/
theorem plusToSpace_local : LocalPass (fun s => replaceAll s "+".toList ' ') := by
  refine ⟨rfl, fun c s _ hc => ?_, fun c s hc => ?_⟩
  · simp [replaceAll, hc]
  · rcases hc with rfl | rfl
    · exact ⟨'%', replaceAll s "+".toList ' ', by simp [replaceAll], Or.inl rfl⟩
    · exact ⟨' ', replaceAll s "+".toList ' ', by simp [replaceAll], Or.inr (Or.inr (Or.inl rfl))⟩

/-- Local passes compose. -/
theorem localPass_comp (q1 q2 : List Char → List Char) (h1 : LocalPass q1)
    (h2 : LocalPass q2) : LocalPass (fun s => q2 (q1 s)) := by
  refine ⟨by simp only [h1.1, h2.1], fun c s hc hp => ?_, fun c s hc => ?_⟩
  · simp only [h1.2.1 c s hc hp, h2.2.1 c _ hc hp]
  · obtain ⟨h, t, e, hh⟩ := h1.2.2 c s hc
    simp only [e]
    rcases hh with rfl | rfl | rfl | rfl
    · exact h2.2.2 _ t (Or.inl rfl)
    · exact ⟨':', _, h2.2.1 ':' t (by decide) (by decide), Or.inr (Or.inl rfl)⟩
    · exact ⟨' ', _, h2.2.1 ' ' t (by decide) (by decide), Or.inr (Or.inr (Or.inl rfl))⟩
    · exact h2.2.2 _ t (Or.inr rfl)

/-- A local pass shows two plain characters at its head exactly when its input does. -/
theorem localPass_head (q : List Char → List Char) (hq : LocalPass q) (x y : Char)
    (hx : x ≠ '%' ∧ x ≠ '+' ∧ x ≠ ':' ∧ x ≠ ' ') (hy : y ≠ '%' ∧ y ≠ '+' ∧ y ≠ ':' ∧ y ≠ ' ')
    (s t : List Char) (h : q s = x :: y :: t) : ∃ rest, s = x :: y :: rest := by
  have special : ∀ (z : Char), z ≠ '%' ∧ z ≠ '+' ∧ z ≠ ':' ∧ z ≠ ' ' → ∀ c s u,
      q (c :: s) = z :: u → c = z ∧ q s = u := by
    intro z hz c s u e
    by_cases hc : c = '%' ∨ c = '+'
    · obtain ⟨h1, t1, e1, hh⟩ := hq.2.2 c s hc
      rw [e1] at e
      injection e with e2 _
      subst e2
      rcases hh with rfl | rfl | rfl | rfl
      · exact absurd rfl hz.1
      · exact absurd rfl hz.2.2.1
      · exact absurd rfl hz.2.2.2
      · exact absurd rfl hz.2.1
    · rw [hq.2.1 c s (fun e => hc (Or.inl e)) (fun e => hc (Or.inr e))] at e
      injection e with e1 e2
      exact ⟨e1, e2⟩
  match s, h with
  | [], h => rw [hq.1] at h; exact absurd h (by simp)
  | c :: s1, h =>
    obtain ⟨rfl, h1⟩ := special x hx c s1 _ h
    match s1, h1 with
    | [], h1 => rw [hq.1] at h1; exact absurd h1 (by simp)
    | d :: s2, h1 =>
      obtain ⟨rfl, _⟩ := special y hy d s2 _ h1
      exact ⟨s2, rfl⟩


/-- The test for an escape `%xy` at the head of a string. -/
theorem startsWith_escape (x y c : Char) (cs : List Char) :
    startsWith ['%', x, y] (c :: cs) = true ↔ c = '%' ∧ ∃ rest, cs = x :: y :: rest := by
  simp only [startsWith, List.length_cons, List.length_nil, decide_eq_true_eq]
  match cs with
  | [] => simp
  | [a] => simp
  | a :: b :: rest =>
    constructor
    · intro h
      simp only [List.take, List.cons.injEq, and_true] at h
      exact ⟨h.1, rest, by rw [h.2.1, h.2.2]⟩
    · rintro ⟨h1, r, h2⟩
      injection h2 with h2 h3
      injection h3 with h3 _
      simp only [List.take, List.cons.injEq, and_true]
      exact ⟨h1, h2, h3⟩

/-- The pass that turns `+` into a space, character by character. -/
theorem plusToSpace_cons (c : Char) (cs : List Char) :
    replaceAll (c :: cs) "+".toList ' '
      = (if c = '+' then ' ' else c) :: replaceAll cs "+".toList ' ' := by
  simp [replaceAll]

/-- The four calls as passes of `replaceNeedle` around the pass for `+`. -/
theorem decodeEscapes_eq (s : List Char) :
    decodeEscapes s
      = replaceNeedle ['%', '2', 'B'] '+' 0
          (replaceNeedle ['%', '2', '0'] ' ' 0
            (replaceAll (replaceNeedle ['%', '3', 'A'] ':' 0 s) "+".toList ' ')) := rfl

/-- The four calls copy a character that is neither `%` nor `+`. -/
theorem decodeEscapes_copy (c : Char) (cs : List Char) (h1 : c ≠ '%') (h2 : c ≠ '+') :
    decodeEscapes (c :: cs) = c :: decodeEscapes cs := by
  simp only [decodeEscapes_eq]
  rw [replaceNeedle_copy _ _ _ c cs h1, plusToSpace_cons, if_neg h2,
    replaceNeedle_copy _ _ _ c _ h1, replaceNeedle_copy _ _ _ c _ h1]

/-- The four calls turn a `+` into a space. -/
theorem decodeEscapes_plus (cs : List Char) :
    decodeEscapes ('+' :: cs) = ' ' :: decodeEscapes cs := by
  simp only [decodeEscapes_eq]
  rw [replaceNeedle_copy _ _ _ '+' cs (by decide), plusToSpace_cons, if_pos rfl,
    replaceNeedle_copy _ _ _ ' ' _ (by decide), replaceNeedle_copy _ _ _ ' ' _ (by decide)]

/-- The four calls turn `%3A` into `:`. -/
theorem decodeEscapes_colon (rest : List Char) :
    decodeEscapes ('%' :: '3' :: 'A' :: rest) = ':' :: decodeEscapes rest := by
  simp only [decodeEscapes_eq]
  rw [replaceNeedle_hit, plusToSpace_cons, if_neg (by decide),
    replaceNeedle_copy _ _ _ ':' _ (by decide), replaceNeedle_copy _ _ _ ':' _ (by decide)]

/-- The four calls turn `%20` into a space. -/
theorem decodeEscapes_space (rest : List Char) :
    decodeEscapes ('%' :: '2' :: '0' :: rest) = ' ' :: decodeEscapes rest := by
  simp only [decodeEscapes_eq]
  rw [replaceNeedle_miss _ _ _ _ (by intro r h; injection h with h _; exact absurd h (by decide)),
    replaceNeedle_copy _ _ _ '2' _ (by decide), replaceNeedle_copy _ _ _ '0' _ (by decide),
    plusToSpace_cons, if_neg (by decide), plusToSpace_cons, if_neg (by decide),
    plusToSpace_cons, if_neg (by decide), replaceNeedle_hit,
    replaceNeedle_copy _ _ _ ' ' _ (by decide)]

/-- The four calls turn `%2B` into `+`, which stays. -/
theorem decodeEscapes_plus_escape (rest : List Char) :
    decodeEscapes ('%' :: '2' :: 'B' :: rest) = '+' :: decodeEscapes rest := by
  simp only [decodeEscapes_eq]
  rw [replaceNeedle_miss _ _ _ _ (by intro r h; injection h with h _; exact absurd h (by decide)),
    replaceNeedle_copy _ _ _ '2' _ (by decide), replaceNeedle_copy _ _ _ 'B' _ (by decide),
    plusToSpace_cons, if_neg (by decide), plusToSpace_cons, if_neg (by decide),
    plusToSpace_cons, if_neg (by decide),
    replaceNeedle_miss _ _ _ _ (by
      intro r h; injection h with _ h; injection h with h _; exact absurd h (by decide)),
    replaceNeedle_copy _ _ _ '2' _ (by decide), replaceNeedle_copy _ _ _ 'B' _ (by decide),
    replaceNeedle_hit]

/-- The four calls copy a `%` that starts none of the three escapes. -/
theorem decodeEscapes_percent (cs : List Char) (h1 : ∀ rest, cs ≠ '3' :: 'A' :: rest)
    (h2 : ∀ rest, cs ≠ '2' :: '0' :: rest) (h3 : ∀ rest, cs ≠ '2' :: 'B' :: rest) :
    decodeEscapes ('%' :: cs) = '%' :: decodeEscapes cs := by
  have l1 : LocalPass (replaceNeedle ['%', '3', 'A'] ':' 0) :=
    replaceNeedle_local _ _ _ (Or.inl rfl)
  have l2 := localPass_comp _ _ l1 plusToSpace_local
  have l3 := localPass_comp _ _ l2 (replaceNeedle_local '2' '0' ' ' (Or.inr (Or.inl rfl)))
  simp only [decodeEscapes_eq]
  rw [replaceNeedle_miss _ _ _ _ h1, plusToSpace_cons, if_neg (by decide),
    replaceNeedle_miss '2' '0' _ _ (fun rest e => by
      obtain ⟨r, hr⟩ := localPass_head _ l2 '2' '0' (by decide) (by decide) cs rest e
      exact h2 r hr),
    replaceNeedle_miss '2' 'B' _ _ (fun rest e => by
      obtain ⟨r, hr⟩ := localPass_head _ l3 '2' 'B' (by decide) (by decide) cs rest e
      exact h3 r hr)]

/-- Dropping the bytes of an escape in the one-pass decoding. -/
theorem percentDecode_skip (k : Nat) (s : List Char) :
    percentDecode k s = percentDecode 0 (s.drop k) := by
  induction k generalizing s with
  | zero => rfl
  | succ k ih =>
    cases s with
    | nil => rfl
    | cons c cs => rw [percentDecode, ih, List.drop_succ_cons]

/-- One step of the one-pass decoding. -/
theorem percentDecode_cons (c : Char) (cs : List Char) :
    percentDecode 0 (c :: cs) =
      if startsWith ['%', '3', 'A'] (c :: cs) = true then ':' :: percentDecode 2 cs
      else if startsWith ['%', '2', '0'] (c :: cs) = true then ' ' :: percentDecode 2 cs
      else if startsWith ['%', '2', 'B'] (c :: cs) = true then '+' :: percentDecode 2 cs
      else if c = '+' then ' ' :: percentDecode 0 cs
      else c :: percentDecode 0 cs := rfl

/-- The four `replaceAll` calls decode as the one pass does. -/
theorem decodeEscapes_percentDecode (n : Nat) :
    ∀ s : List Char, s.length ≤ n → decodeEscapes s = percentDecode 0 s := by
  induction n with
  | zero =>
    intro s hs
    have : s = [] := List.length_eq_zero.mp (Nat.le_zero.mp hs)
    subst this
    rfl
  | succ n ih =>
    intro s hs
    match s, hs with
    | [], _ => rfl
    | c :: cs, hs =>
      have hcs : cs.length ≤ n := by simpa using hs
      by_cases hc : c = '%'
      · subst hc
        by_cases p1 : ∃ rest, cs = '3' :: 'A' :: rest
        · obtain ⟨rest, rfl⟩ := p1
          rw [decodeEscapes_colon, percentDecode_cons,
            if_pos ((startsWith_escape _ _ _ _).mpr ⟨rfl, rest, rfl⟩), percentDecode_skip,
            ih rest (by simp at hcs; omega)]
          rfl
        · by_cases p2 : ∃ rest, cs = '2' :: '0' :: rest
          · obtain ⟨rest, rfl⟩ := p2
            rw [decodeEscapes_space, percentDecode_cons,
              if_neg (by rw [startsWith_escape]; rintro ⟨_, r, h⟩; exact p1 ⟨r, h⟩),
              if_pos ((startsWith_escape _ _ _ _).mpr ⟨rfl, rest, rfl⟩), percentDecode_skip,
              ih rest (by simp at hcs; omega)]
            rfl
          · by_cases p3 : ∃ rest, cs = '2' :: 'B' :: rest
            · obtain ⟨rest, rfl⟩ := p3
              rw [decodeEscapes_plus_escape, percentDecode_cons,
                if_neg (by rw [startsWith_escape]; rintro ⟨_, r, h⟩; exact p1 ⟨r, h⟩),
                if_neg (by rw [startsWith_escape]; rintro ⟨_, r, h⟩; exact p2 ⟨r, h⟩),
                if_pos ((startsWith_escape _ _ _ _).mpr ⟨rfl, rest, rfl⟩), percentDecode_skip,
                ih rest (by simp at hcs; omega)]
              rfl
            · rw [decodeEscapes_percent cs (fun r h => p1 ⟨r, h⟩) (fun r h => p2 ⟨r, h⟩)
                  (fun r h => p3 ⟨r, h⟩), percentDecode_cons,
                if_neg (by rw [startsWith_escape]; rintro ⟨_, r, h⟩; exact p1 ⟨r, h⟩),
                if_neg (by rw [startsWith_escape]; rintro ⟨_, r, h⟩; exact p2 ⟨r, h⟩),
                if_neg (by rw [startsWith_escape]; rintro ⟨_, r, h⟩; exact p3 ⟨r, h⟩),
                if_neg (by decide), ih cs hcs]
      · have e1 : ∀ x y, ¬ startsWith ['%', x, y] (c :: cs) = true := by
          intro x y; rw [startsWith_escape]; rintro ⟨h, _⟩; exact hc h
        by_cases hp : c = '+'
        · subst hp
          rw [decodeEscapes_plus, percentDecode_cons, if_neg (e1 _ _), if_neg (e1 _ _),
            if_neg (e1 _ _), if_pos rfl, ih cs hcs]
        · rw [decodeEscapes_copy c cs hc hp, percentDecode_cons, if_neg (e1 _ _), if_neg (e1 _ _),
            if_neg (e1 _ _), if_neg hp, ih cs hcs]

/-- What a `set:` command appends does not depend on the reply so far. -/
theorem handleSet_fragment {α : Type} (env : Env α) (key value : List Char) (n : Int)
    (s : Server α) :
    handleSet env key value n s
      = (handleSet env key value n (blankServer s.shm)).map
          (fun s1 => { s with htmlReply := s.htmlReply ++ s1.htmlReply, shm := s1.shm,
                              opTrace := s.opTrace ++ s1.opTrace }) := by
  unfold handleSet
  simp only []
  cases (explode key ':').get? 1 with
  | none => rfl
  | some cls =>
    cases (explode key ':').get? 2 with
    | none => rfl
    | some param =>
      show some _ = some _
      congr 1
      show (_ : Server α) = _
      simp only [Server.reply, blankServer]
      congr 1
      simp only [List.nil_append, List.append_assoc]

/-- What one pass of the command loop appends does not depend on the reply so far. -/
theorem dispatchOne_fragment {α : Type} (env : Env α) (arg : Argument) (n : Int)
    (s : Server α) :
    dispatchOne env arg n s
      = (commandFragment env arg n s.shm).map
          (fun r => ({ s with htmlReply := s.htmlReply ++ r.1, shm := r.2.1,
                              opTrace := s.opTrace ++ setOps arg }, r.2.2)) := by
  unfold commandFragment dispatchOne
  simp only []
  by_cases h0 : arg.key = "qstat".toList
  · rw [if_pos h0, if_pos h0, setOps_plain arg _ (by decide) h0, List.append_nil]; rfl
  rw [if_neg h0, if_neg h0]
  by_cases h1 : arg.key = "check".toList
  · rw [if_pos h1, if_pos h1, setOps_plain arg _ (by decide) h1, List.append_nil]; rfl
  rw [if_neg h1, if_neg h1]
  by_cases h2 : arg.key = "date".toList
  · rw [if_pos h2, if_pos h2, setOps_plain arg _ (by decide) h2, List.append_nil]; rfl
  rw [if_neg h2, if_neg h2]
  by_cases h3 : arg.key = "ip".toList
  · rw [if_pos h3, if_pos h3, setOps_plain arg _ (by decide) h3, List.append_nil]; rfl
  rw [if_neg h3, if_neg h3]
  by_cases h4 : arg.key = "host".toList
  · rw [if_pos h4, if_pos h4, setOps_plain arg _ (by decide) h4, List.append_nil]; rfl
  rw [if_neg h4, if_neg h4]
  by_cases h5 : arg.key = "time".toList
  · rw [if_pos h5, if_pos h5, setOps_plain arg _ (by decide) h5, List.append_nil]; rfl
  rw [if_neg h5, if_neg h5]
  by_cases h6 : arg.key = "status".toList
  · rw [if_pos h6, if_pos h6, setOps_plain arg _ (by decide) h6, List.append_nil]; rfl
  rw [if_neg h6, if_neg h6]
  by_cases h7 : arg.key = "simctrldata".toList
  · rw [if_pos h7, if_pos h7, setOps_plain arg _ (by decide) h7, List.append_nil]; rfl
  rw [if_neg h7, if_neg h7]
  by_cases hs : isSetKey arg.key = true
  · rw [if_pos hs, if_pos hs, handleSet_fragment]
    cases hb : handleSet env arg.key arg.value (n + 1) (blankServer s.shm) with
    | none => rfl
    | some s1 =>
      have ht := handleSet_opTrace env _ _ _ _ _ hb
      have e : setOps arg = s1.opTrace := by
        rw [ht, setOps, if_pos hs]
        rfl
      rw [e]
      rfl
  · have e : setOps arg = [] := by rw [setOps, if_neg hs]
    rw [if_neg hs, if_neg hs, e, List.append_nil]; rfl


/-- The command loop writes the fragments of its keys with a comma and a line feed before
each but the first of the request. -/
theorem dispatchLoop_fragments {α : Type} (env : Env α) (l : List Argument) :
    ∀ (i set_count : Int) (s : Server α), 0 ≤ i →
      dispatchLoop env l i set_count s
        = (commandFragments env l set_count s.shm).map
            (fun q => { s with
              htmlReply := s.htmlReply
                ++ (if i > 0 then commaBeforeEach q.1 else commaJoined q.1),
              shm := q.2, opTrace := s.opTrace ++ l.flatMap keyOps }) := by
  induction l with
  | nil =>
    intro i n s _
    simp only [dispatchLoop, commandFragments, Option.map_some', commaBeforeEach, commaJoined,
      ite_self, List.append_nil, List.flatMap_nil]
  | cons arg rest ih =>
    intro i n s hi
    simp only [dispatchLoop, commandFragments]
    have hshm : (if i > 0 then
        ({ s with opTrace := s.opTrace ++ [HandlerOp.dispatch arg] } : Server α).reply
          ",\n".toList
        else { s with opTrace := s.opTrace ++ [HandlerOp.dispatch arg] }).shm = s.shm := by
      split_ifs <;> rfl
    rw [dispatchOne_fragment, hshm]
    cases commandFragment env arg n s.shm with
    | none => rfl
    | some r =>
      simp only [Option.map_some']
      rw [ih (i + 1) r.2.2 _ (by omega)]
      cases commandFragments env rest r.2.2 r.2.1 with
      | none => rfl
      | some q =>
        simp only [Option.map_some', if_pos (show i + 1 > 0 by omega)]
        congr 1
        by_cases h : i > 0
        · simp only [if_pos h, Server.reply, commaBeforeEach, List.append_assoc,
            List.flatMap_cons, keyOps, List.singleton_append, List.cons_append,
            List.nil_append]
        · simp only [if_neg h, commaJoined, List.append_assoc, List.flatMap_cons, keyOps,
            List.singleton_append, List.cons_append, List.nil_append]

/-- One fragment for each key. -/
theorem commandFragments_length {α : Type} (env : Env α) (l : List Argument) :
    ∀ (set_count : Int) (m : Shm α) (q : List (List Char) × Shm α),
      commandFragments env l set_count m = some q → q.1.length = l.length := by
  induction l with
  | nil =>
    intro n m q h
    simp only [commandFragments] at h
    injection h with h
    subst h
    rfl
  | cons arg rest ih =>
    intro n m q h
    simp only [commandFragments] at h
    split at h
    · exact absurd h (by simp)
    · rename_i r _
      split at h
      · exact absurd h (by simp)
      · rename_i q1 hq1
        injection h with h
        subst h
        simp only [List.length_cons, ih _ _ _ hq1]

/-- Commas after each fragment of two lists. -/
theorem commaAfterEach_append (fs gs : List (List Char)) :
    commaAfterEach (fs ++ gs) = commaAfterEach fs ++ commaAfterEach gs := by
  induction fs with
  | nil => rfl
  | cons f fs ih =>
    show f ++ ",\n".toList ++ commaAfterEach (fs ++ gs) = _
    rw [ih]
    simp only [commaAfterEach, List.append_assoc]

/-- One pass of the first loop writes the fragment of its key, if it has one, followed by a
comma and a line feed. -/
theorem scanStep_reply {α : Type} (env : Env α) (s : Server α) (arg : Argument) :
    (scanStep env s arg).htmlReply
      = s.htmlReply ++ commaAfterEach (sessionFragment env arg).toList := by
  unfold scanStep sessionFragment
  simp only []
  by_cases h1 : arg.key = "PHPSESSID".toList
  · rw [if_pos h1, if_pos (Or.inl h1)]
    simp only [Option.toList, commaAfterEach, Server.reply, List.append_nil]
  rw [if_neg h1]
  by_cases h2 : arg.key = "simIIUserID".toList
  · rw [if_pos h2, if_pos (Or.inr (Or.inl h2))]
    simp only [Option.toList, commaAfterEach, Server.reply, List.append_nil]
  rw [if_neg h2]
  by_cases h3 : arg.key = "userID".toList
  · rw [if_pos h3, if_pos (Or.inr (Or.inr h3))]
    simp only [Option.toList, commaAfterEach, Server.reply, List.append_nil]
  have hor : ¬ (arg.key = "PHPSESSID".toList ∨ arg.key = "simIIUserID".toList
      ∨ arg.key = "userID".toList) := fun h => h.elim h1 (fun h => h.elim h2 h3)
  rw [if_neg h3, if_neg hor]
  by_cases h4 : arg.key = "close".toList
  · rw [if_pos h4, if_pos h4]
    by_cases h5 : atoi env.atoiOverflow arg.value = 565
    · rw [if_pos h5, if_pos h5]
      simp only [Option.toList, commaAfterEach, Server.reply, List.append_nil]
    · rw [if_neg h5, if_neg h5]
      simp only [Option.toList, commaAfterEach, Server.reply, List.append_nil]
  · rw [if_neg h4, if_neg h4]
    simp only [Option.toList, commaAfterEach, List.append_nil]

/-- The first loop writes the fragments of the session keys and of `close`, each followed by
a comma and a line feed. -/
theorem scanLoop_reply {α : Type} (env : Env α) (l : List Argument) (s : Server α) :
    (scanLoop env l s).htmlReply
      = s.htmlReply ++ commaAfterEach (l.filterMap (sessionFragment env)) := by
  unfold scanLoop
  induction l generalizing s with
  | nil => simp only [List.foldl_nil, List.filterMap_nil, commaAfterEach, List.append_nil]
  | cons arg rest ih =>
    have e : (arg :: rest).filterMap (sessionFragment env)
        = (sessionFragment env arg).toList ++ rest.filterMap (sessionFragment env) := by
      rw [List.filterMap_cons]
      cases sessionFragment env arg <;> rfl
    rw [List.foldl_cons, ih, scanStep_reply, e, commaAfterEach_append, List.append_assoc]

/-- Fragments followed by commas and then joined fragments are joined fragments. -/
theorem commaAfterEach_joined (fs gs : List (List Char)) (hg : gs ≠ []) :
    commaAfterEach fs ++ commaJoined gs = commaJoined (fs ++ gs) := by
  have before : ∀ xs : List (List Char), xs ≠ [] →
      commaBeforeEach xs = ",\n".toList ++ commaJoined xs := by
    intro xs hx
    cases xs with
    | nil => exact absurd rfl hx
    | cons x xs => simp only [commaBeforeEach, commaJoined, List.append_assoc]
  induction fs with
  | nil => rfl
  | cons f fs ih =>
    rw [commaAfterEach, List.cons_append, commaJoined,
      before (fs ++ gs) (by simp [hg]), ← ih]
    simp only [List.append_assoc]


/-- The end of the handler writes the fragments of the keys, joined by commas, and the
closing brace. -/
theorem finishCommand_fragments {α : Type} (env : Env α) (l : List Argument) (taken : Int)
    (s0 s1 : Server α) (h : finishCommand env l taken s0 = some s1) :
    ∃ q, commandFragments env l 0 s0.shm = some q
      ∧ s1.htmlReply = s0.htmlReply ++ commaJoined q.1 ++ "\n\x7d\n".toList := by
  unfold finishCommand at h
  rw [dispatchLoop_fragments env l 0 0 s0 (le_refl _)] at h
  cases hq : commandFragments env l 0 s0.shm with
  | none => rw [hq] at h; exact absurd h (by simp)
  | some q =>
    rw [hq] at h
    refine ⟨q, rfl, ?_⟩
    simp only [Option.map_some', gt_iff_lt, lt_self_iff_false, if_false] at h
    split_ifs at h
    · injection h with h
      subst h
      simp only [releaseLock, releaseInstructorLock, Server.reply]
      split_ifs
      rfl
    · injection h with h
      subst h
      rfl

/-- The text `snprintf` writes for `"%d"` is the decimal text of the integer. -/
theorem fmtInt_decimalText (i : Int) : fmtInt i = decimalText i := by
  unfold fmtInt decimalText
  cases i with
  | ofNat n =>
    have h : ¬ Int.ofNat n < 0 := not_lt.mpr (Int.ofNat_nonneg n)
    rw [if_neg h]
    rfl
  | negSucc n =>
    rw [if_pos (Int.negSucc_lt_zero n)]
    rfl

/-- The text of `sendStatus` holds the objects `auscultation` and `pulse` with the decimal
texts of the fields of the shared memory it is given. -/
theorem sendStatus_reports {α : Type} (env : Env α) (m : Shm α) :
    ∃ a, (sendStatus env m).1
      = a ++ auscultationReport m.status_auscultation_side m.status_auscultation_row
              m.status_auscultation_col
          ++ env.statusGeneralVocals (sendStatus env m).2
          ++ pulseReport m.status_pulse_right_dorsal m.status_pulse_left_dorsal
              m.status_pulse_right_femoral m.status_pulse_left_femoral
              m.status_pulse_duration m.status_pulse_active
          ++ env.statusMediaToControllers (sendStatus env m).2 := by
  unfold sendStatus
  simp only []
  by_cases h : m.status_scenario_error_message.length > 0
  · simp only [h, decide_True, if_true]
    exact ⟨_, by
      simp only [statusAuscultation, statusPulse, auscultationReport, pulseReport,
        fmtInt_decimalText, makejson, jsonMember]
      rfl⟩
  · simp only [h, decide_False, if_false]
    exact ⟨_, by
      simp only [statusAuscultation, statusPulse, auscultationReport, pulseReport,
        fmtInt_decimalText, makejson, jsonMember]
      rfl⟩

/-- A `status` query alone in a request reports the fields of the shared memory. -/
theorem statusReports_shm {α : Type} (env : Env α) (x : List Char) (s1 : Server α) :
    StatusReports env x s1
      (auscultationReport s1.shm.status_auscultation_side s1.shm.status_auscultation_row
        s1.shm.status_auscultation_col)
      (pulseReport s1.shm.status_pulse_right_dorsal s1.shm.status_pulse_left_dorsal
        s1.shm.status_pulse_right_femoral s1.shm.status_pulse_left_femoral
        s1.shm.status_pulse_duration s1.shm.status_pulse_active) := by
  obtain ⟨a, h⟩ := sendStatus_reports env s1.shm
  refine ⟨_, a, rfl, ?_⟩
  show s1.htmlReply ++ okHeader ++ "\x7b\n".toList ++ (sendStatus env s1.shm).1
    ++ "\n\x7d\n".toList = _
  rw [h]
  simp only [List.append_assoc]
  rfl

/-- The reply of `afterSetOk` is the reply to an accepted command. -/
theorem afterSetOk_reply {α : Type} (key cls param v : List Char) (m : Shm α)
    (s : Server α) :
    (afterSetOk key cls param v m s).htmlReply
      = s.htmlReply ++ setReply cls param v "ok".toList := by
  simp only [afterSetOk, setReply, List.append_assoc]
  rfl

/-- The close flag and the bad-param fragments after `handleArgList`. -/
theorem handleArgList_close {α : Type} (env : Env α) (l : List Argument) (s : Server α)
    (hset : ∀ arg ∈ l, isSetKey arg.key = true → 3 ≤ (explode arg.key ':').length) :
    ∃ s1, handleArgList env l s = some s1
      ∧ ((∃ arg ∈ l, closesServer env arg) → s1.closeFlag = 1)
      ∧ ((¬ ∃ arg ∈ l, closesServer env arg) → s1.closeFlag = s.closeFlag)
      ∧ ∀ arg ∈ l, arg.key = "close".toList → atoi env.atoiOverflow arg.value ≠ 565 →
          (badParam ++ ",\n".toList) <:+: s1.htmlReply := by
  -- the state after the first loop
  have hscan : ∀ s2 : Server α,
      Grows (scanLoop env l ((s.reply okHeader).reply "\x7b\n".toList)) s2 →
      ((∃ arg ∈ l, closesServer env arg) → s2.closeFlag = 1)
      ∧ ((¬ ∃ arg ∈ l, closesServer env arg) → s2.closeFlag = s.closeFlag)
      ∧ ∀ arg ∈ l, arg.key = "close".toList → atoi env.atoiOverflow arg.value ≠ 565 →
          (badParam ++ ",\n".toList) <:+: s2.htmlReply := by
    intro s2 g
    refine ⟨fun h => ?_, fun h => ?_, fun arg hmem hk hv => ?_⟩
    · rw [g.1]; exact scanLoop_closeFlag_pos env l _ h
    · rw [g.1, scanLoop_closeFlag_neg env l _ h]; rfl
    · exact (scanLoop_badParam env l _ arg hmem hk hv).trans g.2.isInfix
  unfold handleArgList
  simp only []
  split_ifs with hany hlock
  · exact absurd hlock (by simp [takeInstructorLock])
  · obtain ⟨s1, hs1⟩ := finishCommand_isSome env l 1
      (takeInstructorLock (scanLoop env l ((s.reply okHeader).reply "\x7b\n".toList))).2 hset
    refine ⟨s1, hs1, hscan s1 ?_⟩
    exact grows_trans (b := (takeInstructorLock
        (scanLoop env l ((s.reply okHeader).reply "\x7b\n".toList))).2)
      ⟨rfl, List.prefix_refl _⟩ (finishCommand_grows env l 1 _ s1 hs1)
  · obtain ⟨s1, hs1⟩ := finishCommand_isSome env l 0
      (scanLoop env l ((s.reply okHeader).reply "\x7b\n".toList)) hset
    exact ⟨s1, hs1, hscan s1 (finishCommand_grows env l 0 _ s1 hs1)⟩

/-- C1 (as amended). For every argument string and state in which each key that begins with
`set:` has a class and a field segment, `simstatusHandleCommand` returns; the close flag is
1 afterwards when some `close` key has a value that `atoi` reads as 565 and is unchanged
otherwise; and for every `close` key whose value `atoi` does not read as 565 the reply
contains the fragment `"error":"bad param"` followed by a comma. -/
theorem handleCommand_close_flag {α : Type} (env : Env α) (a : List Char) (s : Server α)
    (hset : ∀ arg ∈ argListOf s a, isSetKey arg.key = true → 3 ≤ (explode arg.key ':').length) :
    ∃ s1, simstatusHandleCommand env (some a) s = some s1
      ∧ ((∃ arg ∈ argListOf s a, closesServer env arg) → s1.closeFlag = 1)
      ∧ ((¬ ∃ arg ∈ argListOf s a, closesServer env arg) → s1.closeFlag = s.closeFlag)
      ∧ ∀ arg ∈ argListOf s a, arg.key = "close".toList →
          atoi env.atoiOverflow arg.value ≠ 565 →
          (badParam ++ ",\n".toList) <:+: s1.htmlReply := by
  unfold simstatusHandleCommand
  unfold argListOf at hset ⊢
  by_cases ha : a.length = 0
  · simp only [ha, if_true] at hset ⊢
    exact handleArgList_close env _ { s with defaultArgs := (parseArgs s.defaultArgs).2 } hset
  · simp only [ha, if_false] at hset ⊢
    exact handleArgList_close env _ s hset

/-- Witness of C1: the request arguments `close=200` on the server as started. -/
theorem close_200_is_refused :
    argListOf exampleServer "close=200".toList = [⟨"close".toList, "200".toList⟩]
      ∧ ∃ s1, simstatusHandleCommand exampleEnv (some "close=200".toList) exampleServer = some s1
        ∧ s1.closeFlag = 0
        ∧ (badParam ++ ",\n".toList) <:+: s1.htmlReply := by
  have hl : argListOf exampleServer "close=200".toList = [⟨"close".toList, "200".toList⟩] := by
    decide
  obtain ⟨s1, h1, _, h3, h4⟩ :=
    handleCommand_close_flag exampleEnv "close=200".toList exampleServer
      (by rw [hl]; decide)
  refine ⟨hl, s1, h1, ?_, ?_⟩
  · rw [h3]
    · rfl
    · rw [hl]; unfold closesServer; decide
  · exact h4 ⟨"close".toList, "200".toList⟩ (by rw [hl]; simp) rfl (by decide)

set_option maxRecDepth 100000 in
/-- Counterexample to C1 as stated: the value `565abc` is not the text `565`, yet it sets
the close flag, and the reply has no `"error":"bad param"` fragment. -/
theorem close_565abc_is_accepted :
    "565abc".toList ≠ "565".toList ∧ exampleServer.closeFlag = 0
      ∧ ∃ s1, simstatusHandleCommand exampleEnv (some "close=565abc".toList) exampleServer = some s1
        ∧ s1.closeFlag = 1 ∧ ¬ badParam <:+: s1.htmlReply := by
  refine ⟨by decide, rfl, _, rfl, by decide, by decide⟩

/-- C2 (failing inputs). A GET without a question mark, and a request whose method is
neither GET nor POST, leave `args` null while the path is `simstatus.cgi`;
`simstatusHandleCommand` is then entered with the null pointer and `strlen(args)` reads
through it, so no reply is produced. -/
theorem null_args_request_fails {α : Type} (env : Env α) (s : Server α) :
    parseRequest "GET /simstatus.cgi HTTP/1.1\r\n\r\n".toList
        = some ⟨1, some "simstatus.cgi".toList, none⟩
      ∧ simstatusRequest env "GET /simstatus.cgi HTTP/1.1\r\n\r\n".toList s = none
      ∧ parseRequest "PUT /cgi-bin/simstatus.cgi HTTP/1.1\r\n\r\n".toList
        = some ⟨0, some "cgi-bin/simstatus.cgi".toList, none⟩
      ∧ simstatusRequest env "PUT /cgi-bin/simstatus.cgi HTTP/1.1\r\n\r\n".toList s = none := by
  have h1 : parseRequest "GET /simstatus.cgi HTTP/1.1\r\n\r\n".toList
      = some ⟨1, some "simstatus.cgi".toList, none⟩ := by decide
  have h2 : parseRequest "PUT /cgi-bin/simstatus.cgi HTTP/1.1\r\n\r\n".toList
      = some ⟨0, some "cgi-bin/simstatus.cgi".toList, none⟩ := by decide
  refine ⟨h1, ?_, h2, ?_⟩
  · unfold simstatusRequest
    rw [h1]
    rfl
  · unfold simstatusRequest
    rw [h2]
    rfl

/-- C3 (failing inputs). For the keys `set:`, `set:cardiac` and `set:cardiac:` the vector
returned by `explode` has one or two elements, and `simstatusHandleCommand` reads `v[1]` or
`v[2]` past its end: no `set_<n>` fragment with a status is produced. -/
theorem short_set_key_fails {α : Type} (env : Env α) (s : Server α) :
    explode "set:".toList ':' = ["set".toList]
      ∧ simstatusHandleCommand env (some "set:=80".toList) s = none
      ∧ explode "set:cardiac".toList ':' = ["set".toList, "cardiac".toList]
      ∧ simstatusHandleCommand env (some "set:cardiac=80".toList) s = none
      ∧ explode "set:cardiac:".toList ':' = ["set".toList, "cardiac".toList]
      ∧ simstatusHandleCommand env (some "set:cardiac:=80".toList) s = none := by
  refine ⟨by decide, rfl, by decide, rfl, by decide, rfl⟩

/-- C13, as the code has it: a request from which a path is extracted that is neither
`simstatus.cgi` nor `cgi-bin/simstatus.cgi` is answered with the text of `sendNotFound`, which
begins with the status line `HTTP/1.1 404 Not Found`, announces the content type `text` and
carries an HTML page in which the requested path is written between two fixed parts; the
shared memory, the close flag, `defaultArgs` and the instructor lock are as before. -/
theorem unknown_path_not_found {α : Type} (env : Env α) (req : List Char) (s : Server α)
    (r : Request) (path : List Char) (hreq : req.length > 0)
    (hparse : parseRequest req = some r) (hpath : r.path = some path)
    (h1 : path ≠ "simstatus.cgi".toList) (h2 : path ≠ "cgi-bin/simstatus.cgi".toList) :
    simstatusRequest env req s
        = some { s with htmlReply := notFoundBefore ++ path ++ notFoundAfter }
      ∧ "HTTP/1.1 404 Not Found\r\n".toList <+: notFoundBefore ++ path ++ notFoundAfter :=
  ⟨simstatusRequest_unknown_path env req s r path hreq hparse hpath h1 h2,
    ⟨_, by simp only [notFoundBefore, List.append_assoc]; rfl⟩⟩

set_option maxRecDepth 100000 in
/-- Witness of C13: the request `GET /bogus.cgi?x=1 HTTP/1.1`. -/
theorem bogus_path_not_found :
    simstatusRequest exampleEnv bogusRequest exampleServer
        = some { exampleServer with
                  htmlReply := notFoundBefore ++ "bogus.cgi".toList ++ notFoundAfter }
      ∧ "HTTP/1.1 404 Not Found\r\n".toList
          <+: notFoundBefore ++ "bogus.cgi".toList ++ notFoundAfter :=
  unknown_path_not_found exampleEnv bogusRequest exampleServer
    ⟨1, some "bogus.cgi".toList, some "x=1".toList⟩ "bogus.cgi".toList
    (by decide) (by decide) rfl (by decide) (by decide)

set_option maxRecDepth 100000 in
/-- Counterexample to C13 as stated: the requests for `/bogus.cgi` and for `/index.html` are
both answered with a 404 reply, and the two replies differ. -/
theorem not_found_reply_names_path :
    ∃ s1 s2, simstatusRequest exampleEnv bogusRequest exampleServer = some s1
      ∧ simstatusRequest exampleEnv otherRequest exampleServer = some s2
      ∧ "HTTP/1.1 404 Not Found\r\n".toList <+: s1.htmlReply
      ∧ "HTTP/1.1 404 Not Found\r\n".toList <+: s2.htmlReply
      ∧ s1.htmlReply ≠ s2.htmlReply :=
  ⟨_, _,
    simstatusRequest_unknown_path exampleEnv bogusRequest exampleServer
      ⟨1, some "bogus.cgi".toList, some "x=1".toList⟩ "bogus.cgi".toList
      (by decide) (by decide) rfl (by decide) (by decide),
    simstatusRequest_unknown_path exampleEnv otherRequest exampleServer
      ⟨1, some "index.html".toList, none⟩ "index.html".toList
      (by decide) (by decide) rfl (by decide) (by decide),
    ⟨_, by simp only [notFoundBefore, List.append_assoc]; rfl⟩,
    ⟨_, by simp only [notFoundBefore, List.append_assoc]; rfl⟩,
    by decide⟩

set_option maxRecDepth 100000 in
/-- C16, as the code runs it: a `set:` command with an unknown field of the known classes
`pulse`, `auscultation`, `cpr` and `event` is answered with the status `invalid class`, the
status of a command with an unknown class, while an unknown field of the class `scenario` is
answered with `invalid param`. -/
theorem unknown_field_reported_as_invalid_class :
    replyTo "set:pulse:bogus=1"
        = some (setReply "pulse".toList "bogus".toList "1".toList "invalid class".toList)
      ∧ replyTo "set:auscultation:bogus=1"
        = some (setReply "auscultation".toList "bogus".toList "1".toList "invalid class".toList)
      ∧ replyTo "set:cpr:bogus=1"
        = some (setReply "cpr".toList "bogus".toList "1".toList "invalid class".toList)
      ∧ replyTo "set:event:bogus=1"
        = some (setReply "event".toList "bogus".toList "1".toList "invalid class".toList)
      ∧ replyTo "set:bogus:rate=1"
        = some (setReply "bogus".toList "rate".toList "1".toList "invalid class".toList)
      ∧ replyTo "set:scenario:bogus=1"
        = some (setReply "scenario".toList "bogus".toList "1".toList "invalid param".toList) :=
  ⟨by decide, by decide, by decide, by decide, by decide, by decide⟩

/-- C14: for every argument string, the four `replaceAll` calls applied before dispatch give
what one pass from left to right gives that replaces each `%3A` by `:`, each `%20` and each
`+` by a space and each `%2B` by `+` and copies every other character in its place; the `+`
written for a `%2B` stays.  (`decodeArgs` then cuts the result at `" HTTP/"`.) -/
theorem decoding_replaces_escapes (args : List Char) :
    decodeEscapes args = percentDecode 0 args
      ∧ decodeArgs args = cutAt " HTTP/".toList (decodeEscapes args) :=
  ⟨decodeEscapes_percentDecode args.length args (le_refl _), rfl⟩

/-- C12: for every value string `v` and each of the fields `right_dorsal`, `left_dorsal`,
`right_femoral`, `left_femoral` of the class `pulse` and `side`, `row`, `col` of the class
`auscultation`, the command `set:<class>:<field>=v` is accepted with status `ok`, and in
the reply to a following `status` query the member of that field in the object of its class
is `"<field>":"<d>"` with `d` the decimal text of `atoi v`, while the other members of the
objects `auscultation` and `pulse` hold the decimal texts of the values from before the
command. -/
theorem set_then_status_round_trip {α : Type} (env : Env α) (v x : List Char)
    (s : Server α) :
    (∃ s1,
        AcceptedOk env "set:pulse:right_dorsal".toList "pulse".toList "right_dorsal".toList v s s1
          ∧ StatusReports env x s1
              (auscultationReport s.shm.status_auscultation_side
                s.shm.status_auscultation_row s.shm.status_auscultation_col)
              (pulseReport (atoi env.atoiOverflow v) s.shm.status_pulse_left_dorsal
                s.shm.status_pulse_right_femoral s.shm.status_pulse_left_femoral
                s.shm.status_pulse_duration s.shm.status_pulse_active))
      ∧ (∃ s1,
        AcceptedOk env "set:pulse:left_dorsal".toList "pulse".toList "left_dorsal".toList v s s1
          ∧ StatusReports env x s1
              (auscultationReport s.shm.status_auscultation_side
                s.shm.status_auscultation_row s.shm.status_auscultation_col)
              (pulseReport s.shm.status_pulse_right_dorsal (atoi env.atoiOverflow v)
                s.shm.status_pulse_right_femoral s.shm.status_pulse_left_femoral
                s.shm.status_pulse_duration s.shm.status_pulse_active))
      ∧ (∃ s1,
        AcceptedOk env "set:pulse:right_femoral".toList "pulse".toList "right_femoral".toList v s s1
          ∧ StatusReports env x s1
              (auscultationReport s.shm.status_auscultation_side
                s.shm.status_auscultation_row s.shm.status_auscultation_col)
              (pulseReport s.shm.status_pulse_right_dorsal s.shm.status_pulse_left_dorsal
                (atoi env.atoiOverflow v) s.shm.status_pulse_left_femoral
                s.shm.status_pulse_duration s.shm.status_pulse_active))
      ∧ (∃ s1,
        AcceptedOk env "set:pulse:left_femoral".toList "pulse".toList "left_femoral".toList v s s1
          ∧ StatusReports env x s1
              (auscultationReport s.shm.status_auscultation_side
                s.shm.status_auscultation_row s.shm.status_auscultation_col)
              (pulseReport s.shm.status_pulse_right_dorsal s.shm.status_pulse_left_dorsal
                s.shm.status_pulse_right_femoral (atoi env.atoiOverflow v)
                s.shm.status_pulse_duration s.shm.status_pulse_active))
      ∧ (∃ s1,
        AcceptedOk env "set:auscultation:side".toList "auscultation".toList "side".toList v s s1
          ∧ StatusReports env x s1
              (auscultationReport (atoi env.atoiOverflow v) s.shm.status_auscultation_row
                s.shm.status_auscultation_col)
              (pulseReport s.shm.status_pulse_right_dorsal s.shm.status_pulse_left_dorsal
                s.shm.status_pulse_right_femoral s.shm.status_pulse_left_femoral
                s.shm.status_pulse_duration s.shm.status_pulse_active))
      ∧ (∃ s1,
        AcceptedOk env "set:auscultation:row".toList "auscultation".toList "row".toList v s s1
          ∧ StatusReports env x s1
              (auscultationReport s.shm.status_auscultation_side (atoi env.atoiOverflow v)
                s.shm.status_auscultation_col)
              (pulseReport s.shm.status_pulse_right_dorsal s.shm.status_pulse_left_dorsal
                s.shm.status_pulse_right_femoral s.shm.status_pulse_left_femoral
                s.shm.status_pulse_duration s.shm.status_pulse_active))
      ∧ (∃ s1,
        AcceptedOk env "set:auscultation:col".toList "auscultation".toList "col".toList v s s1
          ∧ StatusReports env x s1
              (auscultationReport s.shm.status_auscultation_side
                s.shm.status_auscultation_row (atoi env.atoiOverflow v))
              (pulseReport s.shm.status_pulse_right_dorsal s.shm.status_pulse_left_dorsal
                s.shm.status_pulse_right_femoral s.shm.status_pulse_left_femoral
                s.shm.status_pulse_duration s.shm.status_pulse_active)) :=
  ⟨⟨afterSetOk "set:pulse:right_dorsal".toList "pulse".toList "right_dorsal".toList v
      { s.shm with status_pulse_right_dorsal := atoi env.atoiOverflow v } s,
    ⟨rfl, afterSetOk_reply _ _ _ _ _ _⟩, statusReports_shm env x _⟩,
   ⟨afterSetOk "set:pulse:left_dorsal".toList "pulse".toList "left_dorsal".toList v
      { s.shm with status_pulse_left_dorsal := atoi env.atoiOverflow v } s,
    ⟨rfl, afterSetOk_reply _ _ _ _ _ _⟩, statusReports_shm env x _⟩,
   ⟨afterSetOk "set:pulse:right_femoral".toList "pulse".toList "right_femoral".toList v
      { s.shm with status_pulse_right_femoral := atoi env.atoiOverflow v } s,
    ⟨rfl, afterSetOk_reply _ _ _ _ _ _⟩, statusReports_shm env x _⟩,
   ⟨afterSetOk "set:pulse:left_femoral".toList "pulse".toList "left_femoral".toList v
      { s.shm with status_pulse_left_femoral := atoi env.atoiOverflow v } s,
    ⟨rfl, afterSetOk_reply _ _ _ _ _ _⟩, statusReports_shm env x _⟩,
   ⟨afterSetOk "set:auscultation:side".toList "auscultation".toList "side".toList v
      { s.shm with status_auscultation_side := atoi env.atoiOverflow v } s,
    ⟨rfl, afterSetOk_reply _ _ _ _ _ _⟩, statusReports_shm env x _⟩,
   ⟨afterSetOk "set:auscultation:row".toList "auscultation".toList "row".toList v
      { s.shm with status_auscultation_row := atoi env.atoiOverflow v } s,
    ⟨rfl, afterSetOk_reply _ _ _ _ _ _⟩, statusReports_shm env x _⟩,
   ⟨afterSetOk "set:auscultation:col".toList "auscultation".toList "col".toList v
      { s.shm with status_auscultation_col := atoi env.atoiOverflow v } s,
    ⟨rfl, afterSetOk_reply _ _ _ _ _ _⟩, statusReports_shm env x _⟩⟩

set_option maxRecDepth 1000000 in
/-- Example for C12: in the example server `set:pulse:left_femoral= 42abc` is accepted with
status `ok` and the object `pulse` in the reply to the following `status` query reads
`"left_femoral":"42"`; the decimal texts of 42, -7 and 0 are `42`, `-7` and `0`. -/
theorem left_femoral_reads_back_42 :
    (∃ s1 s2, handleArgList exampleEnv [⟨"set:pulse:left_femoral".toList, fortyTwoText⟩]
            exampleServer = some s1
        ∧ s1.htmlReply = setReply "pulse".toList "left_femoral".toList fortyTwoText
            "ok".toList
        ∧ handleArgList exampleEnv [⟨"status".toList, "1".toList⟩] s1 = some s2
        ∧ ∃ a c, s2.htmlReply = s1.htmlReply ++ okHeader ++ "\x7b\n".toList ++ a
            ++ (" \"pulse\" : \x7b\n\"right_dorsal\":\"0\",\n\"left_dorsal\":\"0\",\n"
                ++ "\"right_femoral\":\"0\",\n\"left_femoral\":\"42\",\n"
                ++ "\"duration\":\"0\",\n\"active\":\"0\"\n\x7d,\n").toList ++ c)
      ∧ decimalText 42 = "42".toList ∧ decimalText (-7) = "-7".toList
      ∧ decimalText 0 = "0".toList := by
  obtain ⟨s1, ⟨h1, h2⟩, s2, a, h3, h4⟩ :=
    (set_then_status_round_trip exampleEnv fortyTwoText "1".toList exampleServer).2.2.2.1
  refine ⟨⟨s1, s2, h1, h2, h3, a ++ auscultationReport 0 0 0
      ++ exampleEnv.statusGeneralVocals s2.shm,
    exampleEnv.statusMediaToControllers s2.shm ++ "\n\x7d\n".toList, ?_⟩,
    by decide, by decide, by decide⟩
  rw [h4]
  simp only [List.append_assoc]
  rfl

/-- C18, as the code has it: for every non-empty argument list whose `set:` keys have their
class and field segments, the handler returns and the JSON object it writes holds first the
fragments of the session keys and of the `close` keys, in the order of these keys, then one
fragment for each key of the list, in the order of the keys; consecutive fragments are
separated by one comma and a line feed, and the handler writes no comma between the opening
brace and the first fragment or between the last fragment and the closing brace. -/
theorem reply_fragments_comma_joined {α : Type} (env : Env α) (l : List Argument)
    (s : Server α) (hl : l ≠ [])
    (hset : ∀ arg ∈ l, isSetKey arg.key = true → 3 ≤ (explode arg.key ':').length) :
    ∃ s1 q, handleArgList env l s = some s1
      ∧ commandFragments env l 0 s.shm = some q
      ∧ q.1.length = l.length
      ∧ s1.htmlReply = s.htmlReply ++ okHeader ++ "\x7b\n".toList
          ++ commaJoined (l.filterMap (sessionFragment env) ++ q.1) ++ "\n\x7d\n".toList := by
  obtain ⟨s1, h, _⟩ := handleArgList_close env l s hset
  have key : ∃ s0 taken, finishCommand env l taken s0 = some s1 ∧ s0.shm = s.shm
      ∧ s0.htmlReply = s.htmlReply ++ okHeader ++ "\x7b\n".toList
          ++ commaAfterEach (l.filterMap (sessionFragment env)) := by
    unfold handleArgList at h
    simp only [] at h
    split_ifs at h with hany hfail
    · exact absurd hfail (by simp [takeInstructorLock])
    · exact ⟨_, _, h, by simp only [takeInstructorLock, scanLoop_shm, Server.reply],
        by simp only [takeInstructorLock, scanLoop_reply, Server.reply]⟩
    · exact ⟨_, _, h, by simp only [scanLoop_shm, Server.reply],
        by simp only [scanLoop_reply, Server.reply]⟩
  obtain ⟨s0, taken, hfin, hshm, hreply⟩ := key
  obtain ⟨q, hq, hr⟩ := finishCommand_fragments env l taken s0 s1 hfin
  rw [hshm] at hq
  have hlen := commandFragments_length env l 0 s.shm q hq
  refine ⟨s1, q, h, hq, hlen, ?_⟩
  have hne : q.1 ≠ [] := by
    intro e
    rw [e] at hlen
    exact hl (List.length_eq_zero.mp hlen.symm)
  rw [hr, hreply, ← commaAfterEach_joined _ _ hne]
  simp only [List.append_assoc]

/-- Witness of C18: a `date` query followed by `close=565`. -/
theorem date_then_close_fragments :
    ∃ s1 q, handleArgList exampleEnv dateThenClose exampleServer = some s1
      ∧ commandFragments exampleEnv dateThenClose 0 exampleServer.shm = some q
      ∧ q.1.length = dateThenClose.length
      ∧ s1.htmlReply = exampleServer.htmlReply ++ okHeader ++ "\x7b\n".toList
          ++ commaJoined (dateThenClose.filterMap (sessionFragment exampleEnv) ++ q.1)
          ++ "\n\x7d\n".toList :=
  reply_fragments_comma_joined exampleEnv dateThenClose exampleServer (by decide) (by decide)

set_option maxRecDepth 100000 in
/-- Counterexample to C18 as stated: in the reply to `date=1&close=565` the fragment of the
second key, `close`, comes before the fragment of the first key, `date`, and the key `close`
has a second fragment, `"Invalid Command":"none"`, at the end. -/
theorem close_fragment_precedes_date :
    (handleArgList exampleEnv dateThenClose exampleServer).map (fun s => s.htmlReply)
      = some (okHeader ++ "\x7b\n".toList
          ++ makejson "close".toList "565".toList ++ ",\n".toList
          ++ makejson "date".toList "Jan 01, 2001".toList ++ ",\n".toList
          ++ makejson "Invalid Command".toList "none".toList ++ "\n\x7d\n".toList) := by
  decide

set_option maxRecDepth 1000000 in
/-- C29 (fails). Two successive GET requests with an empty argument string on the same
shared memory: the first is handled as `status=1` and its reply holds the status blocks;
its parse overwrites the `=` of the array `defaultArgs` with a NUL, so the second builds an
empty argument list and its reply is the header and an empty object, without a status
fragment. -/
theorem second_empty_request_loses_status :
    (parseRequest emptyArgsGet).map (fun r => r.args) = some (some [])
      ∧ ∃ s1 s2, simstatusRequest exampleEnv emptyArgsGet exampleServer = some s1
        ∧ simstatusRequest exampleEnv emptyArgsGet s1 = some s2
        ∧ s1.shm = exampleServer.shm ∧ s2.shm = exampleServer.shm
        ∧ s1.htmlReply = okHeader ++ "\x7b\n".toList ++ (sendStatus exampleEnv exampleShm).1
            ++ "\n\x7d\n".toList
        ∧ s2.htmlReply = okHeader ++ "\x7b\n".toList ++ "\n\x7d\n".toList
        ∧ exampleServer.defaultArgs = "status=1".toList ++ [NUL]
        ∧ s1.defaultArgs = "status".toList ++ [NUL] ++ "1".toList ++ [NUL]
        ∧ argListOf exampleServer [] = [⟨"status".toList, "1".toList⟩]
        ∧ argListOf s1 [] = [] := by
  refine ⟨by decide, _, _, rfl, rfl, rfl, rfl, ?_, ?_, rfl, ?_, ?_, ?_⟩
  all_goals decide

/-! ## Lemmas about the ring buffers of events and comments -/

/-- The index after `n` ring buffer writes. -/
theorem ringWrite_index {β : Type} (size : Nat) (xs : List β) (r : List β × Nat)
    (hidx : r.2 < size) :
    (xs.foldl (ringWrite size) r).2 = (r.2 + xs.length) % size := by
  induction xs using List.reverseRecOn with
  | nil => exact (Nat.mod_eq_of_lt hidx).symm
  | append_singleton xs x ih =>
    rw [List.foldl_append, List.foldl_cons, List.foldl_nil, ringWrite, ih,
      List.length_append, List.length_singleton, Nat.mod_add_mod, Nat.add_assoc]

/-- The number of slots stays. -/
theorem ringWrite_length {β : Type} (size : Nat) (xs : List β) (r : List β × Nat) :
    (xs.foldl (ringWrite size) r).1.length = r.1.length := by
  induction xs generalizing r with
  | nil => rfl
  | cons x xs ih => rw [List.foldl_cons, ih, ringWrite, List.length_set]

/-- After `n` ring buffer writes from an index inside the list, each of the last `size`
entries written is in its slot. -/
theorem ringWrite_slots {β : Type} (size : Nat) (xs : List β) (r : List β × Nat)
    (hlen : r.1.length = size) (hidx : r.2 < size) (j : Nat) (hj : j < xs.length)
    (hlast : xs.length ≤ j + size) :
    (xs.foldl (ringWrite size) r).1[(r.2 + j) % size]? = xs[j]? := by
  have hpos : 0 < size := by omega
  induction xs using List.reverseRecOn generalizing j with
  | nil => exact absurd hj (Nat.not_lt_zero _)
  | append_singleton xs x ih =>
    rw [List.foldl_append, List.foldl_cons, List.foldl_nil, ringWrite,
      ringWrite_index size xs r hidx]
    simp only [List.length_append, List.length_singleton] at hj hlast
    by_cases hjn : j = xs.length
    · subst hjn
      rw [List.getElem?_set_self, List.getElem?_concat_length]
      rw [ringWrite_length, hlen]
      exact Nat.mod_lt _ hpos
    · have hj1 : j < xs.length := by omega
      have hne : (r.2 + xs.length) % size ≠ (r.2 + j) % size := by
        intro h
        have h1 := Nat.sub_mod_eq_zero_of_mod_eq h
        have h2 : r.2 + xs.length - (r.2 + j) = xs.length - j := by omega
        rw [h2, Nat.mod_eq_of_lt (by omega)] at h1
        omega
      rw [List.getElem?_set_ne hne, ih j hj1 (by omega), List.getElem?_append_left hj1]

/-- One call of `addEvent` from an index inside the list is a ring buffer write of the text
cut to `STR_SIZE - 1` characters. -/
theorem addEvent_ring {α : Type} (env : Env α) (str : List Char) (m : Shm α)
    (hlo : 0 ≤ m.eventListNextWrite) (hhi : m.eventListNextWrite < env.EVENT_LIST_SIZE) :
    ((addEvent env str m).eventList, (addEvent env str m).eventListNextWrite.toNat)
        = ringWrite env.EVENT_LIST_SIZE (m.eventList, m.eventListNextWrite.toNat)
            (str.take (env.STR_SIZE - 1))
      ∧ 0 ≤ (addEvent env str m).eventListNextWrite
      ∧ (addEvent env str m).commentList = m.commentList
      ∧ (addEvent env str m).commentListNext = m.commentListNext := by
  have hnext : (addEvent env str m).eventListNextWrite
      = if m.eventListNextWrite + 1 ≥ (env.EVENT_LIST_SIZE : Int) then 0
        else m.eventListNextWrite + 1 := by
    unfold addEvent; simp only []; split_ifs <;> rfl
  have hlist : (addEvent env str m).eventList
      = m.eventList.set m.eventListNextWrite.toNat (str.take (env.STR_SIZE - 1)) := by
    unfold addEvent sprintf_s; simp only []; split_ifs <;> rfl
  have hc1 : (addEvent env str m).commentList = m.commentList := by
    unfold addEvent; simp only []; split_ifs <;> rfl
  have hc2 : (addEvent env str m).commentListNext = m.commentListNext := by
    unfold addEvent; simp only []; split_ifs <;> rfl
  refine ⟨?_, ?_, hc1, hc2⟩
  · rw [hlist, hnext, ringWrite]
    congr 1
    split_ifs with h
    · have : m.eventListNextWrite.toNat + 1 = env.EVENT_LIST_SIZE := by omega
      rw [this, Nat.mod_self]; rfl
    · rw [Nat.mod_eq_of_lt (by omega)]; omega
  · rw [hnext]; split_ifs <;> omega

/-- One call of `addComment` from an index inside the list is a ring buffer write of the text
cut to `COMMENT_SIZE - 1` characters. -/
theorem addComment_ring {α : Type} (env : Env α) (str : List Char) (m : Shm α)
    (hlo : 0 ≤ m.commentListNext) (hhi : m.commentListNext < env.COMMENT_LIST_SIZE) :
    ((addComment env str m).commentList, (addComment env str m).commentListNext.toNat)
        = ringWrite env.COMMENT_LIST_SIZE (m.commentList, m.commentListNext.toNat)
            (str.take (env.COMMENT_SIZE - 1))
      ∧ 0 ≤ (addComment env str m).commentListNext
      ∧ (addComment env str m).eventList = m.eventList
      ∧ (addComment env str m).eventListNextWrite = m.eventListNextWrite := by
  have hnext : (addComment env str m).commentListNext
      = if m.commentListNext + 1 ≥ (env.COMMENT_LIST_SIZE : Int) then 0
        else m.commentListNext + 1 := rfl
  have hlist : (addComment env str m).commentList
      = m.commentList.set m.commentListNext.toNat (str.take (env.COMMENT_SIZE - 1)) := by
    unfold addComment sprintf_s
    simp only []
    congr 1
    split_ifs with h
    · rw [List.take_take, min_self]
    · rfl
  refine ⟨?_, ?_, rfl, rfl⟩
  · rw [hlist, hnext, ringWrite]
    congr 1
    split_ifs with h
    · have : m.commentListNext.toNat + 1 = env.COMMENT_LIST_SIZE := by omega
      rw [this, Nat.mod_self]; rfl
    · rw [Nat.mod_eq_of_lt (by omega)]; omega
  · rw [hnext]; split_ifs <;> omega


/-- Calls of `addEvent` from an index inside the list are ring buffer writes. -/
theorem addEvents_ring {α : Type} (env : Env α) (strs : List (List Char)) (m : Shm α)
    (hlo : 0 ≤ m.eventListNextWrite) (hhi : m.eventListNextWrite < env.EVENT_LIST_SIZE) :
    ((addEvents env strs m).eventList, (addEvents env strs m).eventListNextWrite.toNat)
        = (strs.map (fun str => str.take (env.STR_SIZE - 1))).foldl
            (ringWrite env.EVENT_LIST_SIZE) (m.eventList, m.eventListNextWrite.toNat)
      ∧ 0 ≤ (addEvents env strs m).eventListNextWrite := by
  induction strs generalizing m with
  | nil => exact ⟨rfl, hlo⟩
  | cons str strs ih =>
    obtain ⟨h1, h2, _, _⟩ := addEvent_ring env str m hlo hhi
    have hpos : 0 < env.EVENT_LIST_SIZE := by omega
    have h3 : (addEvent env str m).eventListNextWrite < env.EVENT_LIST_SIZE := by
      have h4 := congrArg Prod.snd h1
      simp only [ringWrite] at h4
      have h5 := Nat.mod_lt (m.eventListNextWrite.toNat + 1) hpos
      omega
    have := ih (addEvent env str m) h2 h3
    rw [h1] at this
    exact this

/-- Calls of `addComment` from an index inside the list are ring buffer writes. -/
theorem addComments_ring {α : Type} (env : Env α) (strs : List (List Char)) (m : Shm α)
    (hlo : 0 ≤ m.commentListNext) (hhi : m.commentListNext < env.COMMENT_LIST_SIZE) :
    ((addComments env strs m).commentList, (addComments env strs m).commentListNext.toNat)
        = (strs.map (fun str => str.take (env.COMMENT_SIZE - 1))).foldl
            (ringWrite env.COMMENT_LIST_SIZE) (m.commentList, m.commentListNext.toNat)
      ∧ 0 ≤ (addComments env strs m).commentListNext := by
  induction strs generalizing m with
  | nil => exact ⟨rfl, hlo⟩
  | cons str strs ih =>
    obtain ⟨h1, h2, _, _⟩ := addComment_ring env str m hlo hhi
    have hpos : 0 < env.COMMENT_LIST_SIZE := by omega
    have h3 : (addComment env str m).commentListNext < env.COMMENT_LIST_SIZE := by
      have h4 := congrArg Prod.snd h1
      simp only [ringWrite] at h4
      have h5 := Nat.mod_lt (m.commentListNext.toNat + 1) hpos
      omega
    have := ih (addComment env str m) h2 h3
    rw [h1] at this
    exact this

/-! ## Claims about the ring buffers of events and comments -/

/-- C19: for every sequence of `addEvent` calls, and likewise of `addComment` calls, that
starts with the next-write index inside the list (whose length is the list size), the index
afterwards is the start index plus the number of calls modulo the list size, so it stays
inside the list, and each of the last list-size texts is in the slot at the index its call
found, cut to the slot capacity (`STR_SIZE - 1` or `COMMENT_SIZE - 1` characters); the earlier
texts of those slots are overwritten. -/
theorem ring_buffers_wrap {α : Type} (env : Env α) (m : Shm α) (events comments : List (List Char))
    (helen : m.eventList.length = env.EVENT_LIST_SIZE)
    (helo : 0 ≤ m.eventListNextWrite) (hehi : m.eventListNextWrite < env.EVENT_LIST_SIZE)
    (hclen : m.commentList.length = env.COMMENT_LIST_SIZE)
    (hclo : 0 ≤ m.commentListNext) (hchi : m.commentListNext < env.COMMENT_LIST_SIZE) :
    ((addEvents env events m).eventListNextWrite
        = ((m.eventListNextWrite.toNat + events.length) % env.EVENT_LIST_SIZE : Nat)
      ∧ 0 ≤ (addEvents env events m).eventListNextWrite
      ∧ (addEvents env events m).eventListNextWrite < env.EVENT_LIST_SIZE
      ∧ ∀ j, j < events.length → events.length ≤ j + env.EVENT_LIST_SIZE →
          (addEvents env events m).eventList[(m.eventListNextWrite.toNat + j)
              % env.EVENT_LIST_SIZE]?
            = events[j]?.map (fun str => str.take (env.STR_SIZE - 1)))
    ∧ ((addComments env comments m).commentListNext
        = ((m.commentListNext.toNat + comments.length) % env.COMMENT_LIST_SIZE : Nat)
      ∧ 0 ≤ (addComments env comments m).commentListNext
      ∧ (addComments env comments m).commentListNext < env.COMMENT_LIST_SIZE
      ∧ ∀ j, j < comments.length → comments.length ≤ j + env.COMMENT_LIST_SIZE →
          (addComments env comments m).commentList[(m.commentListNext.toNat + j)
              % env.COMMENT_LIST_SIZE]?
            = comments[j]?.map (fun str => str.take (env.COMMENT_SIZE - 1))) := by
  constructor
  · obtain ⟨h1, h2⟩ := addEvents_ring env events m helo hehi
    have hidx : m.eventListNextWrite.toNat < env.EVENT_LIST_SIZE := by omega
    have h3 : (addEvents env events m).eventListNextWrite.toNat
        = (m.eventListNextWrite.toNat + events.length) % env.EVENT_LIST_SIZE := by
      have h3 := congrArg Prod.snd h1
      rw [ringWrite_index _ _ _ hidx, List.length_map] at h3
      exact h3
    have h4 := Nat.mod_lt (m.eventListNextWrite.toNat + events.length)
      (show 0 < env.EVENT_LIST_SIZE by omega)
    have h6 : (addEvents env events m).eventListNextWrite
        = (((m.eventListNextWrite.toNat + events.length) % env.EVENT_LIST_SIZE : Nat) : Int) := by
      rw [← h3]; exact (Int.toNat_of_nonneg h2).symm
    refine ⟨h6, h2, by rw [h6]; exact_mod_cast h4, fun j hj hlast => ?_⟩
    have h5 : (addEvents env events m).eventList
        = ((events.map (fun str => str.take (env.STR_SIZE - 1))).foldl
            (ringWrite env.EVENT_LIST_SIZE) (m.eventList, m.eventListNextWrite.toNat)).1 :=
      congrArg Prod.fst h1
    rw [h5, ringWrite_slots _ _ _ helen hidx j (by rw [List.length_map]; exact hj)
      (by rw [List.length_map]; exact hlast), List.getElem?_map]
  · obtain ⟨h1, h2⟩ := addComments_ring env comments m hclo hchi
    have hidx : m.commentListNext.toNat < env.COMMENT_LIST_SIZE := by omega
    have h3 : (addComments env comments m).commentListNext.toNat
        = (m.commentListNext.toNat + comments.length) % env.COMMENT_LIST_SIZE := by
      have h3 := congrArg Prod.snd h1
      rw [ringWrite_index _ _ _ hidx, List.length_map] at h3
      exact h3
    have h4 := Nat.mod_lt (m.commentListNext.toNat + comments.length)
      (show 0 < env.COMMENT_LIST_SIZE by omega)
    have h6 : (addComments env comments m).commentListNext
        = (((m.commentListNext.toNat + comments.length) % env.COMMENT_LIST_SIZE : Nat) : Int) := by
      rw [← h3]; exact (Int.toNat_of_nonneg h2).symm
    refine ⟨h6, h2, by rw [h6]; exact_mod_cast h4, fun j hj hlast => ?_⟩
    have h5 : (addComments env comments m).commentList
        = ((comments.map (fun str => str.take (env.COMMENT_SIZE - 1))).foldl
            (ringWrite env.COMMENT_LIST_SIZE) (m.commentList, m.commentListNext.toNat)).1 :=
      congrArg Prod.fst h1
    rw [h5, ringWrite_slots _ _ _ hclen hidx j (by rw [List.length_map]; exact hj)
      (by rw [List.length_map]; exact hlast), List.getElem?_map]

/-- Witness of C19: five events from slot 3 of four slots and three comments from slot 2 of
four. -/
theorem ring_buffers_wrap_four_slots :
    ((addEvents smallRingEnv fiveEvents ringsNearWrap).eventListNextWrite
        = ((ringsNearWrap.eventListNextWrite.toNat + fiveEvents.length)
            % smallRingEnv.EVENT_LIST_SIZE : Nat)
      ∧ 0 ≤ (addEvents smallRingEnv fiveEvents ringsNearWrap).eventListNextWrite
      ∧ (addEvents smallRingEnv fiveEvents ringsNearWrap).eventListNextWrite
          < smallRingEnv.EVENT_LIST_SIZE
      ∧ ∀ j, j < fiveEvents.length → fiveEvents.length ≤ j + smallRingEnv.EVENT_LIST_SIZE →
          (addEvents smallRingEnv fiveEvents ringsNearWrap).eventList[
              (ringsNearWrap.eventListNextWrite.toNat + j) % smallRingEnv.EVENT_LIST_SIZE]?
            = fiveEvents[j]?.map (fun str => str.take (smallRingEnv.STR_SIZE - 1)))
    ∧ ((addComments smallRingEnv threeComments ringsNearWrap).commentListNext
        = ((ringsNearWrap.commentListNext.toNat + threeComments.length)
            % smallRingEnv.COMMENT_LIST_SIZE : Nat)
      ∧ 0 ≤ (addComments smallRingEnv threeComments ringsNearWrap).commentListNext
      ∧ (addComments smallRingEnv threeComments ringsNearWrap).commentListNext
          < smallRingEnv.COMMENT_LIST_SIZE
      ∧ ∀ j, j < threeComments.length →
          threeComments.length ≤ j + smallRingEnv.COMMENT_LIST_SIZE →
          (addComments smallRingEnv threeComments ringsNearWrap).commentList[
              (ringsNearWrap.commentListNext.toNat + j) % smallRingEnv.COMMENT_LIST_SIZE]?
            = threeComments[j]?.map (fun str => str.take (smallRingEnv.COMMENT_SIZE - 1))) :=
  ring_buffers_wrap smallRingEnv ringsNearWrap fiveEvents threeComments
    (by decide) (by decide) (by decide) (by decide) (by decide) (by decide)

/-! ## Claims about the XML reader -/

set_option maxRecDepth 1000000 in
/-- C30 (fails after another closing tag). For a file that holds
`<list> <item>x</item> </list>` after a prolog and a comment, and for the file
`<list><item></item></list>`, the closing tag of `item`, met after a text and after an
opening tag, is returned with the name `item`; the closing tag of `list`, met after
another closing tag, is returned with the name `lis`: the branch of the states `initial`
and `closedElement` copies one byte less than the name holds. -/
theorem end_element_after_close_loses_last_char :
    getEntries 5 (xmlOpen listWithItem (xmlFresh 64)) = some
        [(XmlType.XML_TYPE_ELEMENT, "list".toList, []),
         (XmlType.XML_TYPE_ELEMENT, "item".toList, []),
         (XmlType.XML_TYPE_TEXT, "item".toList, "x".toList),
         (XmlType.XML_TYPE_END_ELEMENT, "item".toList, []),
         (XmlType.XML_TYPE_END_ELEMENT, "lis".toList, [])]
      ∧ getEntries 4 (xmlOpen listWithEmptyItem (xmlFresh 64)) = some
        [(XmlType.XML_TYPE_ELEMENT, "list".toList, []),
         (XmlType.XML_TYPE_ELEMENT, "item".toList, []),
         (XmlType.XML_TYPE_END_ELEMENT, "item".toList, []),
         (XmlType.XML_TYPE_END_ELEMENT, "lis".toList, [])] :=
  ⟨by decide, by decide⟩

end OpenVetSim
